import Mathlib

/-!
# real_time_market_data: a verification development

Shallow embedding of the ingestion core of the repository
(`subscription_manager.cpp`, `ingest_queue.cpp`, `parser.cpp`,
`ltp_store.cpp`, `sharder.cpp`) and theorems about it.

Conventions of the embedding.

* `std::size_t` values are natural numbers below `2^64`; arithmetic that can
  wrap is written with an explicit `% 2^64`.
* `std::unordered_set<std::string>` is a duplicate-free list; the order of the
  list stands for the container's unspecified iteration order, and no theorem
  below depends on it.
* A `double` is carried as its 64-bit pattern and never computed with; the
  numeric conversions of the C and JSON libraries are parameters (`Lib`).
* A JSON document is a value of `Json`; `json::parse` is a parameter and
  `json::dump` is not modelled: the payload builders return the documents that
  the C++ code serialises.
-/

namespace RTMD

/-! ## Values shared by the components -/

/-- A C++ `double`, carried as its IEEE-754 bit pattern. -/
structure Double where
  bits : Nat
  deriving DecidableEq, Repr

/-- A value of `nlohmann::json`. Objects are association lists read with
`List.lookup` (the first binding of a key is the one the object holds). -/
inductive Json where
  | null
  | bool (b : Bool)
  | int (n : Int)
  | float (x : Double)
  | str (s : String)
  | arr (xs : List Json)
  | obj (kvs : List (String × Json))

namespace Json

/-- Source: `j.is_array()` -/
def is_array : Json → Bool
  | arr _ => true
  | _ => false

/-- Source: `j.is_object()` -/
def is_object : Json → Bool
  | obj _ => true
  | _ => false

/-- Source: `j.empty()`: null, empty arrays and empty objects are empty. -/
def empty : Json → Bool
  | null => true
  | arr xs => xs.isEmpty
  | obj kvs => kvs.isEmpty
  | _ => false

/-- Source: `j.contains(k)`: only an object contains keys. -/
def contains : Json → String → Bool
  | obj kvs, k => (kvs.lookup k).isSome
  | _, _ => false

/-- Source: `j.at(k)` (also `j[k]` for a key that is present). -/
def at? : Json → String → Option Json
  | obj kvs, k => kvs.lookup k
  | _, _ => none

/-- Source: `j.front()` of an array. -/
def front? : Json → Option Json
  | arr (x :: _) => some x
  | _ => none

end Json

/-! ## SubscriptionManager (`subscription_manager.cpp`) -/

/-- A `std::unordered_set<std::string>`: a list without duplicates. -/
structure TokenSet where
  elems : List String
  nodup : elems.Nodup

namespace TokenSet

/-- The empty set of a freshly constructed object. -/
def empty : TokenSet := ⟨[], List.nodup_nil⟩

/-- Source: `s.count(t)`: 1 when present, else 0. -/
def count (s : TokenSet) (t : String) : Nat := if t ∈ s.elems then 1 else 0

/-- Source: `s.insert(t)`: no effect when `t` is already present. -/
def insert (s : TokenSet) (t : String) : TokenSet :=
  if h : t ∈ s.elems then s
  else ⟨s.elems ++ [t], List.Nodup.append s.nodup (List.nodup_singleton t)
          (by
            intro a ha hb
            rw [List.mem_singleton] at hb
            exact h (hb ▸ ha))⟩

/-- Source: `s.erase(t)` -/
def erase (s : TokenSet) (t : String) : TokenSet :=
  ⟨s.elems.erase t, s.nodup.erase t⟩

/-- Source: `s.clear()` -/
def clear (_s : TokenSet) : TokenSet := empty

/-- Source: `s.size()` -/
def size (s : TokenSet) : Nat := s.elems.length

end TokenSet

/-- Source: `SubscriptionManager::Mode` -/
inductive Mode where
  | LTP
  | QUOTE
  | FULL
  deriving DecidableEq, Repr

/-- The data members of `SubscriptionManager` (logger and mutex left out). -/
structure SubscriptionManager where
  mode_ : Mode
  batch_size_ : Nat
  token_formatter_ : Option (String → String)
  desired_ : TokenSet
  active_ : TokenSet

/-- The loop shared, text for text, by `SubscriptionManager::make_batches` and
`Sharder::Impl::shard`:
`for (i = start; i < items.size(); i += n) out.emplace_back(items[i, min(size, i+n)))`.
The first argument bounds the number of iterations; `items.length` is always
enough when `n ≥ 1` (theorem `sliceLoop_eq`). The index cannot wrap: a body
run at `i > 0` has `n ≤ i < items.size()`, and a vector's size is below `2^63`. -/
def sliceLoop (items : List String) (n : Nat) :
    Nat → Nat → List (List String) → List (List String)
  | 0, _, out => out
  | fuel + 1, i, out =>
    if i < items.length then
      let last := min items.length (i + n)
      sliceLoop items n fuel (i + n) (out ++ [(items.drop i).take (last - i)])
    else out

namespace SubscriptionManager

/-- The constructor: a batch size of 0 becomes 100; both sets start empty. -/
def new (mode : Mode) (batch_size : Nat) (token_formatter : Option (String → String)) :
    SubscriptionManager :=
  { mode_ := mode
    batch_size_ := if batch_size ≠ 0 then batch_size else 100
    token_formatter_ := token_formatter
    desired_ := TokenSet.empty
    active_ := TokenSet.empty }

def add (s : SubscriptionManager) (token : String) : SubscriptionManager :=
  { s with desired_ := s.desired_.insert token }

def add_many (s : SubscriptionManager) (tokens : List String) : SubscriptionManager :=
  { s with desired_ := tokens.foldl TokenSet.insert s.desired_ }

def remove (s : SubscriptionManager) (token : String) : SubscriptionManager :=
  { s with desired_ := s.desired_.erase token }

def clear (s : SubscriptionManager) : SubscriptionManager :=
  { s with desired_ := s.desired_.clear }

def set_mode (s : SubscriptionManager) (m : Mode) : SubscriptionManager :=
  { s with mode_ := m }

def set_batch_size (s : SubscriptionManager) (n : Nat) : SubscriptionManager :=
  { s with batch_size_ := if n ≠ 0 then n else 100 }

def set_token_formatter (s : SubscriptionManager) (fmt : Option (String → String)) :
    SubscriptionManager :=
  { s with token_formatter_ := fmt }

def mark_subscribed (s : SubscriptionManager) (tokens : List String) : SubscriptionManager :=
  { s with active_ := tokens.foldl TokenSet.insert s.active_ }

def mark_unsubscribed (s : SubscriptionManager) (tokens : List String) : SubscriptionManager :=
  { s with active_ := tokens.foldl TokenSet.erase s.active_ }

def desired_snapshot (s : SubscriptionManager) : List String := s.desired_.elems

def active_snapshot (s : SubscriptionManager) : List String := s.active_.elems

/-- Source: `for (auto& t : desired_) if (!active_.count(t)) res.push_back(t);` -/
def diff_desired_minus_active (s : SubscriptionManager) : List String :=
  s.desired_.elems.filter (fun t => s.active_.count t == 0)

/-- Source: `for (auto& t : active_) if (!desired_.count(t)) res.push_back(t);` -/
def diff_active_minus_desired (s : SubscriptionManager) : List String :=
  s.active_.elems.filter (fun t => s.desired_.count t == 0)

def mode_string (s : SubscriptionManager) : String :=
  match s.mode_ with
  | Mode.LTP => "ltp"
  | Mode.QUOTE => "quote"
  | Mode.FULL => "full"

def fmt_token (s : SubscriptionManager) (t : String) : String :=
  match s.token_formatter_ with
  | some f => f t
  | none => t

/-- The document that `build_payload` serialises with `j.dump()`. -/
def build_payload (s : SubscriptionManager) (batch : List String) (subscribe : Bool) : Json :=
  Json.obj
    [ ("action", Json.str (if subscribe then "subscribe" else "unsubscribe")),
      ("mode", Json.str s.mode_string),
      ("tokens", Json.arr (batch.map (fun t => Json.str (s.fmt_token t)))) ]

def make_batches (s : SubscriptionManager) (items : List String) : List (List String) :=
  if items.isEmpty then []
  else
    let n := if s.batch_size_ ≠ 0 then s.batch_size_ else 100
    sliceLoop items n items.length 0 []

def build_subscribe_batches (s : SubscriptionManager) : List Json :=
  let need := s.diff_desired_minus_active
  (s.make_batches need).map (fun batch => s.build_payload batch true)

def build_unsubscribe_batches (s : SubscriptionManager) : List Json :=
  let need := s.diff_active_minus_desired
  (s.make_batches need).map (fun batch => s.build_payload batch false)

end SubscriptionManager

/-- The strings of the `tokens` array of a payload document. -/
def payloadTokens (j : Json) : List String :=
  match j.at? "tokens" with
  | some (Json.arr xs) =>
    xs.filterMap (fun v => match v with
      | Json.str t => some t
      | _ => none)
  | _ => []

/-- One call of the reconciler's mutation interface. -/
inductive ReconcilerCall where
  | add (token : String)
  | add_many (tokens : List String)
  | remove (token : String)
  | clear
  | mark_subscribed (tokens : List String)
  | mark_unsubscribed (tokens : List String)

/-- Run one call on the object. -/
def ReconcilerCall.run (s : SubscriptionManager) : ReconcilerCall → SubscriptionManager
  | .add t => s.add t
  | .add_many ts => s.add_many ts
  | .remove t => s.remove t
  | .clear => s.clear
  | .mark_subscribed ts => s.mark_subscribed ts
  | .mark_unsubscribed ts => s.mark_unsubscribed ts

/-- The number of values of `std::size_t` (a 64-bit word). -/
def SIZE_MOD : Nat := 2 ^ 64

/-- Source: `x && ((x & (x - 1)) == 0)`; `x - 1` is only computed for `x ≠ 0`. -/
def is_power_of_two (x : Nat) : Bool :=
  x != 0 && (x &&& (x - 1)) == 0

/-- Source: `for (i = 1; i < sizeof(size_t) * 8; i <<= 1) n |= (n >> i);`
The first argument bounds the number of iterations (six are run). -/
def smearLoop : Nat → Nat → Nat → Nat
  | 0, _, n => n
  | fuel + 1, i, n =>
    if i < 64 then smearLoop fuel ((i <<< 1) % SIZE_MOD) (n ||| (n >>> i)) else n

/-- Source: `IngestQueue::next_pow2` on a `size_t` argument. -/
def next_pow2 (n : Nat) : Nat :=
  if n < 8 then 8
  else if is_power_of_two n then n
  else
    let n1 := n - 1
    let n2 := smearLoop 64 1 n1
    (n2 + 1) % SIZE_MOD

/-- The data members of `IngestQueue`. -/
structure IngestQueue where
  buf_ : List String
  mask_ : Nat
  head_ : Nat
  tail_ : Nat

/-- What the standard library and the machine decide when the constructor
builds `buf_`. -/
structure VecEnv where
  /-- Source: `std::vector<std::string>::max_size()` -/
  max_size : Nat
  /-- Whether the allocation of a buffer of `n` strings succeeds. -/
  alloc : Nat → Bool

/-- The ways in which the constructor ends without handing out a queue. -/
inductive CtorFailure where
  /-- The exception `std::length_error` thrown by `std::vector` -/
  | length_error
  /-- The exception `std::bad_alloc` thrown by the allocation -/
  | bad_alloc
  /-- The `assert` of the constructor's body fails and the program aborts -/
  | assert_failed
  deriving DecidableEq, Repr

namespace IngestQueue

/-- The member initialisers of the constructor,
`buf_(next_pow2(capacity)), mask_(buf_.size() - 1)`, and the default values of
the counters: the state they build once the buffer has been obtained. Whether
the constructor hands this state out is decided by `construct`. -/
def new (capacity : Nat) : IngestQueue :=
  let n := next_pow2 capacity
  { buf_ := List.replicate n ""
    mask_ := (n + SIZE_MOD - 1) % SIZE_MOD
    head_ := 0
    tail_ := 0 }

/-- Source: `IngestQueue::IngestQueue(std::size_t capacity)`, the whole
constructor. `std::vector<std::string>(n)` throws `length_error` when `n`
exceeds `max_size()`, allocates (for `n ≠ 0`) and may throw `bad_alloc`; the
body is `assert(is_power_of_two(buf_.size()))`, compiled as written (no
`NDEBUG`), which aborts when it fails. -/
def construct (env : VecEnv) (capacity : Nat) : Except CtorFailure IngestQueue :=
  let n := next_pow2 capacity
  if env.max_size < n then .error CtorFailure.length_error
  else if n ≠ 0 ∧ env.alloc n = false then .error CtorFailure.bad_alloc
  else
    let q := new capacity
    if is_power_of_two q.buf_.length = false then .error CtorFailure.assert_failed
    else .ok q

/-- Source: `capacity()`: `mask_ + 1` -/
def capacity (q : IngestQueue) : Nat := (q.mask_ + 1) % SIZE_MOD

/-- Source: `size()`: `head - tail` in `size_t` arithmetic -/
def size (q : IngestQueue) : Nat := (q.head_ + SIZE_MOD - q.tail_) % SIZE_MOD

def empty (q : IngestQueue) : Bool := q.size == 0

def full (q : IngestQueue) : Bool := q.size == q.capacity

/-- Source: `try_push`: the returned flag and the state afterwards. -/
def try_push (q : IngestQueue) (msg : String) : Bool × IngestQueue :=
  let head := q.head_
  let tail := q.tail_
  if (head + SIZE_MOD - tail) % SIZE_MOD = q.capacity then (false, q)
  else
    (true, { q with buf_ := q.buf_.set (head &&& q.mask_) msg
                    head_ := (head + 1) % SIZE_MOD })

/-- Source: `try_pop`: the returned flag, the value of `out` afterwards and the state
afterwards. The slot moved from is left empty. -/
def try_pop (q : IngestQueue) (out : String) : Bool × String × IngestQueue :=
  let tail := q.tail_
  let head := q.head_
  if head = tail then (false, out, q)
  else
    (true, q.buf_.getD (tail &&& q.mask_) "",
      { q with buf_ := q.buf_.set (tail &&& q.mask_) ""
               tail_ := (tail + 1) % SIZE_MOD })

/-- Source: `clear()` -/
def clear (q : IngestQueue) : IngestQueue :=
  { q with head_ := 0, tail_ := 0, buf_ := q.buf_.map (fun _ => "") }

/-- The messages currently stored, oldest first: the slots
`tail, tail + 1, ..., head - 1`, each taken `& mask_`. -/
def stored (q : IngestQueue) : List String :=
  (List.range q.size).map (fun i => q.buf_.getD (((q.tail_ + i) % SIZE_MOD) &&& q.mask_) "")

end IngestQueue

/-- One call of the queue interface. -/
inductive QueueCall where
  | try_push (msg : String)
  | try_pop
  | clear

/-- A run of the queue: the state, the messages whose `try_push` returned true
and the messages handed out by successful `try_pop`s, both in call order. -/
structure QueueRun where
  q : IngestQueue
  accepted : List String
  popped : List String

/-- Perform one call and record its outcome. -/
def QueueRun.step (r : QueueRun) : QueueCall → QueueRun
  | .try_push msg =>
    let res := r.q.try_push msg
    { q := res.2, accepted := if res.1 then r.accepted ++ [msg] else r.accepted,
      popped := r.popped }
  | .try_pop =>
    let res := r.q.try_pop ""
    { q := res.2.2, accepted := r.accepted,
      popped := if res.1 then r.popped ++ [res.2.1] else r.popped }
  | .clear => { r with q := r.q.clear }

/-- Run a sequence of calls on a freshly constructed queue. -/
def QueueRun.fresh (capacity : Nat) (calls : List QueueCall) : QueueRun :=
  calls.foldl QueueRun.step { q := IngestQueue.new capacity, accepted := [], popped := [] }

/-- True when the call is not `clear`. -/
def QueueCall.isPushPop : QueueCall → Bool
  | .clear => false
  | _ => true

/-- Push the messages one after the other; the flags returned, in order, and
the final state. -/
def pushAll (q : IngestQueue) : List String → List Bool × IngestQueue
  | [] => ([], q)
  | m :: ms =>
    let r := q.try_push m
    let rest := pushAll r.2 ms
    (r.1 :: rest.1, rest.2)

/-! ## Parser (`parser.cpp`) -/

/-- Reduce an integer to the range of `long long` (two's complement). -/
def wrapI64 (v : Int) : Int := (v + 2 ^ 63) % 2 ^ 64 - 2 ^ 63

/-- A `std::chrono::system_clock::time_point`: a signed 64-bit count of
nanoseconds since the epoch (the clock's duration on the GNU C++ library). -/
structure TimePoint where
  ns : Int
  deriving DecidableEq, Repr

/-- Source: `struct LTP` of `parser.h`. -/
structure LTP where
  token : String
  ltp : Double
  ts : TimePoint
  deriving DecidableEq, Repr

/-- The library functions the parser calls, which are not code of the
repository. `none` stands for a thrown exception. -/
structure Lib where
  /-- `json::parse` -/
  parse : String → Option Json
  /-- `v.dump()` of a floating-point number -/
  dump_float : Double → String
  /-- `std::stod` -/
  stod : String → Option Double
  /-- `std::stoll` -/
  stoll : String → Option Int
  /-- `static_cast<double>(long long)` -/
  to_double : Int → Double
  /-- `static_cast<long long>(double)` -/
  to_llong : Double → Int

/-- Source: `get_string_any`; `some out` stands for `true` with `out` written. -/
def get_string_any (L : Lib) (j : Json) : List String → Option String
  | [] => none
  | k :: ks =>
    if j.contains k then
      match j.at? k with
      | some (Json.str s) => some s
      | some (Json.int n) => some (toString n)
      | some (Json.float x) => some (L.dump_float x)
      | _ => get_string_any L j ks
    else get_string_any L j ks

/-- Source: `get_number_any` -/
def get_number_any (L : Lib) (j : Json) : List String → Option Double
  | [] => none
  | k :: ks =>
    if j.contains k then
      match j.at? k with
      | some (Json.float x) => some x
      | some (Json.int n) => some (L.to_double (wrapI64 n))
      | some (Json.str s) =>
        match L.stod s with
        | some x => some x
        | none => get_number_any L j ks
      | _ => get_number_any L j ks
    else get_number_any L j ks

/-- Source: `get_time_any` -/
def get_time_any (L : Lib) (j : Json) : List String → Option Int
  | [] => none
  | k :: ks =>
    if j.contains k then
      match j.at? k with
      | some (Json.int n) => some (wrapI64 n)
      | some (Json.float x) => some (L.to_llong x)
      | some (Json.str s) =>
        match L.stoll s with
        | some v => some v
        | none => get_time_any L j ks
      | _ => get_time_any L j ks
    else get_time_any L j ks

/-- Source: `std::llabs` on a `long long`. -/
def llabs (v : Int) : Int := wrapI64 |v|

/-- Source: `Parser::to_timepoint`: milliseconds or seconds, converted to the clock's
nanoseconds. -/
def to_timepoint (ts_sec_or_ms : Int) : TimePoint :=
  if llabs ts_sec_or_ms ≥ 1000000000000 then ⟨wrapI64 (ts_sec_or_ms * 1000000)⟩
  else ⟨wrapI64 (ts_sec_or_ms * 1000000000)⟩

def TOKEN_KEYS : List String :=
  ["token", "symbol", "tradingsymbol", "instrument_token", "tokenID"]

def PRICE_KEYS : List String :=
  ["ltp", "last_price", "lastPrice", "price", "trade_price"]

def TS_KEYS : List String :=
  ["exchange_timestamp", "timestamp", "ts", "time", "epoch"]

/-- Lines 71 to 76 of `parse_ltp`: unwrap an array root and a `data` field. -/
def unwrap (j0 : Json) : Json :=
  let j1 :=
    if j0.is_array && !j0.empty then
      match j0.front? with
      | some x => x
      | none => j0
    else j0
  if j1.contains "data" then
    match j1.at? "data" with
    | some d =>
      if d.is_object then d
      else if d.is_array && !d.empty then
        match d.front? with
        | some x => x
        | none => j1
      else j1
    | none => j1
  else j1

/-- Source: `token.rfind(prefix, 0) == 0`: the token starts with the prefix. -/
def starts_with (token pre : String) : Bool := pre.data.isPrefixOf token.data

/-- The normalisation of the token at the end of `parse_ltp`. -/
def strip (pre token : String) : String :=
  if !pre.data.isEmpty && starts_with token pre then
    String.mk (token.data.drop pre.data.length)
  else token

/-- The data member of `Parser`. -/
structure Parser where
  strip_prefix_ : String

namespace Parser

def set_strip_prefix (_p : Parser) (pre : String) : Parser := { strip_prefix_ := pre }

/-- Source: `Parser::parse_ltp` -/
def parse_ltp (p : Parser) (L : Lib) (json_text : String) : Option LTP :=
  match L.parse json_text with
  | none => none
  | some j0 =>
    let j := unwrap j0
    match get_string_any L j TOKEN_KEYS with
    | none => none
    | some token =>
      match get_number_any L j PRICE_KEYS with
      | none => none
      | some price =>
        let tp : TimePoint :=
          match get_time_any L j TS_KEYS with
          | some ts_raw => to_timepoint ts_raw
          | none => ⟨0⟩
        some { token := strip p.strip_prefix_ token, ltp := price, ts := tp }

end Parser

/-! ## LTPStore (`ltp_store.cpp`) -/

/-- The data member of `LTPStore`: the bindings of the `unordered_map`. -/
structure LTPStore where
  map_ : List (String × LTP)

namespace LTPStore

/-- Source: `map_[v.token] = v` -/
def upsert (s : LTPStore) (v : LTP) : LTPStore :=
  if s.map_.any (fun kv => kv.1 == v.token) then
    { map_ := s.map_.map (fun kv => if kv.1 == v.token then (kv.1, v) else kv) }
  else { map_ := s.map_ ++ [(v.token, v)] }

/-- Source: `get(token)` -/
def get (s : LTPStore) (token : String) : Option LTP := s.map_.lookup token

def snapshot (s : LTPStore) : List (String × LTP) := s.map_

def size (s : LTPStore) : Nat := s.map_.length

end LTPStore

/-! ## Sharder (`sharder.cpp`) -/

/-- Source: `Sharder::Options` -/
structure Options where
  wss_url : String
  max_tokens_per_conn : Nat
  subscribe_batch_size : Nat
  verify_peer : Bool
  ca_file : String
  token_prefix : String
  headers : List (String × String)

/-- Source: `Sharder::Worker`: the parts of the per-worker stack that carry data
(the reconciler, the queue, the shard's tokens and the handshake headers given
to the transport). -/
structure Worker where
  tokens : List String
  sub : SubscriptionManager
  q : IngestQueue
  ws_headers : List (String × String)

/-- Source: `Sharder::Impl` -/
structure Sharder where
  opts : Options
  auth_header_value : String
  common_headers : List (String × String)
  desired_tokens : List String
  workers : List Worker
  running : Bool

/-- Source: `h[k] = v` on a `std::map<std::string, std::string>`. -/
def headerSet (h : List (String × String)) (k v : String) : List (String × String) :=
  if h.any (fun kv => kv.1 == k) then h.map (fun kv => if kv.1 == k then (k, v) else kv)
  else h ++ [(k, v)]

namespace Sharder

/-- The constructor. -/
def new (opts : Options) : Sharder :=
  { opts := opts, auth_header_value := "", common_headers := [], desired_tokens := [],
    workers := [], running := false }

/-- Source: `Sharder::Impl::shard` -/
def shard (tokens : List String) (max_per_conn : Nat) : List (List String) :=
  if tokens.isEmpty then []
  else
    let m := if max_per_conn = 0 then 800 else max_per_conn
    sliceLoop tokens m tokens.length 0 []

def effective_headers_locked (s : Sharder) : List (String × String) :=
  let h := s.common_headers
  if !s.auth_header_value.data.isEmpty then headerSet h "Authorization" s.auth_header_value
  else h

/-- The worker built for one shard in the loop of `build_workers_locked`. -/
def make_worker (s : Sharder) (shard_tokens : List String) : Worker :=
  let pref := s.opts.token_prefix
  let token_fmt : String → String := fun t => if pref.data.isEmpty then t else pref ++ t
  let sub := SubscriptionManager.new Mode.LTP s.opts.subscribe_batch_size (some token_fmt)
  { tokens := shard_tokens
    sub := if !shard_tokens.isEmpty then sub.add_many shard_tokens else sub
    q := IngestQueue.new (1024 * 8)
    ws_headers := s.effective_headers_locked }

def build_workers_locked (s : Sharder) : Sharder :=
  let shards := shard s.desired_tokens s.opts.max_tokens_per_conn
  let shards := if shards.isEmpty then shards ++ [[]] else shards
  { s with workers := shards.map s.make_worker }

def set_access_token (s : Sharder) (auth_header_value : String) : Sharder :=
  { s with auth_header_value := auth_header_value }

def set_common_headers (s : Sharder) (hdrs : List (String × String)) : Sharder :=
  { s with common_headers := hdrs }

def set_tokens (s : Sharder) (tokens : List String) : Sharder :=
  { s with desired_tokens := tokens }

/-- Source: `start()`: the returned flag and the state afterwards. -/
def start (s : Sharder) : Bool × Sharder :=
  if s.running then (true, s)
  else (true, { s.build_workers_locked with running := true })

def stop (s : Sharder) : Sharder :=
  if !s.running then s else { s with workers := [], running := false }

def num_workers (s : Sharder) : Nat := s.workers.length

end Sharder

/-! ## Auxiliary predicates used in the proofs -/

/-- The bits `k - j, ..., k - 1` of `x` are set and `x < 2 ^ k`. -/
def TopBits (k j x : Nat) : Prop :=
  x < 2 ^ k ∧ ∀ i, i < k → k ≤ i + j → x.testBit i = true

/-- The invariant of the ring: both counters are `size_t` values, at most
`capacity()` messages are stored, and the buffer has a power-of-two length
`mask_ + 1` (or is empty with `mask_ = SIZE_MAX`, when `next_pow2` wrapped). -/
def IngestQueue.Inv (q : IngestQueue) : Prop :=
  q.head_ < SIZE_MOD ∧ q.tail_ < SIZE_MOD ∧ q.size ≤ q.capacity ∧
    ((∃ k, k ≤ 63 ∧ q.buf_.length = 2 ^ k ∧ q.mask_ = 2 ^ k - 1) ∨
      (q.buf_ = [] ∧ q.mask_ = SIZE_MOD - 1))

/-! ## The parser's rules as the specification words them -/

/-- Spec: "First present of" a key list: the value bound to the first key of the
list that the document has. -/
def firstPresent (j : Json) : List String → Option Json
  | [] => none
  | k :: ks => if j.contains k then j.at? k else firstPresent j ks

/-- Spec: "Accept string OR numeric." -/
def tokenTypable : Json → Bool
  | Json.str _ => true
  | Json.int _ => true
  | Json.float _ => true
  | _ => false

/-- Spec: "Accept float, integer, or numeric-looking string"; a string is
numeric-looking when `std::stod` converts it. -/
def priceTypable (L : Lib) : Json → Bool
  | Json.float _ => true
  | Json.int _ => true
  | Json.str s => (L.stod s).isSome
  | _ => false

/-- The field (the first present key of the list) is absent or untypable. -/
def absentOrUntypable (typable : Json → Bool) (j : Json) (keys : List String) : Bool :=
  match firstPresent j keys with
  | none => true
  | some v => !typable v

/-- Some key of the list is bound to a typable value. -/
def someKeyTypable (typable : Json → Bool) (j : Json) (keys : List String) : Prop :=
  ∃ k ∈ keys, ∃ v, j.at? k = some v ∧ typable v = true

/-- The instant is within one millisecond of `t_ms` milliseconds after the
epoch. -/
def within_1ms (ts : TimePoint) (t_ms : Int) : Prop :=
  |ts.ns - t_ms * 1000000| ≤ 1000000

/-- The document of the frame
`{"data":{"token":tok,"ltp":price,"exchange_timestamp":t}}`. -/
def msFrame (tok : String) (price : Double) (t : Int) : Json :=
  Json.obj [("data", Json.obj
    [("token", Json.str tok), ("ltp", Json.float price), ("exchange_timestamp", Json.int t)])]

/-- A library environment for one concrete frame: `json::parse` maps the
frame's text to its document and rejects every other text. The numeric
conversions are not called on the frames used below; they are given fixed
results. -/
def oneFrameLib (text : String) (doc : Json) : Lib :=
  { parse := fun s => if s = text then some doc else none
    dump_float := fun _ => ""
    stod := fun _ => none
    stoll := fun _ => none
    to_double := fun _ => ⟨0⟩
    to_llong := fun _ => 0 }

/-- The text `{"token":null,"symbol":"X","ltp":1.5}`. -/
def nullTokenText : String :=
  "\x7b\"token\":null,\"symbol\":\"X\",\"ltp\":1.5\x7d"

/-- The document of `nullTokenText`; `1.5` is `0x3FF8000000000000`. -/
def nullTokenDoc : Json :=
  Json.obj [("ltp", Json.float ⟨0x3FF8000000000000⟩), ("symbol", Json.str "X"),
    ("token", Json.null)]

/-- The bit pattern of the double `123.45`. -/
def px_123_45 : Double := ⟨0x405EDCCCCCCCCCCD⟩

/-- The text of `msFrame "nse_cm|26000" 123.45 t`. -/
def msText (t : Int) : String :=
  "\x7b\"data\":\x7b\"token\":\"nse_cm|26000\",\"ltp\":123.45,\"exchange_timestamp\":" ++
    toString t ++ "\x7d\x7d"

/-- One call of a public member function of `SubscriptionManager`. -/
inductive ReconcilerOp where
  | add (token : String)
  | add_many (tokens : List String)
  | remove (token : String)
  | clear
  | set_mode (m : Mode)
  | set_batch_size (n : Nat)
  | set_token_formatter (fmt : Option (String → String))
  | build_subscribe_batches
  | build_unsubscribe_batches
  | mark_subscribed (tokens : List String)
  | mark_unsubscribed (tokens : List String)
  | desired_snapshot
  | active_snapshot

/-- The value a call returns. -/
inductive ReconcilerResult where
  | void
  | payloads (ps : List Json)
  | tokens (ts : List String)

/-- The payloads a call returned (none for the calls that return something
else). -/
def ReconcilerResult.payloadList : ReconcilerResult → List Json
  | .payloads ps => ps
  | _ => []

/-- Perform a call: the object afterwards and the value returned. The two
builders and the two snapshots are `const` member functions; the only member
they touch is the mutex, so the data members afterwards are those before. -/
def ReconcilerOp.exec (s : SubscriptionManager) :
    ReconcilerOp → SubscriptionManager × ReconcilerResult
  | .add t => (s.add t, .void)
  | .add_many ts => (s.add_many ts, .void)
  | .remove t => (s.remove t, .void)
  | .clear => (s.clear, .void)
  | .set_mode m => (s.set_mode m, .void)
  | .set_batch_size n => (s.set_batch_size n, .void)
  | .set_token_formatter f => (s.set_token_formatter f, .void)
  | .build_subscribe_batches => (s, .payloads s.build_subscribe_batches)
  | .build_unsubscribe_batches => (s, .payloads s.build_unsubscribe_batches)
  | .mark_subscribed ts => (s.mark_subscribed ts, .void)
  | .mark_unsubscribed ts => (s.mark_unsubscribed ts, .void)
  | .desired_snapshot => (s, .tokens s.desired_snapshot)
  | .active_snapshot => (s, .tokens s.active_snapshot)

/-- Spec: the integer value of a timestamp field "given as integer, float or
digit string": the integer itself, the float cast to `long long`, the string
converted by `std::stoll`. -/
def timeValue (L : Lib) : Json → Option Int
  | Json.int n => some n
  | Json.float x => some (L.to_llong x)
  | Json.str s => L.stoll s
  | _ => none

/-- Spec: the token text of a field: "a string value is taken verbatim and a
numeric value is rendered as its canonical decimal text". -/
def renderToken (L : Lib) : Json → Option String
  | Json.str s => some s
  | Json.int n => some (toString n)
  | Json.float x => some (L.dump_float x)
  | _ => none

/-- Spec: the price of a field: a float as is, an integer read as `long long`
and converted to `double`, a string converted by `std::stod`. -/
def priceValue (L : Lib) : Json → Option Double
  | Json.float x => some x
  | Json.int n => some (L.to_double (wrapI64 n))
  | Json.str s => L.stod s
  | _ => none

/-- A library environment like `oneFrameLib` in which `std::stod` converts
the one string `numText` to `num`. -/
def stodLib (text : String) (doc : Json) (numText : String) (num : Double) : Lib :=
  { parse := fun s => if s = text then some doc else none
    dump_float := fun _ => ""
    stod := fun s => if s = numText then some num else none
    stoll := fun _ => none
    to_double := fun _ => ⟨0⟩
    to_llong := fun _ => 0 }

/-- The bit pattern of the double `101.5`. -/
def px_101_5 : Double := ⟨0x4059600000000000⟩

/-- The text `{"token":"26001","ltp":101.5,"timestamp":t}`. -/
def secText (t : Int) : String :=
  "\x7b\"token\":\"26001\",\"ltp\":101.5,\"timestamp\":" ++ toString t ++ "\x7d"

/-- The document of `secText t`. -/
def secDoc (t : Int) : Json :=
  Json.obj [("ltp", Json.float px_101_5), ("timestamp", Json.int t),
    ("token", Json.str "26001")]

/-- The value `get_time_any` reads from one field: an integer through
`get<long long>()`, a float through the cast, a string through `std::stoll`. -/
def timeRaw (L : Lib) : Json → Option Int
  | Json.int n => some (wrapI64 n)
  | Json.float x => some (L.to_llong x)
  | Json.str s => L.stoll s
  | _ => none

/-- The text `{"symbol":"26001","token":true}`. -/
def boolTokenText : String := "\x7b\"symbol\":\"26001\",\"token\":true\x7d"

/-- The document of `boolTokenText`. -/
def boolTokenDoc : Json :=
  Json.obj [("symbol", Json.str "26001"), ("token", Json.bool true)]

/-- The document of `{"token":26000}`. -/
def numTokenDoc : Json := Json.obj [("token", Json.int 26000)]

/-- The text `{"last_price":101.5,"ltp":"n/a","token":"26001"}`. -/
def badPriceText : String :=
  "\x7b\"last_price\":101.5,\"ltp\":\"n/a\",\"token\":\"26001\"\x7d"

/-- The document of `badPriceText`. -/
def badPriceDoc : Json :=
  Json.obj [("last_price", Json.float px_101_5), ("ltp", Json.str "n/a"),
    ("token", Json.str "26001")]

/-- The text `{"symbol":"26001","last_price":"101.5","timestamp":1728123456}`. -/
def strPriceText : String :=
  "\x7b\"symbol\":\"26001\",\"last_price\":\"101.5\",\"timestamp\":1728123456\x7d"

/-- The document of `strPriceText`. -/
def strPriceDoc : Json :=
  Json.obj [("last_price", Json.str "101.5"), ("symbol", Json.str "26001"),
    ("timestamp", Json.int 1728123456)]

/-! ## The two unwrapping steps of `parse_ltp`, one by one -/

/-- Source: `if (j.is_array() && !j.empty()) j = j.front();` -/
def rootStep (j0 : Json) : Json :=
  if j0.is_array && !j0.empty then
    match j0.front? with
    | some x => x
    | none => j0
  else j0

/-- Source: `if (j.contains("data")) { ... }`, lines 72 to 76. -/
def dataStep (j1 : Json) : Json :=
  if j1.contains "data" then
    match j1.at? "data" with
    | some d =>
      if d.is_object then d
      else if d.is_array && !d.empty then
        match d.front? with
        | some x => x
        | none => j1
      else j1
    | none => j1
  else j1

/-- The document is a non-empty array (the root step would descend into it). -/
def Json.isWrapperArray (j : Json) : Bool := j.is_array && !j.empty

/-- The document has a `data` field that is an object or a non-empty array
(the data step would descend into it). -/
def Json.hasDataWrapper (j : Json) : Bool :=
  match j.at? "data" with
  | some d => d.is_object || (d.is_array && !d.empty)
  | none => false

/-- A library environment in which `json::parse` knows two texts. -/
def twoFrameLib (t1 : String) (d1 : Json) (t2 : String) (d2 : Json) : Lib :=
  { parse := fun s => if s = t1 then some d1 else if s = t2 then some d2 else none
    dump_float := fun _ => ""
    stod := fun _ => none
    stoll := fun _ => none
    to_double := fun _ => ⟨0⟩
    to_llong := fun _ => 0 }

/-- The document of `{"ltp":1.5,"token":tok}`. -/
def plainDoc (tok : String) : Json :=
  Json.obj [("ltp", Json.float ⟨0x3FF8000000000000⟩), ("token", Json.str tok)]

/-- The text `{"ltp":1.5,"token":"A"}`. -/
def plainTextA : String := "\x7b\"ltp\":1.5,\"token\":\"A\"\x7d"

/-- The text `[{"ltp":1.5,"token":"A"}]`. -/
def arrTextA : String := "[" ++ plainTextA ++ "]"

/-- The text `[[{"ltp":1.5,"token":"A"}]]`. -/
def arrArrTextA : String := "[" ++ arrTextA ++ "]"

/-- The text `{"data":{"ltp":1.5,"token":"B"},"ltp":1.5,"token":"A"}`: a
record with a `data` field of its own. -/
def nestedText : String :=
  "\x7b\"data\":\x7b\"ltp\":1.5,\"token\":\"B\"\x7d,\"ltp\":1.5,\"token\":\"A\"\x7d"

/-- The document of `nestedText`. -/
def nestedDoc : Json :=
  Json.obj [("data", plainDoc "B"), ("ltp", Json.float ⟨0x3FF8000000000000⟩),
    ("token", Json.str "A")]

/-- The text `{"data":` followed by `nestedText` and `}`. -/
def wrappedNestedText : String := "\x7b\"data\":" ++ nestedText ++ "\x7d"

/-- Spec: `mode_str`: "ltp", "quote" or "full" for LTP, QUOTE, FULL. -/
def specModeStr : Mode → String
  | Mode.LTP => "ltp"
  | Mode.QUOTE => "quote"
  | Mode.FULL => "full"

/-- Spec: the configured formatter, or the identity when none is configured. -/
def specFmt (formatter : Option (String → String)) : String → String :=
  formatter.getD id

/-- The payload the specification describes for one batch:
`{"action":<action>,"mode":<mode_str>,"tokens":[fmt(t)...]}`. -/
def specPayload (action : String) (mode : Mode) (formatter : Option (String → String))
    (batch : List String) : Json :=
  Json.obj [("action", Json.str action), ("mode", Json.str (specModeStr mode)),
    ("tokens", Json.arr (batch.map (fun t => Json.str (specFmt formatter t))))]

/-- The keys of a JSON object, in the object's order. -/
def Json.keys : Json → List String
  | Json.obj kvs => kvs.map (fun kv => kv.1)
  | _ => []

/-- Options that carry one custom handshake header, `X-Api-Key: k`. -/
def optsWithHeader : Options :=
  { wss_url := "wss://ws.ifelse.io", max_tokens_per_conn := 800, subscribe_batch_size := 100,
    verify_peer := true, ca_file := "", token_prefix := "nse_cm|",
    headers := [("X-Api-Key", "k")] }

/-- Options with the defaults of `sharder.h`, a URL and no custom header. -/
def plainOpts : Options :=
  { wss_url := "wss://ws.ifelse.io", max_tokens_per_conn := 800, subscribe_batch_size := 100,
    verify_peer := true, ca_file := "", token_prefix := "nse_cm|", headers := [] }

/-- A Sharder started with the credential `Bearer old` and one token. -/
def runningSharder : Sharder :=
  ((((Sharder.new plainOpts).set_access_token "Bearer old").set_tokens ["26000"]).start).2

/-- The text `{"ltp":1.5,"token":"nse_cm|"}`. -/
def onlyPrefixText : String := "\x7b\"ltp\":1.5,\"token\":\"nse_cm|\"\x7d"

/-- The text `{"ltp":1.5,"token":""}`. -/
def emptyTokenText : String := "\x7b\"ltp\":1.5,\"token\":\"\"\x7d"

/-- A ring of capacity 8 whose counters are about to wrap: `tail` is
`2^64 - 3` and `head` is `2^64 - 1`, with the messages a and b stored. -/
def wrappingQueue : IngestQueue :=
  { buf_ := ["", "", "", "", "", "a", "b", ""]
    mask_ := 7
    head_ := 18446744073709551615
    tail_ := 18446744073709551613 }

/-! ## TOTP (`totp.cpp`) -/

/-- Source: `enum class TOTPAlgo` -/
inductive TOTPAlgo where
  | SHA1
  | SHA256
  | SHA512
  deriving DecidableEq, Repr

/-- The number of values of `uint32_t`. -/
def U32_MOD : Nat := 2 ^ 32

/-- Source: `uint32_t mod = 1; for (int i = 0; i < digits; ++i) mod *= 10;`
The value of `mod` after the given number of iterations. -/
def pow10_u32 : Nat → Nat
  | 0 => 1
  | i + 1 => (pow10_u32 i * 10) % U32_MOD

/-- Source: `left_pad_int`: `val % mod` streamed with `setw(digits)` and
`setfill('0')` (the decimal text, left-padded with zeros to `digits`
characters; a longer text is not cut). -/
def left_pad_int (val : Nat) (digits : Int) : String :=
  let mod := pow10_u32 digits.toNat
  let code := val % mod
  let text := toString code
  String.mk (List.replicate (digits.toNat - text.data.length) '0' ++ text.data)

/-- The data members of `TOTP`. -/
structure TOTP where
  secret_ : List Nat
  digits_ : Int
  period_ : Int
  algo_ : TOTPAlgo
  deriving DecidableEq, Repr

/-- Equality of outcomes (a value or a thrown message) is decidable. -/
instance exceptDecEq {ε α : Type} [DecidableEq ε] [DecidableEq α] :
    DecidableEq (Except ε α) := fun a b =>
  match a, b with
  | .ok x, .ok y => if h : x = y then isTrue (by rw [h]) else isFalse (by intro e; cases e; exact h rfl)
  | .error x, .error y =>
    if h : x = y then isTrue (by rw [h]) else isFalse (by intro e; cases e; exact h rfl)
  | .ok _, .error _ => isFalse (by intro e; cases e)
  | .error _, .ok _ => isFalse (by intro e; cases e)

/-- The OpenSSL call `HMAC(md, key, msg)`: the digest bytes, or `none` when
the call fails. -/
abbrev HmacFn := TOTPAlgo → List Nat → List Nat → Option (List Nat)

namespace TOTP

/-- The constructor; `decoded` is the outcome of `base32_decode(secret_base32)`
in the member initialiser. -/
def new (decoded : Except String (List Nat)) (digits period : Int) (algo : TOTPAlgo) :
    Except String TOTP :=
  match decoded with
  | .error e => .error e
  | .ok secret =>
    if digits < 6 ∨ digits > 10 then .error "TOTP: digits must be between 6 and 10"
    else if period ≤ 0 then .error "TOTP: period must be positive"
    else .ok { secret_ := secret, digits_ := digits, period_ := period, algo_ := algo }

/-- Source: `time_counter`: whole seconds since the epoch (negative counts as
0) divided by the period. -/
def time_counter (tp : TimePoint) (period : Int) : Nat :=
  let secs := tp.ns.tdiv 1000000000
  (if secs ≥ 0 then secs else 0).toNat % 2 ^ 64 / (period.toNat % 2 ^ 64)

/-- The counter as 8 bytes, most significant first. -/
def counter_bytes (counter : Nat) : List Nat :=
  (List.range 8).map (fun i => (counter >>> (8 * (7 - i))) &&& 0xFF)

/-- Source: `TOTP::hotp`: HMAC of the counter, dynamic truncation to 31 bits,
then `left_pad_int`. -/
def hotp (hmac : HmacFn) (key : List Nat) (counter : Nat) (digits : Int) (algo : TOTPAlgo) :
    Except String String :=
  match hmac algo key (counter_bytes counter) with
  | none => .error "TOTP: HMAC failed"
  | some mac =>
    let len := mac.length
    let offset := mac.getD (len - 1) 0 &&& 0x0F
    let bin_code :=
      (((mac.getD offset 0 &&& 0x7F) <<< 24) |||
        ((mac.getD (offset + 1) 0 &&& 0xFF) <<< 16) |||
        ((mac.getD (offset + 2) 0 &&& 0xFF) <<< 8) |||
        (mac.getD (offset + 3) 0 &&& 0xFF))
    .ok (left_pad_int bin_code digits)

def code_at (t : TOTP) (hmac : HmacFn) (tp : TimePoint) : Except String String :=
  hotp hmac t.secret_ (time_counter tp t.period_) t.digits_ t.algo_

end TOTP

/-- The key of the RFC 6238 test vectors, `12345678901234567890`. -/
def rfcKey : List Nat :=
  [49, 50, 51, 52, 53, 54, 55, 56, 57, 48, 49, 50, 51, 52, 53, 54, 55, 56, 57, 48]

/-- HMAC-SHA1 under `rfcKey` for the counters 1 and 3 (RFC 4226, appendix D):
`75a48a19d4cbe100644e8ac1397eea747a2d33ab` and
`66c28227d03a2d5529262ff016a1e6ef76557ece`. -/
def rfcHmac : HmacFn := fun algo key msg =>
  if algo = TOTPAlgo.SHA1 ∧ key = rfcKey ∧ msg = [0, 0, 0, 0, 0, 0, 0, 1] then
    some [117, 164, 138, 25, 212, 203, 225, 0, 100, 78, 138, 193, 57, 126, 234, 116, 122, 45,
      51, 171]
  else if algo = TOTPAlgo.SHA1 ∧ key = rfcKey ∧ msg = [0, 0, 0, 0, 0, 0, 0, 3] then
    some [102, 194, 130, 39, 208, 58, 45, 85, 41, 38, 47, 240, 22, 161, 230, 239, 118, 85, 126,
      206]
  else none

/-! ## WebSocketClient (`websocket_client.cpp`) -/

/-- Source: `WebSocketClient::Options`, the fields the model reads. The two
backoff values are counts of milliseconds (signed 64-bit). -/
structure WsOptions where
  headers : List (String × String)
  backoff_initial : Int
  backoff_max : Int

/-- The configuration of a transport: URL, options and which callbacks are
set. -/
structure WsConfig where
  url : String
  opts : WsOptions
  has_on_msg : Bool
  has_on_resub : Bool

/-- The data members of `WebSocketClient::Impl` that change: whether the
stream `ws` exists, the two atomic flags, and whether the IO thread was
spawned. -/
structure WebSocketClient where
  cfg : WsConfig
  ws : Bool
  connected : Bool
  running : Bool
  io_thread_spawned : Bool

/-- Source: `Impl::parse_wss`: host, port and target of a `wss://` URL, or the
exception thrown for another scheme. -/
def parse_wss (full : String) : Except String (String × String × String) :=
  let scheme := "wss://"
  if !(scheme.data.isPrefixOf full.data) then .error "WebSocketClient: only wss:// supported"
  else
    let rest := full.data.drop scheme.data.length
    let hostport := rest.takeWhile (fun c => c != '/')
    let target := if rest.any (fun c => c == '/') then rest.dropWhile (fun c => c != '/') else ['/']
    if hostport.any (fun c => c == ':') then
      let host := hostport.takeWhile (fun c => c != ':')
      let port := (hostport.dropWhile (fun c => c != ':')).drop 1
      .ok (String.mk host, if port.isEmpty then "443" else String.mk port, String.mk target)
    else .ok (String.mk hostport, "443", String.mk target)

namespace WebSocketClient

/-- The constructor: it stores its arguments and checks nothing. -/
def new (wss_url : String) (opts : WsOptions) : WebSocketClient :=
  { cfg := { url := wss_url, opts := opts, has_on_msg := false, has_on_resub := false }
    ws := false, connected := false, running := false, io_thread_spawned := false }

/-- Source: `start()`: spawns the IO thread unless running; returns true. -/
def start (c : WebSocketClient) : Bool × WebSocketClient :=
  if c.running then (true, c) else (true, { c with io_thread_spawned := true })

end WebSocketClient

/-- What the IO thread does that can be observed: a `notify_state`, an
`on_msg` call, an `on_resub_noarg` call, a `sleep_for`. -/
inductive WsEvent where
  | state (s : String)
  | message (m : String)
  | resubscribe
  | sleep (ms : Int)
  deriving DecidableEq, Repr

/-- The environment of the IO thread. Every query the thread makes has a
number; `running n` is what `running.load()` returns at query `n` (another
thread may have called `stop()`), `network n` tells whether the connect
attempt made at query `n` gets through DNS, TCP, TLS and the WebSocket
handshake, and `read n` is the frame `ws->read` returns, or `none` when it
throws. -/
structure WsEnv where
  running : Nat → Bool
  network : Nat → Bool
  read : Nat → Option String

/-- Where the IO thread is: in `read_loop`, or in `reconnect_loop` with the
current value of `backoff`. -/
inductive WsPhase where
  | read_loop
  | reconnect_loop (backoff : Int)

/-- Source: `Impl::connect_once`: whether it returns true, and the state
notifications it makes. An exception of `parse_wss` is caught like any
other. -/
def connect_once (cfg : WsConfig) (env : WsEnv) (n : Nat) : Bool × List WsEvent :=
  match parse_wss cfg.url with
  | .error _ => (false, [WsEvent.state "connecting"])
  | .ok _ =>
    if env.network n then (true, [WsEvent.state "connecting", WsEvent.state "connected"])
    else (false, [WsEvent.state "connecting"])

/-- Source: `Impl::read_loop` and `Impl::reconnect_loop`, which call each
other; a return from either ends the thread. The first argument bounds the
number of loop iterations, the second numbers the queries to the
environment, the last is the `connected` flag. Callbacks are taken not to
throw. -/
def io_thread (cfg : WsConfig) (env : WsEnv) : Nat → Nat → WsPhase → Bool → List WsEvent
  | 0, _, _, _ => []
  | fuel + 1, n, WsPhase.read_loop, connected =>
    if env.running n then
      match env.read (n + 1) with
      | some m =>
        (if cfg.has_on_msg then [WsEvent.message m] else []) ++
          io_thread cfg env fuel (n + 2) WsPhase.read_loop connected
      | none =>
        if !env.running (n + 2) then []
        else
          WsEvent.state "reconnecting" ::
            io_thread cfg env fuel (n + 3) (WsPhase.reconnect_loop cfg.opts.backoff_initial) false
    else []
  | fuel + 1, n, WsPhase.reconnect_loop backoff, connected =>
    if env.running n && !connected then
      if (connect_once cfg env (n + 1)).1 then
        (connect_once cfg env (n + 1)).2 ++
          (if cfg.has_on_resub then [WsEvent.resubscribe] else []) ++
          io_thread cfg env fuel (n + 2) WsPhase.read_loop true
      else
        (connect_once cfg env (n + 1)).2 ++ [WsEvent.sleep backoff] ++
          io_thread cfg env fuel (n + 2)
            (WsPhase.reconnect_loop (min (wrapI64 (backoff * 2)) cfg.opts.backoff_max)) false
    else []

/-- Source: `Impl::run`, the body of the IO thread. -/
def ws_run (cfg : WsConfig) (env : WsEnv) (fuel : Nat) : List WsEvent :=
  if !(connect_once cfg env 0).1 then
    (connect_once cfg env 0).2 ++ [WsEvent.state "reconnecting"] ++
      io_thread cfg env fuel 1 (WsPhase.reconnect_loop cfg.opts.backoff_initial) false
  else (connect_once cfg env 0).2 ++ io_thread cfg env fuel 1 WsPhase.read_loop true

/-- The delay slept after the `k`-th consecutive failed attempt of one
`reconnect_loop`: `backoff_initial`, then `min(backoff * 2, backoff_max)`. -/
def backoff_seq (opts : WsOptions) : Nat → Int
  | 0 => opts.backoff_initial
  | k + 1 => min (wrapI64 (backoff_seq opts k * 2)) opts.backoff_max

/-- An environment in which the transport keeps running and no connect
attempt gets through. -/
def failingEnv : WsEnv :=
  { running := fun _ => true, network := fun _ => false, read := fun _ => none }

/-- Every `connected` notification is followed at once by one
`on_resubscribe` call, and there is no other `on_resubscribe` call. -/
def resubOK : List WsEvent → Bool
  | [] => true
  | WsEvent.state s :: rest =>
    if s = "connected" then
      match rest with
      | WsEvent.resubscribe :: rest' => resubOK rest'
      | _ => false
    else resubOK rest
  | WsEvent.resubscribe :: _ => false
  | WsEvent.message _ :: rest => resubOK rest
  | WsEvent.sleep _ :: rest => resubOK rest

/-- A transport whose initial backoff, 10 s, exceeds its maximum, 5 s. -/
def cfgInitialAboveMax : WsConfig :=
  { url := "wss://ws.ifelse.io", opts := { headers := [], backoff_initial := 10000, backoff_max := 5000 },
    has_on_msg := true, has_on_resub := true }

/-- A transport whose initial backoff is 0. -/
def cfgInitialZero : WsConfig :=
  { url := "wss://ws.ifelse.io", opts := { headers := [], backoff_initial := 0, backoff_max := 5000 },
    has_on_msg := true, has_on_resub := true }

/-- A transport with the default backoff, 500 ms up to 5 s, for the URL
given. -/
def cfgDefault (url : String) : WsConfig :=
  { url := url, opts := { headers := [], backoff_initial := 500, backoff_max := 5000 },
    has_on_msg := true, has_on_resub := true }

/-- An environment in which the first connect attempt fails, the second gets
through, one frame `m` is read and the next read throws. -/
def reconnectEnv : WsEnv :=
  { running := fun _ => true
    network := fun n => n == 2
    read := fun n => if n == 4 then some "m" else none }

/-! ## Consumer (`consumer.cpp`) -/

/-- A call the consumer thread makes on the store or on the sink. -/
inductive ConsumerCall where
  | upsert (v : LTP)
  | sink (v : LTP)
  deriving DecidableEq, Repr

/-- Source: `SinkFn`, a `std::function<void(const LTP&)>`: the outcome of one
invocation, `.error` standing for an exception the sink throws. -/
abbrev SinkFn := LTP → Except String Unit

/-- The members of `Consumer` that `run()` reads or writes (`sink_` is `none`
for an empty `std::function`), the calls made so far on the store and on the
sink, and `escaped`: the exception that has left `run()`, if one has. -/
structure Consumer where
  q_ : IngestQueue
  parser_ : Parser
  store_ : LTPStore
  sink_ : Option SinkFn
  running_ : Bool
  calls : List ConsumerCall
  escaped : Option String

namespace Consumer

/-- The constructor. -/
def new (q : IngestQueue) (parser : Parser) (store : LTPStore) : Consumer :=
  { q_ := q, parser_ := parser, store_ := store, sink_ := none, running_ := false,
    calls := [], escaped := none }

/-- Source: `set_sink` -/
def set_sink (c : Consumer) (fn : Option SinkFn) : Consumer := { c with sink_ := fn }

/-- One pass through the body of the `while` loop of `run()`: the state
afterwards and the value of the local `msg` afterwards. No statement of the
body is inside a `try`, so an exception of the sink leaves `run()`. -/
def body (L : Lib) (c : Consumer) (msg : String) : Consumer × String :=
  let r := c.q_.try_pop msg
  let c1 := { c with q_ := r.2.2 }
  if r.1 = false then (c1, r.2.1)
  else
    match c1.parser_.parse_ltp L r.2.1 with
    | none => (c1, r.2.1)
    | some ltp =>
      let c2 := { c1 with store_ := c1.store_.upsert ltp
                          calls := c1.calls ++ [ConsumerCall.upsert ltp] }
      match c2.sink_ with
      | none => (c2, r.2.1)
      | some f =>
        let c3 := { c2 with calls := c2.calls ++ [ConsumerCall.sink ltp] }
        match f ltp with
        | .ok _ => (c3, r.2.1)
        | .error e => ({ c3 with escaped := some e }, r.2.1)

/-- Source: `run()`: `while (running_.load()) { ... }`, at most `fuel` passes.
The loop is also left when an exception has escaped from the body. -/
def run (L : Lib) : Nat → Consumer → String → Consumer
  | 0, c, _ => c
  | fuel + 1, c, msg =>
    if c.running_ = true ∧ c.escaped = none then
      run L fuel (body L c msg).1 (body L c msg).2
    else c

/-- Source: `start()`: `if (running_.exchange(true)) return true;` then the
thread that executes `run()`. -/
def start (L : Lib) (fuel : Nat) (c : Consumer) : Bool × Consumer :=
  if c.running_ then (true, c)
  else (true, run L fuel { c with running_ := true } "")

end Consumer

/-- The calls one parsed record causes when the sink returns normally. -/
def recordCalls (sink : Option SinkFn) (r : LTP) : List ConsumerCall :=
  match sink with
  | none => [ConsumerCall.upsert r]
  | some _ => [ConsumerCall.upsert r, ConsumerCall.sink r]

/-- A library environment in which `json::parse` knows the texts of a table. -/
def tableLib (table : List (String × Json)) : Lib :=
  { parse := fun s => table.lookup s
    dump_float := fun _ => ""
    stod := fun _ => none
    stoll := fun _ => none
    to_double := fun _ => ⟨0⟩
    to_llong := fun _ => 0 }

/-- The bit pattern of the double `202.25`. -/
def px_202_25 : Double := ⟨0x4069480000000000⟩

/-- The bit pattern of the double `103.0`. -/
def px_103 : Double := ⟨0x4059C00000000000⟩

/-- Source: `mk_msg` of `consumer_test.cpp`, with the price already printed. -/
def mk_msg (token px : String) (ts_ms : Int) : String :=
  "\x7b\"data\":\x7b\"token\":\"" ++ token ++ "\",\"ltp\":" ++ px ++
    ",\"exchange_timestamp\":" ++ toString ts_ms ++ "\x7d\x7d"

/-- The three frames of `consumer_test.cpp`. -/
def testFrames : List String :=
  [mk_msg "nse_cm|26000" "101.500000" 1728123000000,
   mk_msg "nse_cm|26001" "202.250000" 1728123001000,
   mk_msg "nse_cm|26000" "103.000000" 1728123002000]

/-- The library environment of the three test frames. -/
def testLib : Lib :=
  tableLib
    [(mk_msg "nse_cm|26000" "101.500000" 1728123000000,
        msFrame "nse_cm|26000" px_101_5 1728123000000),
     (mk_msg "nse_cm|26001" "202.250000" 1728123001000,
        msFrame "nse_cm|26001" px_202_25 1728123001000),
     (mk_msg "nse_cm|26000" "103.000000" 1728123002000,
        msFrame "nse_cm|26000" px_103 1728123002000)]

/-- The consumer of `consumer_test.cpp` with the three frames in its queue of
64 slots, running, with the given sink. -/
def testConsumer (sink : Option SinkFn) : Consumer :=
  { q_ := (pushAll (IngestQueue.new 64) testFrames).2
    parser_ := { strip_prefix_ := "nse_cm|" }
    store_ := { map_ := [] }
    sink_ := sink
    running_ := true
    calls := []
    escaped := none }

/-- A sink that returns normally on every record. -/
def quietSink : SinkFn := fun _ => .ok ()

/-- A sink that throws on the records of token 26001. -/
def failingSink : SinkFn := fun v =>
  if v.token = "26001" then .error "sink failed" else .ok ()

/-- The library environment of libstdc++ on a 64-bit machine, where
`sizeof(std::string)` is 32 and `max_size()` is `PTRDIFF_MAX / 32 = 2^58 - 1`,
with a machine on which every allocation within `max_size()` succeeds. -/
def roomyEnv : VecEnv :=
  { max_size := (2 ^ 63 - 1) / 32
    alloc := fun _ => true }

/-- The same library on a machine that cannot allocate more than 2^20 strings. -/
def smallEnv : VecEnv :=
  { max_size := (2 ^ 63 - 1) / 32
    alloc := fun n => decide (n ≤ 2 ^ 20) }

/-! ## Theorems -/

/-! ### Slicing loop -/

theorem ceil_step (n d : Nat) (hn : 1 ≤ n) (hd : 1 ≤ d) :
    (d + n - 1) / n = (d - n + n - 1) / n + 1 := by
  by_cases h : n ≤ d
  · have e : d + n - 1 = (d - n + n - 1) + n := by omega
    rw [e, Nat.add_div_right _ (by omega)]
  · have e0 : d - n + n - 1 = n - 1 := by omega
    have h1 : (n - 1) / n = 0 := Nat.div_eq_of_lt (by omega)
    have h2 : (d + n - 1) / n = 1 :=
      Nat.div_eq_of_lt_le (show 1 * n ≤ d + n - 1 by omega) (show d + n - 1 < (1 + 1) * n by omega)
    rw [e0, h1, h2]

theorem slice_take (items : List String) (n i : Nat) (hi : i < items.length) :
    (items.drop i).take (min items.length (i + n) - i) = (items.drop i).take n := by
  by_cases h : i + n ≤ items.length
  · have e : min items.length (i + n) - i = n := by omega
    rw [e]
  · have e : min items.length (i + n) - i = items.length - i := by omega
    rw [e, List.take_of_length_le (by simp), List.take_of_length_le (by simp; omega)]

/-- Closed form of the slicing loop: with `n ≥ 1` and enough iterations it
appends the slices `items[i + j*n, i + j*n + n)` for `j` below
`⌈(items.length - i) / n⌉`. -/
theorem sliceLoop_eq (items : List String) (n : Nat) (hn : 1 ≤ n) :
    ∀ (fuel i : Nat) (out : List (List String)), items.length - i ≤ fuel →
      sliceLoop items n fuel i out =
        out ++ (List.range ((items.length - i + n - 1) / n)).map
          (fun j => (items.drop (i + j * n)).take n) := by
  intro fuel
  induction fuel with
  | zero =>
    intro i out h
    have e : items.length - i + n - 1 = n - 1 := by omega
    simp [sliceLoop, e, Nat.div_eq_of_lt (show n - 1 < n by omega)]
  | succ fuel ih =>
    intro i out h
    by_cases hi : i < items.length
    · rw [sliceLoop, if_pos hi]
      simp only []
      rw [ih (i + n) _ (by omega), slice_take items n i hi,
        ceil_step n (items.length - i) hn (by omega)]
      have e : items.length - i - n = items.length - (i + n) := by omega
      rw [e, List.range_succ_eq_map, List.map_cons, List.map_map, List.append_assoc]
      congr 1
      simp only [List.singleton_append, Nat.zero_mul, Nat.add_zero]
      congr 1
      apply List.map_congr_left
      intro j _
      simp only [Function.comp, Nat.succ_eq_add_one]
      congr 2
      ring
    · rw [sliceLoop, if_neg hi]
      have e : items.length - i + n - 1 = n - 1 := by omega
      simp [e, Nat.div_eq_of_lt (show n - 1 < n by omega)]

/-- The slices of the closed form, concatenated, give back the list. -/
theorem slices_flatten (n : Nat) :
    ∀ (m : Nat) (l : List String), l.length ≤ m * n →
      ((List.range m).map (fun j => (l.drop (j * n)).take n)).flatten = l := by
  intro m
  induction m with
  | zero =>
    intro l h
    have : l = [] := by
      apply List.eq_nil_of_length_eq_zero
      omega
    simp [this]
  | succ m ih =>
    intro l h
    rw [List.range_succ_eq_map, List.map_cons, List.map_map, List.flatten_cons]
    have e : (List.map ((fun j => List.take n (List.drop (j * n) l)) ∘ Nat.succ) (List.range m))
        = (List.range m).map (fun j => ((l.drop n).drop (j * n)).take n) := by
      apply List.map_congr_left
      intro j _
      simp only [Function.comp, Nat.succ_eq_add_one, List.drop_drop]
      congr 2
      ring
    rw [e, ih (l.drop n) (by simp [Nat.succ_mul] at h ⊢; omega)]
    simp

theorem ceil_mul_ge (n d : Nat) (hn : 1 ≤ n) : d ≤ (d + n - 1) / n * n := by
  have h1 := Nat.div_add_mod (d + n - 1) n
  have h2 := Nat.mod_lt (d + n - 1) (show n > 0 by omega)
  have h3 : n * ((d + n - 1) / n) = (d + n - 1) / n * n := Nat.mul_comm _ _
  omega

/-- The result of `make_batches` and of `shard` for a slice length `n ≥ 1`. -/
theorem sliceLoop_all (items : List String) (n : Nat) (hn : 1 ≤ n) :
    sliceLoop items n items.length 0 [] =
      (List.range ((items.length + n - 1) / n)).map (fun j => (items.drop (j * n)).take n) := by
  rw [sliceLoop_eq items n hn items.length 0 [] (by omega)]
  simp

theorem sliceLoop_flatten (items : List String) (n : Nat) (hn : 1 ≤ n) :
    (sliceLoop items n items.length 0 []).flatten = items := by
  rw [sliceLoop_all items n hn]
  exact slices_flatten n _ items (ceil_mul_ge n items.length hn)

theorem sliceLoop_length (items : List String) (n : Nat) (hn : 1 ≤ n) :
    (sliceLoop items n items.length 0 []).length = (items.length + n - 1) / n := by
  rw [sliceLoop_all items n hn]
  simp

theorem ceil_pred_mul_lt (n d : Nat) (hn : 1 ≤ n) (j : Nat) (hj : j < (d + n - 1) / n) :
    j * n < d := by
  have h1 := Nat.div_add_mod (d + n - 1) n
  have h2 := Nat.mod_lt (d + n - 1) (show n > 0 by omega)
  have h3 : (j + 1) * n ≤ (d + n - 1) / n * n := Nat.mul_le_mul_right n hj
  have h4 : n * ((d + n - 1) / n) = (d + n - 1) / n * n := Nat.mul_comm _ _
  have h5 : (j + 1) * n = j * n + n := by ring
  omega

/-- Every slice produced is non-empty and has at most `n` elements. -/
theorem sliceLoop_mem (items : List String) (n : Nat) (hn : 1 ≤ n) (c : List String)
    (hc : c ∈ sliceLoop items n items.length 0 []) : c ≠ [] ∧ c.length ≤ n := by
  rw [sliceLoop_all items n hn] at hc
  obtain ⟨j, hj, rfl⟩ := List.mem_map.1 hc
  have hlt := ceil_pred_mul_lt n items.length hn j (List.mem_range.1 hj)
  constructor
  · intro h
    have := congrArg List.length h
    simp at this
    omega
  · simp

/-! ### Reconciler -/

theorem TokenSet.mem_insert (s : TokenSet) (t x : String) :
    x ∈ (s.insert t).elems ↔ x = t ∨ x ∈ s.elems := by
  unfold TokenSet.insert
  split
  · constructor
    · intro h; exact Or.inr h
    · rintro (h | h)
      · subst h; assumption
      · exact h
  · simp [or_comm]

theorem TokenSet.mem_foldl_insert (ts : List String) :
    ∀ (s : TokenSet) (x : String),
      x ∈ (ts.foldl TokenSet.insert s).elems ↔ x ∈ ts ∨ x ∈ s.elems := by
  induction ts with
  | nil => intro s x; simp
  | cons t ts ih =>
    intro s x
    rw [List.foldl_cons, ih, TokenSet.mem_insert, List.mem_cons]
    tauto

theorem payloadTokens_build_payload (s : SubscriptionManager) (batch : List String) (b : Bool) :
    payloadTokens (s.build_payload batch b) = batch.map s.fmt_token := by
  simp only [payloadTokens, SubscriptionManager.build_payload, Json.at?]
  have h : List.lookup "tokens"
      [("action", Json.str (if b = true then "subscribe" else "unsubscribe")),
        ("mode", Json.str s.mode_string),
        ("tokens", Json.arr (batch.map (fun t => Json.str (s.fmt_token t))))]
      = some (Json.arr (batch.map (fun t => Json.str (s.fmt_token t)))) := by
    simp [List.lookup]
  rw [h]
  simp only [List.filterMap_map]
  clear h
  induction batch with
  | nil => rfl
  | cons t ts ih => simp [List.filterMap_cons, ih]

theorem make_batches_flatten (s : SubscriptionManager) (items : List String) :
    (s.make_batches items).flatten = items := by
  unfold SubscriptionManager.make_batches
  cases items with
  | nil => rfl
  | cons a l =>
    simp only [List.isEmpty_cons, Bool.false_eq_true, if_false]
    apply sliceLoop_flatten
    split <;> omega

/-- The tokens carried by a list of payloads, in order. -/
theorem tokens_of_batches (s : SubscriptionManager) (items : List String) (b : Bool) :
    ((s.make_batches items).map (fun batch => s.build_payload batch b)).flatMap payloadTokens
      = items.map s.fmt_token := by
  rw [List.flatMap_def, List.map_map]
  have e : (payloadTokens ∘ fun batch => s.build_payload batch b) = List.map s.fmt_token := by
    funext batch
    exact payloadTokens_build_payload s batch b
  rw [e, ← List.map_flatten, make_batches_flatten]

theorem testBit_top (x k : Nat) (h1 : 2 ^ k ≤ x) (h2 : x < 2 ^ (k + 1)) :
    x.testBit k = true := by
  have e : x = 2 ^ k + (x - 2 ^ k) := by omega
  have hr : x - 2 ^ k < 2 ^ k := by
    have : 2 ^ (k + 1) = 2 * 2 ^ k := by ring
    omega
  rw [e, Nat.testBit_two_pow_add_eq, Nat.testBit_lt_two_pow hr]
  rfl

/-- Soundness of `is_power_of_two`. -/
theorem is_power_of_two_sound (n : Nat) (h : is_power_of_two n = true) :
    ∃ k, n = 2 ^ k := by
  simp only [is_power_of_two, Bool.and_eq_true, bne_iff_ne, ne_eq, beq_iff_eq] at h
  obtain ⟨h0, h1⟩ := h
  refine ⟨n.log2, ?_⟩
  by_contra hne
  have hlo : 2 ^ n.log2 ≤ n := Nat.log2_self_le h0
  have hhi : n < 2 ^ (n.log2 + 1) := Nat.lt_log2_self
  have b1 := testBit_top n n.log2 hlo hhi
  have b2 := testBit_top (n - 1) n.log2 (by omega) (by omega)
  have b3 : (n &&& (n - 1)).testBit n.log2 = true := by
    rw [Nat.testBit_and, b1, b2]; rfl
  rw [h1, Nat.zero_testBit] at b3
  exact Bool.false_ne_true b3

theorem TopBits.step (k j x : Nat) (h : TopBits k j x) :
    TopBits k (2 * j) (x ||| (x >>> j)) := by
  obtain ⟨hlt, hb⟩ := h
  constructor
  · apply Nat.or_lt_two_pow hlt
    rw [Nat.shiftRight_eq_div_pow]
    exact lt_of_le_of_lt (Nat.div_le_self _ _) hlt
  · intro i hi hk
    rw [Nat.testBit_or, Nat.testBit_shiftRight]
    by_cases hc : k ≤ i + j
    · rw [hb i hi hc]; rfl
    · rw [hb (j + i) (by omega) (by omega)]; simp

theorem smearLoop_eq (m k : Nat) (hk1 : 1 ≤ k) (hk : k ≤ 64) (hlo : 2 ^ (k - 1) ≤ m)
    (hhi : m < 2 ^ k) : smearLoop 64 1 m = 2 ^ k - 1 := by
  have u : smearLoop 64 1 m =
      (fun x => x ||| (x >>> 32)) ((fun x => x ||| (x >>> 16)) ((fun x => x ||| (x >>> 8))
        ((fun x => x ||| (x >>> 4)) ((fun x => x ||| (x >>> 2)) (m ||| (m >>> 1)))))) := by
    rfl
  have t1 : TopBits k 1 m := by
    refine ⟨hhi, ?_⟩
    intro i hi hki
    have e : i = k - 1 := by omega
    subst e
    apply testBit_top _ _ hlo
    have : k - 1 + 1 = k := by omega
    rw [this]; exact hhi
  have t64 := TopBits.step k 32 _ (TopBits.step k 16 _ (TopBits.step k 8 _
    (TopBits.step k 4 _ (TopBits.step k 2 _ (TopBits.step k 1 _ t1)))))
  rw [u]
  apply Nat.eq_of_testBit_eq
  intro i
  rw [Nat.testBit_two_pow_sub_one]
  by_cases hi : i < k
  · rw [t64.2 i hi (by omega)]; simp [hi]
  · have hlt : _ < 2 ^ i := lt_of_lt_of_le t64.1 (Nat.pow_le_pow_right (by omega) (by omega))
    rw [Nat.testBit_lt_two_pow hlt]; simp [hi]

/-- The result of `next_pow2` on a `size_t`: a power of two between 8 and `2^63` that is not
below the argument, or 0 when the argument exceeds `2^63` (the sum wraps). -/
theorem next_pow2_cases (n : Nat) (hn : n < SIZE_MOD) :
    (∃ k, 3 ≤ k ∧ k ≤ 63 ∧ next_pow2 n = 2 ^ k ∧ n ≤ 2 ^ k) ∨
      (2 ^ 63 < n ∧ next_pow2 n = 0) := by
  unfold next_pow2
  by_cases h8 : n < 8
  · left
    exact ⟨3, by omega, by omega, by simp [h8], by simp; omega⟩
  · rw [if_neg h8]
    by_cases hp : is_power_of_two n = true
    · rw [if_pos hp]
      obtain ⟨k, rfl⟩ := is_power_of_two_sound n hp
      left
      have hk64 : k < 64 := by
        by_contra hc
        have : 2 ^ 64 ≤ 2 ^ k := Nat.pow_le_pow_right (by omega) (by omega)
        simp only [SIZE_MOD] at hn
        omega
      have hk3 : 3 ≤ k := by
        by_contra hc
        have : 2 ^ k ≤ 2 ^ 2 := Nat.pow_le_pow_right (by omega) (by omega)
        omega
      exact ⟨k, hk3, by omega, rfl, le_refl _⟩
    · rw [if_neg hp]
      simp only []
      have hm0 : n - 1 ≠ 0 := by omega
      have hlo : 2 ^ (n - 1).log2 ≤ n - 1 := Nat.log2_self_le hm0
      have hhi : n - 1 < 2 ^ ((n - 1).log2 + 1) := Nat.lt_log2_self
      have hk64 : (n - 1).log2 < 64 := by
        rw [Nat.log2_lt hm0]
        simp only [SIZE_MOD] at hn
        omega
      rw [smearLoop_eq (n - 1) ((n - 1).log2 + 1) (by omega) (by omega) (by simpa using hlo) hhi]
      have hpos : 0 < 2 ^ ((n - 1).log2 + 1) := Nat.two_pow_pos _
      have e : 2 ^ ((n - 1).log2 + 1) - 1 + 1 = 2 ^ ((n - 1).log2 + 1) := by omega
      rw [e]
      by_cases hk : (n - 1).log2 + 1 ≤ 63
      · left
        have hle : 2 ^ ((n - 1).log2 + 1) ≤ 2 ^ 63 := Nat.pow_le_pow_right (by omega) hk
        have hk3 : 3 ≤ (n - 1).log2 + 1 := by
          by_contra hc
          have : 2 ^ ((n - 1).log2 + 1) ≤ 2 ^ 2 := Nat.pow_le_pow_right (by omega) (by omega)
          omega
        refine ⟨(n - 1).log2 + 1, hk3, hk, ?_, by omega⟩
        apply Nat.mod_eq_of_lt
        simp only [SIZE_MOD]
        omega
      · right
        have e63 : (n - 1).log2 = 63 := by omega
        rw [e63] at hlo ⊢
        constructor
        · omega
        · simp [SIZE_MOD]

/-! ### Ring queue -/

theorem idx_ne (a i j C : Nat) (hij : i < j) (hj : j < i + C) :
    (a + i) % C ≠ (a + j) % C := by
  intro h
  have h1 : (a + i) ≡ (a + j) [MOD C] := h
  have h2 : i ≡ j [MOD C] := Nat.ModEq.add_left_cancel' a h1
  have h3 : C ∣ j - i := (Nat.modEq_iff_dvd' (by omega)).1 h2
  have h4 := Nat.le_of_dvd (by omega) h3
  omega

theorem slot_eq (t k mask : Nat) (hk : k ≤ 64) (hmask : mask = 2 ^ k - 1) :
    (t % SIZE_MOD) &&& mask = t % 2 ^ k := by
  rw [hmask, Nat.and_pow_two_sub_one_eq_mod, SIZE_MOD,
    Nat.mod_mod_of_dvd _ (Nat.pow_dvd_pow 2 hk)]

theorem getD_set_ne (l : List String) (i j : Nat) (a : String) (h : i ≠ j) :
    (l.set i a).getD j "" = l.getD j "" := by
  simp [List.getD_eq_getElem?_getD, List.getElem?_set, h]

theorem getD_set_self (l : List String) (i : Nat) (a : String) (h : i < l.length) :
    (l.set i a).getD i "" = a := by
  simp [List.getD_eq_getElem?_getD, List.getElem?_set, h]

theorem IngestQueue.inv_new (n : Nat) (hn : n < SIZE_MOD) :
    (IngestQueue.new n).Inv ∧ (IngestQueue.new n).stored = [] ∧
      (IngestQueue.new n).capacity = next_pow2 n := by
  rcases next_pow2_cases n hn with ⟨k, _, hk, he, _⟩ | ⟨_, he⟩
  · have hC : 2 ^ k ≤ 2 ^ 63 := Nat.pow_le_pow_right (by omega) hk
    have hpos : 0 < 2 ^ k := Nat.two_pow_pos _
    have hm : (2 ^ k + SIZE_MOD - 1) % SIZE_MOD = 2 ^ k - 1 := by
      simp only [SIZE_MOD]; omega
    refine ⟨⟨by simp [IngestQueue.new, SIZE_MOD], by simp [IngestQueue.new, SIZE_MOD], ?_,
      Or.inl ⟨k, hk, by simp [IngestQueue.new, he], by simp [IngestQueue.new, he, hm]⟩⟩, ?_, ?_⟩
    · simp [IngestQueue.new, IngestQueue.size, IngestQueue.capacity, he, SIZE_MOD]
    · simp [IngestQueue.new, IngestQueue.stored, IngestQueue.size, SIZE_MOD]
    · simp only [IngestQueue.new, IngestQueue.capacity, he, hm]
      simp only [SIZE_MOD]; omega
  · refine ⟨⟨by simp [IngestQueue.new, SIZE_MOD], by simp [IngestQueue.new, SIZE_MOD], ?_,
      Or.inr ⟨by simp [IngestQueue.new, he], by simp [IngestQueue.new, he, SIZE_MOD]⟩⟩, ?_, ?_⟩
    · simp [IngestQueue.new, IngestQueue.size, IngestQueue.capacity, he, SIZE_MOD]
    · simp [IngestQueue.new, IngestQueue.stored, IngestQueue.size, SIZE_MOD]
    · simp [IngestQueue.new, IngestQueue.capacity, he, SIZE_MOD]

theorem IngestQueue.inv_clear (q : IngestQueue) (h : q.Inv) :
    q.clear.Inv ∧ q.clear.stored = [] ∧ q.clear.capacity = q.capacity := by
  obtain ⟨_, _, _, hc⟩ := h
  refine ⟨⟨by simp [IngestQueue.clear, SIZE_MOD], by simp [IngestQueue.clear, SIZE_MOD], ?_, ?_⟩,
    ?_, rfl⟩
  · simp [IngestQueue.clear, IngestQueue.size, IngestQueue.capacity, SIZE_MOD]
  · rcases hc with ⟨k, hk, hl, hm⟩ | ⟨hl, hm⟩
    · exact Or.inl ⟨k, hk, by simp [IngestQueue.clear, hl], hm⟩
    · exact Or.inr ⟨by simp [IngestQueue.clear, hl], hm⟩
  · simp [IngestQueue.clear, IngestQueue.stored, IngestQueue.size, SIZE_MOD]

/-- A queue with an empty buffer (capacity 0) stores nothing and is full. -/
theorem IngestQueue.degenerate (q : IngestQueue) (h : q.Inv) (hm : q.mask_ = SIZE_MOD - 1) :
    q.capacity = 0 ∧ q.size = 0 ∧ q.head_ = q.tail_ := by
  have hh : q.head_ < SIZE_MOD := h.1
  have ht : q.tail_ < SIZE_MOD := h.2.1
  have hs : q.size ≤ q.capacity := h.2.2.1
  clear h
  have hc : q.capacity = 0 := by simp [IngestQueue.capacity, hm, SIZE_MOD]
  rw [hc] at hs
  have hs0 : q.size = 0 := by omega
  refine ⟨hc, hs0, ?_⟩
  simp only [IngestQueue.size, SIZE_MOD] at hs0 hh ht
  omega

theorem IngestQueue.try_push_full (q : IngestQueue) (msg : String)
    (hf : q.size = q.capacity) : q.try_push msg = (false, q) := by
  unfold IngestQueue.try_push
  simp only []
  rw [if_pos]
  exact hf

theorem IngestQueue.try_push_ok (q : IngestQueue) (h : q.Inv) (msg : String)
    (hf : q.size ≠ q.capacity) :
    (q.try_push msg).1 = true ∧ (q.try_push msg).2.Inv ∧
      (q.try_push msg).2.stored = q.stored ++ [msg] ∧
      (q.try_push msg).2.size = q.size + 1 ∧
      (q.try_push msg).2.capacity = q.capacity ∧
      (q.try_push msg).2.tail_ = q.tail_ ∧
      (q.try_push msg).2.head_ = (q.head_ + 1) % SIZE_MOD := by
  have hpush : q.try_push msg = (true, { q with buf_ := q.buf_.set (q.head_ &&& q.mask_) msg
                                                head_ := (q.head_ + 1) % SIZE_MOD }) := by
    unfold IngestQueue.try_push
    simp only []
    rw [if_neg]
    exact hf
  rw [hpush]
  obtain ⟨hh, ht, hs, hc⟩ := h
  rcases hc with ⟨k, hk, hl, hm⟩ | ⟨hl, hm⟩
  · have hC : 2 ^ k ≤ 2 ^ 63 := Nat.pow_le_pow_right (by omega) hk
    have hpos : 0 < 2 ^ k := Nat.two_pow_pos _
    have hcap : q.capacity = 2 ^ k := by
      simp only [IngestQueue.capacity, hm, SIZE_MOD]; omega
    rw [hcap] at hs hf
    have hsz : (q.head_ + 1) % SIZE_MOD + SIZE_MOD - q.tail_ = q.size + 1 ∨
        (q.head_ + 1) % SIZE_MOD + SIZE_MOD - q.tail_ = q.size + 1 + SIZE_MOD := by
      simp only [IngestQueue.size, SIZE_MOD] at hs hf hh ht ⊢
      omega
    have hsize : ((q.head_ + 1) % SIZE_MOD + SIZE_MOD - q.tail_) % SIZE_MOD = q.size + 1 := by
      rcases hsz with e | e
      · rw [e]; apply Nat.mod_eq_of_lt; simp only [SIZE_MOD]; omega
      · rw [e, Nat.add_mod_right]; apply Nat.mod_eq_of_lt; simp only [SIZE_MOD]; omega
    have hhead : q.head_ = (q.tail_ + q.size) % SIZE_MOD := by
      simp only [IngestQueue.size, SIZE_MOD] at hh ht ⊢
      omega
    have hslot : q.head_ &&& q.mask_ = (q.tail_ + q.size) % 2 ^ k := by
      rw [hhead]
      conv_lhs => rw [← hhead]
      rw [hhead]
      exact slot_eq _ k _ (by omega) hm
    refine ⟨rfl, ⟨Nat.mod_lt _ (by simp [SIZE_MOD]), ht, ?_,
      Or.inl ⟨k, hk, by simp [hl], hm⟩⟩, ?_, hsize, rfl, rfl, rfl⟩
    · show ((q.head_ + 1) % SIZE_MOD + SIZE_MOD - q.tail_) % SIZE_MOD ≤ (q.mask_ + 1) % SIZE_MOD
      rw [hsize]
      have : (q.mask_ + 1) % SIZE_MOD = 2 ^ k := hcap
      rw [this]; omega
    · show List.map (fun i => (q.buf_.set (q.head_ &&& q.mask_) msg).getD
          (((q.tail_ + i) % SIZE_MOD) &&& q.mask_) "")
          (List.range (((q.head_ + 1) % SIZE_MOD + SIZE_MOD - q.tail_) % SIZE_MOD))
          = q.stored ++ [msg]
      rw [hsize, List.range_succ, List.map_append, hslot]
      congr 1
      · unfold IngestQueue.stored
        apply List.map_congr_left
        intro i hi
        have hi' : i < q.size := List.mem_range.1 hi
        rw [slot_eq _ k _ (by omega) hm]
        exact getD_set_ne _ _ _ _ (Ne.symm (idx_ne _ _ _ _ hi' (by omega)))
      · simp only [List.map_cons, List.map_nil]
        rw [slot_eq _ k _ (by omega) hm, getD_set_self]
        rw [hl]; exact Nat.mod_lt _ hpos
  · exfalso
    have := IngestQueue.degenerate q ⟨hh, ht, hs, Or.inr ⟨hl, hm⟩⟩ hm
    omega

theorem IngestQueue.try_pop_empty (q : IngestQueue) (out : String) (he : q.head_ = q.tail_) :
    q.try_pop out = (false, out, q) := by
  unfold IngestQueue.try_pop
  simp only []
  rw [if_pos he]

theorem IngestQueue.try_pop_ok (q : IngestQueue) (h : q.Inv) (out : String)
    (hne : q.head_ ≠ q.tail_) :
    (q.try_pop out).1 = true ∧ (q.try_pop out).2.2.Inv ∧
      q.stored = (q.try_pop out).2.1 :: (q.try_pop out).2.2.stored ∧
      (q.try_pop out).2.2.size + 1 = q.size ∧
      (q.try_pop out).2.2.capacity = q.capacity := by
  have hpop : q.try_pop out = (true, q.buf_.getD (q.tail_ &&& q.mask_) "",
      { q with buf_ := q.buf_.set (q.tail_ &&& q.mask_) ""
               tail_ := (q.tail_ + 1) % SIZE_MOD }) := by
    unfold IngestQueue.try_pop
    simp only []
    rw [if_neg hne]
  rw [hpop]
  obtain ⟨hh, ht, hs, hc⟩ := h
  rcases hc with ⟨k, hk, hl, hm⟩ | ⟨hl, hm⟩
  · have hC : 2 ^ k ≤ 2 ^ 63 := Nat.pow_le_pow_right (by omega) hk
    have hpos : 0 < 2 ^ k := Nat.two_pow_pos _
    have hcap : q.capacity = 2 ^ k := by
      simp only [IngestQueue.capacity, hm, SIZE_MOD]; omega
    rw [hcap] at hs
    have hsize : (q.head_ + SIZE_MOD - (q.tail_ + 1) % SIZE_MOD) % SIZE_MOD + 1 = q.size := by
      simp only [IngestQueue.size, SIZE_MOD] at hs hh ht ⊢
      omega
    have hs0 : q.size = (q.size - 1) + 1 := by omega
    have htail : q.tail_ &&& q.mask_ = (q.tail_ + 0) % 2 ^ k := by
      have := slot_eq q.tail_ k _ (by omega) hm
      rw [Nat.mod_eq_of_lt ht] at this
      simpa using this
    have hsz' : (q.head_ + SIZE_MOD - (q.tail_ + 1) % SIZE_MOD) % SIZE_MOD = q.size - 1 := by
      omega
    refine ⟨rfl, ⟨hh, Nat.mod_lt _ (by simp [SIZE_MOD]), ?_,
      Or.inl ⟨k, hk, by simp [hl], hm⟩⟩, ?_, hsize, rfl⟩
    · show (q.head_ + SIZE_MOD - (q.tail_ + 1) % SIZE_MOD) % SIZE_MOD ≤ (q.mask_ + 1) % SIZE_MOD
      have : (q.mask_ + 1) % SIZE_MOD = 2 ^ k := hcap
      rw [this]; omega
    · show q.stored = q.buf_.getD (q.tail_ &&& q.mask_) "" ::
          List.map (fun i => (q.buf_.set (q.tail_ &&& q.mask_) "").getD
            ((((q.tail_ + 1) % SIZE_MOD + i) % SIZE_MOD) &&& q.mask_) "")
            (List.range ((q.head_ + SIZE_MOD - (q.tail_ + 1) % SIZE_MOD) % SIZE_MOD))
      unfold IngestQueue.stored
      rw [hsz']
      conv_lhs => rw [hs0, List.range_succ_eq_map, List.map_cons, List.map_map]
      congr 1
      · rw [htail, slot_eq _ k _ (by omega) hm]
      · apply List.map_congr_left
        intro i hi
        have hi' : i < q.size - 1 := List.mem_range.1 hi
        rw [htail]
        simp only [Function.comp, Nat.succ_eq_add_one]
        rw [slot_eq _ k _ (by omega) hm, slot_eq _ k _ (by omega) hm]
        have e : ((q.tail_ + 1) % SIZE_MOD + i) % 2 ^ k = (q.tail_ + (i + 1)) % 2 ^ k := by
          have hd : 2 ^ k ∣ SIZE_MOD := Nat.pow_dvd_pow 2 (show k ≤ 64 by omega)
          rw [← Nat.mod_mod_of_dvd ((q.tail_ + 1) % SIZE_MOD + i) hd, Nat.mod_add_mod,
            Nat.mod_mod_of_dvd _ hd]
          congr 1
          omega
        rw [e]
        exact (getD_set_ne _ _ _ _ (idx_ne _ _ _ _ (by omega) (by omega))).symm
  · exfalso
    have := IngestQueue.degenerate q ⟨hh, ht, hs, Or.inr ⟨hl, hm⟩⟩ hm
    omega

theorem IngestQueue.head_eq_tail_iff (q : IngestQueue) (h : q.Inv) :
    q.head_ = q.tail_ ↔ q.size = 0 := by
  have hh : q.head_ < SIZE_MOD := h.1
  have ht : q.tail_ < SIZE_MOD := h.2.1
  clear h
  simp only [IngestQueue.size, SIZE_MOD] at hh ht ⊢
  omega

theorem IngestQueue.stored_length (q : IngestQueue) : q.stored.length = q.size := by
  simp [IngestQueue.stored]

theorem IngestQueue.stored_eq_nil_iff (q : IngestQueue) : q.stored = [] ↔ q.size = 0 := by
  rw [← IngestQueue.stored_length, List.length_eq_zero]

/-- One call keeps the invariant and the capacity. -/
theorem QueueRun.step_inv (r : QueueRun) (c : QueueCall) (h : r.q.Inv) :
    (r.step c).q.Inv ∧ (r.step c).q.capacity = r.q.capacity := by
  cases c with
  | try_push msg =>
    by_cases hf : r.q.size = r.q.capacity
    · simp only [QueueRun.step, IngestQueue.try_push_full _ msg hf]
      exact ⟨h, trivial⟩
    · obtain ⟨_, h2, _, _, h5, _⟩ := IngestQueue.try_push_ok r.q h msg hf
      exact ⟨h2, h5⟩
  | try_pop =>
    by_cases he : r.q.head_ = r.q.tail_
    · simp only [QueueRun.step, IngestQueue.try_pop_empty _ "" he]
      exact ⟨h, trivial⟩
    · obtain ⟨_, h2, _, _, h5⟩ := IngestQueue.try_pop_ok r.q h "" he
      exact ⟨h2, h5⟩
  | clear =>
    obtain ⟨h1, _, h3⟩ := IngestQueue.inv_clear r.q h
    exact ⟨h1, h3⟩

/-- A push or a pop keeps `accepted = popped ++ stored`. -/
theorem QueueRun.step_fifo (r : QueueRun) (c : QueueCall) (h : r.q.Inv)
    (hc : c.isPushPop = true) (hr : r.accepted = r.popped ++ r.q.stored) :
    (r.step c).accepted = (r.step c).popped ++ (r.step c).q.stored := by
  cases c with
  | try_push msg =>
    by_cases hf : r.q.size = r.q.capacity
    · simp only [QueueRun.step, IngestQueue.try_push_full _ msg hf]
      simpa using hr
    · obtain ⟨h1, _, h3, _⟩ := IngestQueue.try_push_ok r.q h msg hf
      simp only [QueueRun.step, h1, h3, if_true, hr, List.append_assoc]
  | try_pop =>
    by_cases he : r.q.head_ = r.q.tail_
    · simp only [QueueRun.step, IngestQueue.try_pop_empty _ "" he]
      simpa using hr
    · obtain ⟨h1, _, h3, _⟩ := IngestQueue.try_pop_ok r.q h "" he
      simp only [QueueRun.step, h1, if_true, hr, h3, List.append_assoc, List.singleton_append]
  | clear => simp [QueueCall.isPushPop] at hc

theorem QueueRun.foldl_inv (calls : List QueueCall) :
    ∀ r : QueueRun, r.q.Inv →
      (calls.foldl QueueRun.step r).q.Inv ∧
        (calls.foldl QueueRun.step r).q.capacity = r.q.capacity := by
  induction calls with
  | nil => intro r h; exact ⟨h, rfl⟩
  | cons c cs ih =>
    intro r h
    obtain ⟨h1, h2⟩ := QueueRun.step_inv r c h
    obtain ⟨h3, h4⟩ := ih (r.step c) h1
    exact ⟨h3, h4.trans h2⟩

theorem QueueRun.foldl_fifo (calls : List QueueCall) :
    ∀ r : QueueRun, r.q.Inv → (∀ c ∈ calls, c.isPushPop = true) →
      r.accepted = r.popped ++ r.q.stored →
      (calls.foldl QueueRun.step r).accepted =
        (calls.foldl QueueRun.step r).popped ++ (calls.foldl QueueRun.step r).q.stored := by
  induction calls with
  | nil => intro r _ _ hr; exact hr
  | cons c cs ih =>
    intro r h hc hr
    exact ih (r.step c) (QueueRun.step_inv r c h).1
      (fun c' hc' => hc c' (List.mem_cons_of_mem _ hc'))
      (QueueRun.step_fifo r c h (hc c (List.mem_cons_self _ _)) hr)

theorem QueueRun.fresh_inv (capacity : Nat) (hcap : capacity < SIZE_MOD)
    (calls : List QueueCall) :
    (QueueRun.fresh capacity calls).q.Inv ∧
      (QueueRun.fresh capacity calls).q.capacity = next_pow2 capacity := by
  obtain ⟨h1, _, h3⟩ := IngestQueue.inv_new capacity hcap
  obtain ⟨h4, h5⟩ := QueueRun.foldl_inv calls
    { q := IngestQueue.new capacity, accepted := [], popped := [] } h1
  exact ⟨h4, h5.trans h3⟩

/-- C2. RingQueue FIFO: for every requested capacity and every finite
sequence of try_push and try_pop calls on a fresh IngestQueue, the messages
handed out by the successful try_pop calls are, in order, a prefix of the
messages whose try_push returned true (the accepted messages are the popped
ones followed by the stored ones), and a further try_pop returns false
exactly when every accepted message has already been popped. -/
theorem ring_fifo (capacity : Nat) (hcap : capacity < SIZE_MOD) (calls : List QueueCall)
    (hcalls : ∀ c ∈ calls, c.isPushPop = true) (out : String) :
    (QueueRun.fresh capacity calls).popped <+: (QueueRun.fresh capacity calls).accepted ∧
    (QueueRun.fresh capacity calls).accepted =
      (QueueRun.fresh capacity calls).popped ++ (QueueRun.fresh capacity calls).q.stored ∧
    (((QueueRun.fresh capacity calls).q.try_pop out).1 = false ↔
      (QueueRun.fresh capacity calls).popped = (QueueRun.fresh capacity calls).accepted) := by
  obtain ⟨h1, h2, _⟩ := IngestQueue.inv_new capacity hcap
  have hinv := (QueueRun.fresh_inv capacity hcap calls).1
  have hf : (QueueRun.fresh capacity calls).accepted =
      (QueueRun.fresh capacity calls).popped ++ (QueueRun.fresh capacity calls).q.stored :=
    QueueRun.foldl_fifo calls { q := IngestQueue.new capacity, accepted := [], popped := [] }
      h1 hcalls (by simp [h2])
  refine ⟨⟨_, hf.symm⟩, hf, ?_⟩
  have hstore : (QueueRun.fresh capacity calls).popped = (QueueRun.fresh capacity calls).accepted
      ↔ (QueueRun.fresh capacity calls).q.stored = [] := by
    constructor
    · intro e
      rw [← e] at hf
      exact List.self_eq_append_right.1 hf
    · intro e
      rw [hf, e, List.append_nil]
  rw [hstore, IngestQueue.stored_eq_nil_iff, ← IngestQueue.head_eq_tail_iff _ hinv]
  by_cases he : (QueueRun.fresh capacity calls).q.head_ = (QueueRun.fresh capacity calls).q.tail_
  · simp [IngestQueue.try_pop_empty _ out he, he]
  · simp [(IngestQueue.try_pop_ok _ hinv out he).1, he]

theorem ring_fifo_witness :
    8 < SIZE_MOD ∧
    (QueueRun.fresh 8 [.try_push "a", .try_push "b", .try_pop]).popped <+:
      (QueueRun.fresh 8 [.try_push "a", .try_push "b", .try_pop]).accepted ∧
    (QueueRun.fresh 8 [.try_push "a", .try_push "b", .try_pop]).accepted =
      (QueueRun.fresh 8 [.try_push "a", .try_push "b", .try_pop]).popped ++
        (QueueRun.fresh 8 [.try_push "a", .try_push "b", .try_pop]).q.stored ∧
    (((QueueRun.fresh 8 [.try_push "a", .try_push "b", .try_pop]).q.try_pop "").1 = false ↔
      (QueueRun.fresh 8 [.try_push "a", .try_push "b", .try_pop]).popped =
        (QueueRun.fresh 8 [.try_push "a", .try_push "b", .try_pop]).accepted) :=
  ⟨by decide, ring_fifo 8 (by decide) [.try_push "a", .try_push "b", .try_pop]
    (by decide) ""⟩

/-- C3. RingQueue bound invariant: in every state reachable from a fresh
IngestQueue by try_push, try_pop and clear, size() = head - tail (in size_t
arithmetic) is at most capacity(). -/
theorem ring_bound (capacity : Nat) (hcap : capacity < SIZE_MOD) (calls : List QueueCall) :
    (QueueRun.fresh capacity calls).q.size ≤ (QueueRun.fresh capacity calls).q.capacity ∧
    ((QueueRun.fresh capacity calls).q.head_ + SIZE_MOD - (QueueRun.fresh capacity calls).q.tail_)
        % SIZE_MOD ≤ (QueueRun.fresh capacity calls).q.capacity :=
  ⟨(QueueRun.fresh_inv capacity hcap calls).1.2.2.1, (QueueRun.fresh_inv capacity hcap calls).1.2.2.1⟩

theorem ring_bound_witness :
    8 < SIZE_MOD ∧
    (QueueRun.fresh 8 [.try_push "a", .try_pop, .try_push "b", .clear]).q.size ≤
      (QueueRun.fresh 8 [.try_push "a", .try_pop, .try_push "b", .clear]).q.capacity ∧
    ((QueueRun.fresh 8 [.try_push "a", .try_pop, .try_push "b", .clear]).q.head_ + SIZE_MOD -
        (QueueRun.fresh 8 [.try_push "a", .try_pop, .try_push "b", .clear]).q.tail_)
        % SIZE_MOD ≤
      (QueueRun.fresh 8 [.try_push "a", .try_pop, .try_push "b", .clear]).q.capacity :=
  ⟨by decide, ring_bound 8 (by decide) [.try_push "a", .try_pop, .try_push "b", .clear]⟩

/-- Pushing `msgs` into a queue with room for all of them: every push
succeeds. -/
theorem pushAll_ok (msgs : List String) :
    ∀ q : IngestQueue, q.Inv → q.size + msgs.length ≤ q.capacity →
      (pushAll q msgs).1 = List.replicate msgs.length true ∧ (pushAll q msgs).2.Inv ∧
        (pushAll q msgs).2.size = q.size + msgs.length ∧
        (pushAll q msgs).2.capacity = q.capacity ∧
        (pushAll q msgs).2.stored = q.stored ++ msgs := by
  induction msgs with
  | nil => intro q h _; simp [pushAll, h]
  | cons m ms ih =>
    intro q h hroom
    simp only [List.length_cons] at hroom
    obtain ⟨h1, h2, h3, h4, h5, _⟩ := IngestQueue.try_push_ok q h m (by omega)
    obtain ⟨i1, i2, i3, i4, i5⟩ := ih (q.try_push m).2 h2 (by omega)
    refine ⟨?_, i2, ?_, i4.trans h5, ?_⟩
    · simp only [pushAll, h1, i1, List.length_cons, List.replicate_succ]
    · show (pushAll (q.try_push m).2 ms).2.size = q.size + (ms.length + 1)
      omega
    · show (pushAll (q.try_push m).2 ms).2.stored = q.stored ++ m :: ms
      rw [i5, h3, List.append_assoc, List.singleton_append]

/-- C4. try_push drop-on-full: in every state reachable from a fresh queue,
try_push(msg) returns true iff size() < capacity() beforehand; when it
returns true the size grows by one and msg becomes the newest stored message;
when it returns false the whole state (head, tail and every slot) is
unchanged. When the state is empty, capacity() consecutive pushes all
succeed, after which full() holds and the next push fails. -/
theorem try_push_drop_on_full (capacity : Nat) (hcap : capacity < SIZE_MOD)
    (calls : List QueueCall) (msg : String) (msgs : List String) :
    (((QueueRun.fresh capacity calls).q.try_push msg).1 = true ↔
      (QueueRun.fresh capacity calls).q.size < (QueueRun.fresh capacity calls).q.capacity) ∧
    (((QueueRun.fresh capacity calls).q.try_push msg).1 = true →
      ((QueueRun.fresh capacity calls).q.try_push msg).2.size =
          (QueueRun.fresh capacity calls).q.size + 1 ∧
        ((QueueRun.fresh capacity calls).q.try_push msg).2.stored =
          (QueueRun.fresh capacity calls).q.stored ++ [msg]) ∧
    (((QueueRun.fresh capacity calls).q.try_push msg).1 = false →
      ((QueueRun.fresh capacity calls).q.try_push msg).2 = (QueueRun.fresh capacity calls).q) ∧
    ((QueueRun.fresh capacity calls).q.empty = true →
      msgs.length = (QueueRun.fresh capacity calls).q.capacity →
      (pushAll (QueueRun.fresh capacity calls).q msgs).1 = List.replicate msgs.length true ∧
        (pushAll (QueueRun.fresh capacity calls).q msgs).2.full = true ∧
        ((pushAll (QueueRun.fresh capacity calls).q msgs).2.try_push msg).1 = false) := by
  have hinv := (QueueRun.fresh_inv capacity hcap calls).1
  generalize (QueueRun.fresh capacity calls).q = q at hinv ⊢
  have hs : q.size ≤ q.capacity := hinv.2.2.1
  refine ⟨?_, ?_, ?_, ?_⟩
  · by_cases hf : q.size = q.capacity
    · simp [IngestQueue.try_push_full q msg hf, hf]
    · simp only [(IngestQueue.try_push_ok q hinv msg hf).1, true_iff]
      omega
  · intro ht
    by_cases hf : q.size = q.capacity
    · simp [IngestQueue.try_push_full q msg hf] at ht
    · obtain ⟨_, _, h3, h4, _⟩ := IngestQueue.try_push_ok q hinv msg hf
      exact ⟨h4, h3⟩
  · intro ht
    by_cases hf : q.size = q.capacity
    · simp [IngestQueue.try_push_full q msg hf]
    · simp [(IngestQueue.try_push_ok q hinv msg hf).1] at ht
  · intro he hlen
    have h0 : q.size = 0 := by simpa [IngestQueue.empty] using he
    obtain ⟨i1, _, i3, i4, _⟩ := pushAll_ok msgs q hinv (by omega)
    have hfull : (pushAll q msgs).2.size = (pushAll q msgs).2.capacity := by omega
    refine ⟨i1, by simp [IngestQueue.full, hfull], ?_⟩
    simp [IngestQueue.try_push_full _ msg hfull]

theorem try_push_drop_on_full_witness :
    8 < SIZE_MOD ∧
    ((((QueueRun.fresh 8 []).q.try_push "x").1 = true ↔
      (QueueRun.fresh 8 []).q.size < (QueueRun.fresh 8 []).q.capacity) ∧
    (((QueueRun.fresh 8 []).q.try_push "x").1 = true →
      ((QueueRun.fresh 8 []).q.try_push "x").2.size = (QueueRun.fresh 8 []).q.size + 1 ∧
        ((QueueRun.fresh 8 []).q.try_push "x").2.stored =
          (QueueRun.fresh 8 []).q.stored ++ ["x"]) ∧
    (((QueueRun.fresh 8 []).q.try_push "x").1 = false →
      ((QueueRun.fresh 8 []).q.try_push "x").2 = (QueueRun.fresh 8 []).q) ∧
    ((QueueRun.fresh 8 []).q.empty = true →
      ["0", "1", "2", "3", "4", "5", "6", "7"].length = (QueueRun.fresh 8 []).q.capacity →
      (pushAll (QueueRun.fresh 8 []).q ["0", "1", "2", "3", "4", "5", "6", "7"]).1 =
          List.replicate ["0", "1", "2", "3", "4", "5", "6", "7"].length true ∧
        (pushAll (QueueRun.fresh 8 []).q ["0", "1", "2", "3", "4", "5", "6", "7"]).2.full = true ∧
        ((pushAll (QueueRun.fresh 8 []).q
          ["0", "1", "2", "3", "4", "5", "6", "7"]).2.try_push "x").1 = false)) :=
  ⟨by decide, try_push_drop_on_full 8 (by decide) [] "x"
    ["0", "1", "2", "3", "4", "5", "6", "7"]⟩

/-! ### Parser -/

theorem Json.contains_eq (j : Json) (k : String) : j.contains k = (j.at? k).isSome := by
  cases j <;> rfl

theorem get_string_any_eq_none (L : Lib) (j : Json) (keys : List String) :
    get_string_any L j keys = none ↔ ¬ someKeyTypable tokenTypable j keys := by
  induction keys with
  | nil => simp [get_string_any, someKeyTypable]
  | cons k ks ih =>
    have hs : someKeyTypable tokenTypable j (k :: ks) ↔
        (∃ v, j.at? k = some v ∧ tokenTypable v = true) ∨ someKeyTypable tokenTypable j ks := by
      simp [someKeyTypable]
    rw [hs, get_string_any, Json.contains_eq]
    cases hv : j.at? k with
    | none => simpa using ih
    | some v => cases v <;> simp [tokenTypable, ih]

theorem get_number_any_eq_none (L : Lib) (j : Json) (keys : List String) :
    get_number_any L j keys = none ↔ ¬ someKeyTypable (priceTypable L) j keys := by
  induction keys with
  | nil => simp [get_number_any, someKeyTypable]
  | cons k ks ih =>
    have hs : someKeyTypable (priceTypable L) j (k :: ks) ↔
        (∃ v, j.at? k = some v ∧ priceTypable L v = true) ∨
          someKeyTypable (priceTypable L) j ks := by
      simp [someKeyTypable]
    rw [hs, get_number_any, Json.contains_eq]
    cases hv : j.at? k with
    | none => simpa using ih
    | some v =>
      cases v with
      | str s => cases hd : L.stod s <;> simp [priceTypable, ih, hd]
      | _ => simp [priceTypable, ih]

/-- C5 (as amended). Parser rejection rule: for every frame text and every
configured strip_prefix, parse_ltp returns None iff the text is not valid
JSON, or no token key of the unwrapped document is bound to a string or a
number, or no price key is bound to a float, an integer or a string that
std::stod converts. The timestamp plays no part: a missing or untypable
timestamp never causes None. -/
theorem parser_rejection_rule (L : Lib) (p : Parser) (text : String) :
    p.parse_ltp L text = none ↔
      (L.parse text = none ∨
        ∃ j0, L.parse text = some j0 ∧
          (¬ someKeyTypable tokenTypable (unwrap j0) TOKEN_KEYS ∨
            ¬ someKeyTypable (priceTypable L) (unwrap j0) PRICE_KEYS)) := by
  unfold Parser.parse_ltp
  cases hp : L.parse text with
  | none => simp
  | some j0 =>
    simp only [reduceCtorEq, false_or, Option.some.injEq, exists_eq_left']
    rw [← get_string_any_eq_none L, ← get_number_any_eq_none L]
    cases ht : get_string_any L (unwrap j0) TOKEN_KEYS with
    | none => simp
    | some tok =>
      cases hn : get_number_any L (unwrap j0) PRICE_KEYS with
      | none => simp
      | some price => simp

/-- C5 (as stated) fails: in `{"token":null,"symbol":"X","ltp":1.5}` the token
(the first present token key, `token`) is untypable, and parse_ltp returns a
record all the same, taking the token from `symbol`. -/
theorem parser_rejection_counterexample :
    (oneFrameLib nullTokenText nullTokenDoc).parse nullTokenText = some nullTokenDoc ∧
    absentOrUntypable tokenTypable (unwrap nullTokenDoc) TOKEN_KEYS = true ∧
    (Parser.mk "").parse_ltp (oneFrameLib nullTokenText nullTokenDoc) nullTokenText =
      some { token := "X", ltp := ⟨0x3FF8000000000000⟩, ts := ⟨0⟩ } := by
  refine ⟨by simp [oneFrameLib], by decide, by decide⟩

theorem strip_append (pre rest : String) (h : pre ≠ "") : strip pre (pre ++ rest) = rest := by
  have hd : pre.data ≠ [] := by
    intro e
    apply h
    cases pre
    simp_all
  have hp : pre.data.isPrefixOf (pre ++ rest).data = true := by
    rw [List.isPrefixOf_iff_prefix, String.data_append]
    exact List.prefix_append _ _
  simp [strip, starts_with, hp, hd, String.data_append]

theorem wrapI64_id (v : Int) (h1 : -(2 ^ 63) ≤ v) (h2 : v < 2 ^ 63) : wrapI64 v = v := by
  unfold wrapI64
  omega

/-- The parse of a well-formed millisecond frame, in full. -/
theorem parse_msFrame (L : Lib) (p : Parser) (text tok : String) (price : Double) (t : Int)
    (hparse : L.parse text = some (msFrame tok price t)) :
    p.parse_ltp L text =
      some { token := strip p.strip_prefix_ tok, ltp := price, ts := to_timepoint (wrapI64 t) } := by
  have hu : unwrap (msFrame tok price t) = Json.obj
      [("token", Json.str tok), ("ltp", Json.float price), ("exchange_timestamp", Json.int t)] := by
    rfl
  have h1 : get_string_any L (Json.obj
      [("token", Json.str tok), ("ltp", Json.float price), ("exchange_timestamp", Json.int t)])
      TOKEN_KEYS = some tok := by rfl
  have h2 : get_number_any L (Json.obj
      [("token", Json.str tok), ("ltp", Json.float price), ("exchange_timestamp", Json.int t)])
      PRICE_KEYS = some price := by rfl
  have h3 : get_time_any L (Json.obj
      [("token", Json.str tok), ("ltp", Json.float price), ("exchange_timestamp", Json.int t)])
      TS_KEYS = some (wrapI64 t) := by rfl
  simp only [Parser.parse_ltp, hparse, hu, h1, h2, h3]

/-- C6 (as amended). Parser round trip: for every token string tok, price p
and millisecond timestamp t with 10^12 <= |t| <= 9223372036854 (the values the
heuristic reads as milliseconds and whose nanosecond count fits the clock's
64 bits), parsing the frame {"data":{"token":tok,"ltp":p,
"exchange_timestamp":t}} returns Some record whose token is tok with the
configured strip_prefix removed (the rest of tok when tok starts with a
non-empty strip_prefix), whose price is p and whose ts is exactly, hence
within 1 ms of, the instant t milliseconds after the epoch. -/
theorem parser_round_trip (L : Lib) (p : Parser) (text tok : String) (price : Double)
    (t : Int) (hparse : L.parse text = some (msFrame tok price t))
    (hlo : 1000000000000 ≤ |t|) (hhi : |t| ≤ 9223372036854) :
    ∃ r, p.parse_ltp L text = some r ∧
      r.token = strip p.strip_prefix_ tok ∧
      (∀ rest, p.strip_prefix_ ≠ "" → tok = p.strip_prefix_ ++ rest → r.token = rest) ∧
      r.ltp = price ∧ r.ts.ns = t * 1000000 ∧ within_1ms r.ts t := by
  obtain ⟨hl, hu⟩ := abs_le.1 hhi
  have ht : wrapI64 t = t := wrapI64_id t (by omega) (by omega)
  have habs : llabs t = |t| := by
    unfold llabs
    exact wrapI64_id _ (by omega) (by omega)
  have hts : to_timepoint t = ⟨t * 1000000⟩ := by
    unfold to_timepoint
    rw [habs, if_pos (by omega), wrapI64_id _ (by omega) (by omega)]
  refine ⟨_, parse_msFrame L p text tok price t hparse, rfl, ?_, rfl, ?_, ?_⟩
  · intro rest hne he
    show strip p.strip_prefix_ tok = rest
    rw [he]
    exact strip_append _ _ hne
  · show (to_timepoint (wrapI64 t)).ns = t * 1000000
    rw [ht, hts]
  · show within_1ms (to_timepoint (wrapI64 t)) t
    rw [ht, hts]
    simp [within_1ms]

theorem parser_round_trip_witness :
    (oneFrameLib (msText 1728123456789)
        (msFrame "nse_cm|26000" px_123_45 1728123456789)).parse (msText 1728123456789) =
      some (msFrame "nse_cm|26000" px_123_45 1728123456789) ∧
    (1000000000000 : Int) ≤ |1728123456789| ∧ |(1728123456789 : Int)| ≤ 9223372036854 ∧
    ∃ r, (Parser.mk "nse_cm|").parse_ltp
          (oneFrameLib (msText 1728123456789) (msFrame "nse_cm|26000" px_123_45 1728123456789))
          (msText 1728123456789) = some r ∧
      r.token = strip (Parser.mk "nse_cm|").strip_prefix_ "nse_cm|26000" ∧
      (∀ rest, (Parser.mk "nse_cm|").strip_prefix_ ≠ "" →
        "nse_cm|26000" = (Parser.mk "nse_cm|").strip_prefix_ ++ rest → r.token = rest) ∧
      r.ltp = px_123_45 ∧ r.ts.ns = 1728123456789 * 1000000 ∧ within_1ms r.ts 1728123456789 :=
  ⟨by simp [oneFrameLib], by decide, by decide,
    parser_round_trip _ (Parser.mk "nse_cm|") (msText 1728123456789) "nse_cm|26000" px_123_45
      1728123456789 (by simp [oneFrameLib]) (by decide) (by decide)⟩

/-- C6 (as stated) fails. A millisecond timestamp below 10^12 is read as
seconds: for t = 1000 the result's ts is 1000 s, not 1000 ms, after the epoch.
A millisecond timestamp above 9223372036854 wraps the clock's nanosecond
count: for t = 10^16 the result's ts is 1864712049423024128 ns. -/
theorem parser_round_trip_counterexample :
    ((Parser.mk "nse_cm|").parse_ltp
        (oneFrameLib (msText 1000) (msFrame "nse_cm|26000" px_123_45 1000)) (msText 1000) =
      some { token := "26000", ltp := px_123_45, ts := ⟨1000000000000⟩ } ∧
     ¬ within_1ms ⟨1000000000000⟩ 1000) ∧
    ((Parser.mk "nse_cm|").parse_ltp
        (oneFrameLib (msText 10000000000000000)
          (msFrame "nse_cm|26000" px_123_45 10000000000000000))
        (msText 10000000000000000) =
      some { token := "26000", ltp := px_123_45, ts := ⟨1864712049423024128⟩ } ∧
     ¬ within_1ms ⟨1864712049423024128⟩ 10000000000000000) := by
  refine ⟨⟨?_, ?_⟩, ⟨?_, ?_⟩⟩
  · rw [parse_msFrame _ _ _ "nse_cm|26000" px_123_45 1000 (by simp [oneFrameLib])]
    decide
  · simp [within_1ms]
  · rw [parse_msFrame _ _ _ "nse_cm|26000" px_123_45 10000000000000000 (by simp [oneFrameLib])]
    decide
  · simp [within_1ms]

/-! ### Sharder -/

theorem shard_eq (L : List String) (k : Nat) (hk : 1 ≤ k) :
    Sharder.shard L k =
      (List.range ((L.length + k - 1) / k)).map (fun j => (L.drop (j * k)).take k) := by
  unfold Sharder.shard
  cases L with
  | nil =>
    have e : ([] : List String).length + k - 1 = k - 1 := by simp
    simp [e, Nat.div_eq_of_lt (show k - 1 < k by omega)]
  | cons a l =>
    simp only [List.isEmpty_cons, Bool.false_eq_true, if_false]
    rw [if_neg (by omega)]
    exact sliceLoop_all (a :: l) k hk

theorem shard_flatten (L : List String) (k : Nat) (hk : 1 ≤ k) :
    (Sharder.shard L k).flatten = L := by
  rw [shard_eq L k hk]
  exact slices_flatten k _ L (ceil_mul_ge k L.length hk)

/-- C7. Sharder partitioning: for every token list L and every
max_tokens_per_conn k >= 1, shard(L, k) returns chunks that are non-empty, of
length <= k, the contiguous slices L[j*k, j*k + k) for j = 0, 1, ... in
order (ceil(|L| / k) of them), and whose concatenation in order equals L. -/
theorem shard_partition (L : List String) (k : Nat) (hk : 1 ≤ k) :
    (∀ c ∈ Sharder.shard L k, c ≠ [] ∧ c.length ≤ k) ∧
    Sharder.shard L k =
      (List.range ((L.length + k - 1) / k)).map (fun j => (L.drop (j * k)).take k) ∧
    (Sharder.shard L k).flatten = L := by
  refine ⟨?_, shard_eq L k hk, shard_flatten L k hk⟩
  intro c hc
  rw [shard_eq L k hk] at hc
  obtain ⟨j, hj, rfl⟩ := List.mem_map.1 hc
  have hlt := ceil_pred_mul_lt k L.length hk j (List.mem_range.1 hj)
  constructor
  · intro h
    have := congrArg List.length h
    simp at this
    omega
  · simp

theorem shard_partition_witness :
    1 ≤ 2 ∧
    (∀ c ∈ Sharder.shard ["26000", "26001", "26002"] 2, c ≠ [] ∧ c.length ≤ 2) ∧
    Sharder.shard ["26000", "26001", "26002"] 2 =
      (List.range ((["26000", "26001", "26002"].length + 2 - 1) / 2)).map
        (fun j => (["26000", "26001", "26002"].drop (j * 2)).take 2) ∧
    (Sharder.shard ["26000", "26001", "26002"] 2).flatten = ["26000", "26001", "26002"] :=
  ⟨by decide, shard_partition ["26000", "26001", "26002"] 2 (by decide)⟩

theorem make_worker_desired (s : Sharder) (c : List String) (x : String) :
    x ∈ (s.make_worker c).sub.desired_.elems ↔ x ∈ c := by
  unfold Sharder.make_worker
  cases c with
  | nil => simp [SubscriptionManager.new, TokenSet.empty]
  | cons a l =>
    simp only [List.isEmpty_cons, Bool.not_false, if_true, SubscriptionManager.add_many]
    rw [TokenSet.mem_foldl_insert]
    simp [SubscriptionManager.new, TokenSet.empty]

theorem start_workers (s : Sharder) (L : List String) (hrun : s.running = false) :
    ((s.set_tokens L).start).2.workers =
      (if (Sharder.shard L s.opts.max_tokens_per_conn).isEmpty then [[]]
        else Sharder.shard L s.opts.max_tokens_per_conn).map (s.set_tokens L).make_worker := by
  simp only [Sharder.start, Sharder.set_tokens, hrun, Bool.false_eq_true, if_false,
    Sharder.build_workers_locked]
  split <;> simp_all

/-- C8. Shard count: on a Sharder that is not running, after set_tokens(L)
with |L| = n and start() with max_tokens_per_conn = k >= 1, num_workers()
equals max(1, ceil(n / k)); the workers' token lists are the chunks of
shard(L, k) in order (one empty chunk when L is empty); each worker's
reconciler desired set holds exactly the tokens of its chunk and nothing is
active; the union of the seeds is the set of tokens of L; and for n = 0 there
is exactly one worker, with an empty seed. -/
theorem shard_count (s : Sharder) (L : List String) (hrun : s.running = false)
    (hk : 1 ≤ s.opts.max_tokens_per_conn) :
    ((s.set_tokens L).start).2.num_workers =
      max 1 ((L.length + s.opts.max_tokens_per_conn - 1) / s.opts.max_tokens_per_conn) ∧
    ((s.set_tokens L).start).2.workers.map (fun w => w.tokens) =
      (if L.isEmpty then [[]] else Sharder.shard L s.opts.max_tokens_per_conn) ∧
    (∀ w ∈ ((s.set_tokens L).start).2.workers,
      (∀ x, x ∈ w.sub.desired_.elems ↔ x ∈ w.tokens) ∧ w.sub.active_.elems = []) ∧
    (∀ x, (∃ w ∈ ((s.set_tokens L).start).2.workers, x ∈ w.sub.desired_.elems) ↔ x ∈ L) ∧
    (L = [] → ∃ w, ((s.set_tokens L).start).2.workers = [w] ∧ w.tokens = [] ∧
      w.sub.desired_.elems = []) := by
  have hw := start_workers s L hrun
  have hlen := congrArg List.length (shard_eq L _ hk)
  simp only [List.length_map, List.length_range] at hlen
  have hempty : (Sharder.shard L s.opts.max_tokens_per_conn).isEmpty = L.isEmpty := by
    cases L with
    | nil => simp [Sharder.shard]
    | cons a l =>
      have := shard_flatten (a :: l) _ hk
      cases hs : Sharder.shard (a :: l) s.opts.max_tokens_per_conn with
      | nil => rw [hs] at this; simp at this
      | cons _ _ => rfl
  rw [hempty] at hw
  have htok : ∀ c, ((s.set_tokens L).make_worker c).tokens = c := fun c => rfl
  have hact : ∀ c, ((s.set_tokens L).make_worker c).sub.active_.elems = [] := by
    intro c
    unfold Sharder.make_worker
    cases c <;> rfl
  have hmem : ∀ w ∈ ((s.set_tokens L).start).2.workers,
      (∀ x, x ∈ w.sub.desired_.elems ↔ x ∈ w.tokens) ∧ w.sub.active_.elems = [] := by
    intro w hwm
    rw [hw] at hwm
    obtain ⟨c, _, rfl⟩ := List.mem_map.1 hwm
    exact ⟨fun x => by rw [make_worker_desired, htok], hact c⟩
  refine ⟨?_, ?_, hmem, ?_, ?_⟩
  · rw [Sharder.num_workers, hw, List.length_map]
    cases L with
    | nil =>
      have e : ([] : List String).length + s.opts.max_tokens_per_conn - 1
          = s.opts.max_tokens_per_conn - 1 := by simp
      simp [e, Nat.div_eq_of_lt (show s.opts.max_tokens_per_conn - 1
        < s.opts.max_tokens_per_conn by omega)]
    | cons a l =>
      simp only [List.isEmpty_cons, Bool.false_eq_true, if_false, hlen]
      have : 1 ≤ ((a :: l).length + s.opts.max_tokens_per_conn - 1)
          / s.opts.max_tokens_per_conn := by
        rw [Nat.le_div_iff_mul_le (by omega)]
        simp only [List.length_cons]
        omega
      omega
  · rw [hw, List.map_map]
    have : ((fun w : Worker => w.tokens) ∘ (s.set_tokens L).make_worker) = id := by
      funext c; rfl
    rw [this, List.map_id]
  · intro x
    constructor
    · rintro ⟨w, hwm, hx⟩
      rw [hw] at hwm
      obtain ⟨c, hc, rfl⟩ := List.mem_map.1 hwm
      rw [make_worker_desired] at hx
      cases L with
      | nil => simp at hc; subst hc; simp at hx
      | cons a l =>
        simp only [List.isEmpty_cons, Bool.false_eq_true, if_false] at hc
        rw [← shard_flatten (a :: l) _ hk]
        exact List.mem_flatten.2 ⟨c, hc, hx⟩
    · intro hx
      cases L with
      | nil => simp at hx
      | cons a l =>
        rw [← shard_flatten (a :: l) _ hk] at hx
        obtain ⟨c, hc, hxc⟩ := List.mem_flatten.1 hx
        refine ⟨(s.set_tokens (a :: l)).make_worker c, ?_, ?_⟩
        · rw [hw]
          simp only [List.isEmpty_cons, Bool.false_eq_true, if_false]
          exact List.mem_map_of_mem _ hc
        · rw [make_worker_desired]; exact hxc
  · intro hL
    subst hL
    refine ⟨(s.set_tokens []).make_worker [], ?_, rfl, ?_⟩
    · rw [hw]; rfl
    · rfl

theorem shard_count_witness :
    (Sharder.new ⟨"wss://ws.ifelse.io", 2, 2, true, "", "nse_cm|", []⟩).running = false ∧
    1 ≤ (Sharder.new ⟨"wss://ws.ifelse.io", 2, 2, true, "", "nse_cm|", []⟩).opts.max_tokens_per_conn ∧
    (((Sharder.new ⟨"wss://ws.ifelse.io", 2, 2, true, "", "nse_cm|", []⟩).set_tokens
        ["26000", "26001", "26002"]).start).2.num_workers = 2 :=
  ⟨rfl, by decide,
    (shard_count (Sharder.new ⟨"wss://ws.ifelse.io", 2, 2, true, "", "nse_cm|", []⟩)
      ["26000", "26001", "26002"] rfl (by decide)).1⟩

/-! ### LTP store -/

theorem lookup_map_replace (k : String) (v : LTP) (l : List (String × LTP))
    (h : l.any (fun kv => kv.1 == k) = true) :
    (l.map (fun kv => if kv.1 == k then (kv.1, v) else kv)).lookup k = some v := by
  induction l with
  | nil => simp at h
  | cons a l ih =>
    obtain ⟨a1, a2⟩ := a
    by_cases hk : a1 = k
    · subst hk
      have e : (if ((a1, a2) : String × LTP).1 == a1 then (((a1, a2) : String × LTP).1, v)
          else (a1, a2)) = (a1, v) := by simp
      rw [List.map_cons, e]
      simp [List.lookup]
    · have hne : (k == a1) = false := by
        rw [beq_eq_false_iff_ne]; exact fun e => hk e.symm
      have hne' : (a1 == k) = false := by
        rw [beq_eq_false_iff_ne]; exact hk
      simp only [List.any_cons, hne', Bool.false_or] at h
      have e : (if ((a1, a2) : String × LTP).1 == k then (((a1, a2) : String × LTP).1, v)
          else (a1, a2)) = (a1, a2) := by simp [hne']
      rw [List.map_cons, e]
      simp only [List.lookup, hne]
      exact ih h

theorem lookup_append_new (k : String) (v : LTP) (l : List (String × LTP))
    (h : l.any (fun kv => kv.1 == k) = false) :
    (l ++ [(k, v)]).lookup k = some v := by
  induction l with
  | nil => simp [List.lookup]
  | cons a l ih =>
    obtain ⟨a1, a2⟩ := a
    simp only [List.any_cons, Bool.or_eq_false_iff] at h
    have hne : (k == a1) = false := by
      rw [beq_eq_false_iff_ne]
      intro e
      have := h.1
      rw [beq_eq_false_iff_ne] at this
      exact this e.symm
    simp only [List.cons_append, List.lookup, hne]
    exact ih h.2

/-- After an upsert, `get` of the record's token returns the record. -/
theorem LTPStore.get_upsert (s : LTPStore) (v : LTP) : (s.upsert v).get v.token = some v := by
  unfold LTPStore.upsert LTPStore.get
  by_cases h : s.map_.any (fun kv => kv.1 == v.token) = true
  · rw [if_pos h]
    exact lookup_map_replace v.token v s.map_ h
  · rw [if_neg h]
    exact lookup_append_new v.token v s.map_ (by rw [← Bool.not_eq_true]; exact h)

/-- C9. LtpStore last-write-wins: for every store state, token t and records
(t, p1, ts1), (t, p2, ts2), after upsert of the first and then the second,
get(t) returns the whole second record, whatever was stored for t before. -/
theorem ltp_store_last_write_wins (s : LTPStore) (t : String) (p1 p2 : Double)
    (ts1 ts2 : TimePoint) :
    ((s.upsert { token := t, ltp := p1, ts := ts1 }).upsert
        { token := t, ltp := p2, ts := ts2 }).get t =
      some { token := t, ltp := p2, ts := ts2 } :=
  LTPStore.get_upsert (s.upsert { token := t, ltp := p1, ts := ts1 })
    { token := t, ltp := p2, ts := ts2 }

/-! ### Reconciler batching -/

/-- C11. Reconciler idempotence: for every reconciler state, calling
build_subscribe_batches() twice with no call in between returns the same
payloads, hence payloads whose token union is identical, namely fmt of the
tokens of desired \ active; the same holds for build_unsubscribe_batches()
with active \ desired. -/
theorem reconciler_idempotence (s : SubscriptionManager) :
    ((ReconcilerOp.exec (ReconcilerOp.exec s .build_subscribe_batches).1
          .build_subscribe_batches).2.payloadList =
        (ReconcilerOp.exec s .build_subscribe_batches).2.payloadList ∧
      ((ReconcilerOp.exec (ReconcilerOp.exec s .build_subscribe_batches).1
          .build_subscribe_batches).2.payloadList).flatMap payloadTokens =
        ((ReconcilerOp.exec s .build_subscribe_batches).2.payloadList).flatMap payloadTokens ∧
      ((ReconcilerOp.exec s .build_subscribe_batches).2.payloadList).flatMap payloadTokens =
        s.diff_desired_minus_active.map s.fmt_token) ∧
    ((ReconcilerOp.exec (ReconcilerOp.exec s .build_unsubscribe_batches).1
          .build_unsubscribe_batches).2.payloadList =
        (ReconcilerOp.exec s .build_unsubscribe_batches).2.payloadList ∧
      ((ReconcilerOp.exec (ReconcilerOp.exec s .build_unsubscribe_batches).1
          .build_unsubscribe_batches).2.payloadList).flatMap payloadTokens =
        ((ReconcilerOp.exec s .build_unsubscribe_batches).2.payloadList).flatMap payloadTokens ∧
      ((ReconcilerOp.exec s .build_unsubscribe_batches).2.payloadList).flatMap payloadTokens =
        s.diff_active_minus_desired.map s.fmt_token) :=
  ⟨⟨rfl, rfl, tokens_of_batches s s.diff_desired_minus_active true⟩,
    ⟨rfl, rfl, tokens_of_batches s s.diff_active_minus_desired false⟩⟩

/-- C12. Reconciler frame rule: for every reconciler state, each of add,
add_many, remove, clear, set_mode, set_batch_size, set_token_formatter,
build_subscribe_batches, build_unsubscribe_batches, desired_snapshot and
active_snapshot leaves the active set unchanged; the builders and the
snapshots also leave the desired set unchanged; mark_subscribed and
mark_unsubscribed leave the desired set unchanged. -/
theorem reconciler_frame_rule (s : SubscriptionManager) (t : String) (ts : List String)
    (m : Mode) (n : Nat) (f : Option (String → String)) :
    ((ReconcilerOp.exec s (.add t)).1.active_ = s.active_ ∧
      (ReconcilerOp.exec s (.add_many ts)).1.active_ = s.active_ ∧
      (ReconcilerOp.exec s (.remove t)).1.active_ = s.active_ ∧
      (ReconcilerOp.exec s .clear).1.active_ = s.active_ ∧
      (ReconcilerOp.exec s (.set_mode m)).1.active_ = s.active_ ∧
      (ReconcilerOp.exec s (.set_batch_size n)).1.active_ = s.active_ ∧
      (ReconcilerOp.exec s (.set_token_formatter f)).1.active_ = s.active_ ∧
      (ReconcilerOp.exec s .build_subscribe_batches).1.active_ = s.active_ ∧
      (ReconcilerOp.exec s .build_unsubscribe_batches).1.active_ = s.active_ ∧
      (ReconcilerOp.exec s .desired_snapshot).1.active_ = s.active_ ∧
      (ReconcilerOp.exec s .active_snapshot).1.active_ = s.active_) ∧
    ((ReconcilerOp.exec s .build_subscribe_batches).1.desired_ = s.desired_ ∧
      (ReconcilerOp.exec s .build_unsubscribe_batches).1.desired_ = s.desired_ ∧
      (ReconcilerOp.exec s .desired_snapshot).1.desired_ = s.desired_ ∧
      (ReconcilerOp.exec s .active_snapshot).1.desired_ = s.desired_) ∧
    ((ReconcilerOp.exec s (.mark_subscribed ts)).1.desired_ = s.desired_ ∧
      (ReconcilerOp.exec s (.mark_unsubscribed ts)).1.desired_ = s.desired_) :=
  ⟨⟨rfl, rfl, rfl, rfl, rfl, rfl, rfl, rfl, rfl, rfl, rfl⟩, ⟨rfl, rfl, rfl, rfl⟩, ⟨rfl, rfl⟩⟩

/-! ### Capacity rounding, exactly -/

/-- For a request `n ≤ 2^63`, `next_pow2` is the least power of two that is
at least `max n 8`. -/
theorem next_pow2_least (n : Nat) (hn : n ≤ 2 ^ 63) :
    ∃ k, k ≤ 63 ∧ next_pow2 n = 2 ^ k ∧ max n 8 ≤ 2 ^ k ∧
      ∀ j, max n 8 ≤ 2 ^ j → 2 ^ k ≤ 2 ^ j := by
  unfold next_pow2
  by_cases h8 : n < 8
  · rw [if_pos h8]
    refine ⟨3, by omega, rfl, by simp; omega, ?_⟩
    intro j hj
    exact le_trans (le_max_right n 8) hj
  · rw [if_neg h8]
    by_cases hp : is_power_of_two n = true
    · rw [if_pos hp]
      obtain ⟨k, rfl⟩ := is_power_of_two_sound n hp
      have hk : k ≤ 63 := by
        by_contra hc
        have : 2 ^ 64 ≤ 2 ^ k := Nat.pow_le_pow_right (by omega) (by omega)
        omega
      refine ⟨k, hk, rfl, by simp; omega, ?_⟩
      intro j hj
      exact le_trans (le_max_left _ 8) hj
    · rw [if_neg hp]
      simp only []
      have hm0 : n - 1 ≠ 0 := by omega
      have hlo : 2 ^ (n - 1).log2 ≤ n - 1 := Nat.log2_self_le hm0
      have hhi : n - 1 < 2 ^ ((n - 1).log2 + 1) := Nat.lt_log2_self
      have hk63 : (n - 1).log2 < 63 := by
        rw [Nat.log2_lt hm0]
        omega
      rw [smearLoop_eq (n - 1) ((n - 1).log2 + 1) (by omega) (by omega) (by simpa using hlo) hhi]
      have hpos : 0 < 2 ^ ((n - 1).log2 + 1) := Nat.two_pow_pos _
      have e : 2 ^ ((n - 1).log2 + 1) - 1 + 1 = 2 ^ ((n - 1).log2 + 1) := by omega
      have hle : 2 ^ ((n - 1).log2 + 1) ≤ 2 ^ 63 := Nat.pow_le_pow_right (by omega) (by omega)
      have hmod : 2 ^ ((n - 1).log2 + 1) % SIZE_MOD = 2 ^ ((n - 1).log2 + 1) := by
        apply Nat.mod_eq_of_lt
        simp only [SIZE_MOD]
        omega
      rw [e, hmod]
      refine ⟨(n - 1).log2 + 1, by omega, rfl, by simp; omega, ?_⟩
      intro j hj
      have hnj : n ≤ 2 ^ j := le_trans (le_max_left n 8) hj
      apply Nat.pow_le_pow_right (by omega)
      by_contra hc
      have : 2 ^ j ≤ 2 ^ (n - 1).log2 := Nat.pow_le_pow_right (by omega) (by omega)
      omega

theorem is_power_of_two_pow (k : Nat) : is_power_of_two (2 ^ k) = true := by
  have hpos : 0 < 2 ^ k := Nat.two_pow_pos k
  have hand : 2 ^ k &&& (2 ^ k - 1) = 0 := by
    rw [Nat.and_pow_two_sub_one_eq_mod, Nat.mod_self]
  simp only [is_power_of_two, hand, bne_iff_ne, ne_eq, beq_self_eq_true, Bool.and_true,
    decide_eq_true_eq]
  omega

theorem IngestQueue.new_buf_length (n : Nat) : (IngestQueue.new n).buf_.length = next_pow2 n := by
  simp [IngestQueue.new]

/-- C13 (as amended). RingQueue capacity rounding: for every requested
capacity n of the machine size type, the constructor hands out a queue
exactly when n <= 2^63, the rounded size next_pow2(n) does not exceed the
vector's max_size() and the buffer can be allocated; every queue it hands out
reports capacity() equal to the least power of two that is >= max(n, 8),
hence a power of two, >= 8 and >= n, and has that many slots. For n > 2^63
the rounding wraps to 0 and the constructor's assertion fails; for a rounded
size above max_size() the vector throws length_error. -/
theorem capacity_rounding (env : VecEnv) (n : Nat) (hn : n < SIZE_MOD) :
    (∀ q, IngestQueue.construct env n = .ok q →
      ∃ k, q.capacity = 2 ^ k ∧ max n 8 ≤ q.capacity ∧
        (∀ j, max n 8 ≤ 2 ^ j → q.capacity ≤ 2 ^ j) ∧
        8 ≤ q.capacity ∧ n ≤ q.capacity ∧ q.buf_.length = q.capacity) ∧
    ((∃ q, IngestQueue.construct env n = .ok q) ↔
      (n ≤ 2 ^ 63 ∧ next_pow2 n ≤ env.max_size ∧ env.alloc (next_pow2 n) = true)) ∧
    (2 ^ 63 < n → IngestQueue.construct env n = .error CtorFailure.assert_failed) ∧
    (env.max_size < next_pow2 n →
      IngestQueue.construct env n = .error CtorFailure.length_error) := by
  have hcap := (IngestQueue.inv_new n hn).2.2
  have hlen := IngestQueue.new_buf_length n
  have hbig : 2 ^ 63 < n → IngestQueue.construct env n = .error CtorFailure.assert_failed := by
    intro h
    rcases next_pow2_cases n hn with ⟨k, _, _, _, hle⟩ | ⟨_, he⟩
    · exfalso
      have : 2 ^ k ≤ 2 ^ 63 := Nat.pow_le_pow_right (by decide) (by assumption)
      omega
    · simp [IngestQueue.construct, hlen, he, is_power_of_two]
  have hsmall : n ≤ 2 ^ 63 → ∃ k, k ≤ 63 ∧ next_pow2 n = 2 ^ k ∧ max n 8 ≤ 2 ^ k ∧
      ∀ j, max n 8 ≤ 2 ^ j → 2 ^ k ≤ 2 ^ j := next_pow2_least n
  have hok : n ≤ 2 ^ 63 → next_pow2 n ≤ env.max_size → env.alloc (next_pow2 n) = true →
      IngestQueue.construct env n = .ok (IngestQueue.new n) := by
    intro h1 h2 h3
    obtain ⟨k, _, hk, _, _⟩ := hsmall h1
    have hp : is_power_of_two (next_pow2 n) = true := by rw [hk]; exact is_power_of_two_pow k
    simp [IngestQueue.construct, hlen, Nat.not_lt.2 h2, h3, hp]
  have hinv : ∀ q, IngestQueue.construct env n = .ok q →
      q = IngestQueue.new n ∧ n ≤ 2 ^ 63 ∧ next_pow2 n ≤ env.max_size ∧
        env.alloc (next_pow2 n) = true := by
    intro q hq
    by_cases hle : n ≤ 2 ^ 63
    · obtain ⟨k, _, hk, _, _⟩ := hsmall hle
      have hne : next_pow2 n ≠ 0 := by rw [hk]; exact Nat.pos_iff_ne_zero.1 (Nat.two_pow_pos k)
      by_cases h2 : env.max_size < next_pow2 n
      · simp [IngestQueue.construct, h2] at hq
      · by_cases h3 : env.alloc (next_pow2 n) = true
        · rw [hok hle (Nat.not_lt.1 h2) h3] at hq
          exact ⟨(Except.ok.inj hq).symm, hle, Nat.not_lt.1 h2, h3⟩
        · simp [IngestQueue.construct, h2, hne, h3] at hq
    · rw [hbig (by omega)] at hq
      cases hq
  refine ⟨?_, ⟨?_, ?_⟩, hbig, ?_⟩
  · intro q hq
    obtain ⟨rfl, hle, _, _⟩ := hinv q hq
    obtain ⟨k, _, hk, hmax, hleast⟩ := hsmall hle
    rw [hlen, hcap, hk]
    exact ⟨k, rfl, hmax, hleast, le_trans (le_max_right n 8) hmax,
      le_trans (le_max_left n 8) hmax, rfl⟩
  · rintro ⟨q, hq⟩
    exact (hinv q hq).2
  · rintro ⟨h1, h2, h3⟩
    exact ⟨_, hok h1 h2 h3⟩
  · intro h
    simp [IngestQueue.construct, h]

theorem capacity_rounding_witness :
    1000 < SIZE_MOD ∧
    IngestQueue.construct roomyEnv 1000 = .ok (IngestQueue.new 1000) ∧
    (IngestQueue.new 1000).capacity = 1024 ∧
    ∀ q, IngestQueue.construct roomyEnv 1000 = .ok q →
      ∃ k, q.capacity = 2 ^ k ∧ max 1000 8 ≤ q.capacity ∧
        (∀ j, max 1000 8 ≤ 2 ^ j → q.capacity ≤ 2 ^ j) ∧
        8 ≤ q.capacity ∧ 1000 ≤ q.capacity ∧ q.buf_.length = q.capacity :=
  ⟨by decide, by simp [IngestQueue.construct, IngestQueue.new_buf_length, roomyEnv,
      show next_pow2 1000 = 1024 by decide, show is_power_of_two 1024 = true by decide],
    by decide, (capacity_rounding roomyEnv 1000 (by decide)).1⟩

/-- C13 (as stated) fails: not every value of the machine size type gives a
queue. For the request n = 2^63 + 1 the rounding wraps to 0, the buffer is
empty and the constructor's assertion fails, on every machine; for n = 2^57
+ 1 the rounded size 2^58 exceeds the vector's max_size() and the
constructor throws length_error; and a buffer of 2^21 strings is refused on a
machine that cannot allocate it. -/
theorem capacity_rounding_counterexample :
    9223372036854775809 < SIZE_MOD ∧
    next_pow2 9223372036854775809 = 0 ∧
    IngestQueue.construct roomyEnv 9223372036854775809 =
      .error CtorFailure.assert_failed ∧
    next_pow2 144115188075855873 = 2 ^ 58 ∧
    IngestQueue.construct roomyEnv 144115188075855873 = .error CtorFailure.length_error ∧
    IngestQueue.construct smallEnv 2097152 = .error CtorFailure.bad_alloc := by
  have h : next_pow2 9223372036854775809 = 0 := by decide
  have h2 : next_pow2 144115188075855873 = 2 ^ 58 := by decide
  have h3 : next_pow2 2097152 = 2097152 := by decide
  refine ⟨by decide, h, ?_, h2, ?_, ?_⟩
  · simp [IngestQueue.construct, IngestQueue.new_buf_length, h, is_power_of_two, roomyEnv]
  · simp [IngestQueue.construct, h2, roomyEnv]
  · simp [IngestQueue.construct, h3, smallEnv]

/-! ### Parser: what an accepted frame yields -/

/-- An accepted frame, taken apart: the token and the price were found in the
unwrapped document, and the record is built from them and from the optional
timestamp. -/
theorem parse_ltp_some (L : Lib) (p : Parser) (text : String) (j0 : Json) (r : LTP)
    (hparse : L.parse text = some j0) (hr : p.parse_ltp L text = some r) :
    ∃ tok price, get_string_any L (unwrap j0) TOKEN_KEYS = some tok ∧
      get_number_any L (unwrap j0) PRICE_KEYS = some price ∧
      r.token = strip p.strip_prefix_ tok ∧ r.ltp = price ∧
      r.ts = (match get_time_any L (unwrap j0) TS_KEYS with
        | some ts_raw => to_timepoint ts_raw
        | none => ⟨0⟩) := by
  unfold Parser.parse_ltp at hr
  rw [hparse] at hr
  simp only [] at hr
  cases ht : get_string_any L (unwrap j0) TOKEN_KEYS with
  | none => rw [ht] at hr; simp at hr
  | some tok =>
    cases hn : get_number_any L (unwrap j0) PRICE_KEYS with
    | none => rw [ht, hn] at hr; simp at hr
    | some price =>
      rw [ht, hn] at hr
      simp only [Option.some.injEq] at hr
      subst hr
      exact ⟨tok, price, rfl, rfl, rfl, rfl, rfl⟩

theorem get_time_any_absent (L : Lib) (j : Json) (keys : List String)
    (h : firstPresent j keys = none) : get_time_any L j keys = none := by
  induction keys with
  | nil => rfl
  | cons k ks ih =>
    rw [firstPresent] at h
    rw [get_time_any]
    by_cases hc : j.contains k = true
    · rw [if_pos hc] at h
      rw [Json.contains_eq, h] at hc
      simp at hc
    · rw [if_neg hc] at h
      rw [if_neg hc]
      exact ih h

theorem get_time_any_first (L : Lib) (j : Json) (keys : List String) (fld : Json) (v : Int)
    (h : firstPresent j keys = some fld) (hv : timeRaw L fld = some v) :
    get_time_any L j keys = some v := by
  induction keys with
  | nil => simp [firstPresent] at h
  | cons k ks ih =>
    rw [firstPresent] at h
    rw [get_time_any]
    by_cases hc : j.contains k = true
    · rw [if_pos hc] at h
      rw [if_pos hc, h]
      cases fld with
      | int n =>
        simp only [timeRaw, Option.some.injEq] at hv
        simp [hv]
      | float x =>
        simp only [timeRaw, Option.some.injEq] at hv
        simp [hv]
      | str s =>
        simp only [timeRaw] at hv
        simp [hv]
      | null => simp [timeRaw] at hv
      | bool b => simp [timeRaw] at hv
      | arr xs => simp [timeRaw] at hv
      | obj kvs => simp [timeRaw] at hv
    · rw [if_neg hc] at h
      rw [if_neg hc]
      exact ih h

theorem timeRaw_of_timeValue (L : Lib) (fld : Json) (v : Int) (hv : timeValue L fld = some v)
    (hb : |v| ≤ 9223372036854) : timeRaw L fld = some v := by
  cases fld with
  | int n =>
    simp only [timeValue, Option.some.injEq] at hv
    subst hv
    obtain ⟨hl, hu⟩ := abs_le.1 hb
    simp only [timeRaw]
    rw [wrapI64_id _ (by omega) (by omega)]
  | float x => exact hv
  | str s => exact hv
  | null => simp [timeValue] at hv
  | bool b => simp [timeValue] at hv
  | arr xs => simp [timeValue] at hv
  | obj kvs => simp [timeValue] at hv

theorem to_timepoint_ms (v : Int) (hlo : 1000000000000 ≤ |v|) (hhi : |v| ≤ 9223372036854) :
    to_timepoint v = ⟨v * 1000000⟩ := by
  obtain ⟨hl, hu⟩ := abs_le.1 hhi
  have habs : llabs v = |v| := by
    unfold llabs
    exact wrapI64_id _ (by omega) (by omega)
  unfold to_timepoint
  rw [habs, if_pos (by omega), wrapI64_id _ (by omega) (by omega)]

theorem to_timepoint_sec (v : Int) (hhi : |v| ≤ 9223372036) :
    to_timepoint v = ⟨v * 1000000000⟩ := by
  obtain ⟨hl, hu⟩ := abs_le.1 hhi
  have h0 := abs_nonneg v
  have habs : llabs v = |v| := by
    unfold llabs
    exact wrapI64_id _ (by omega) (by omega)
  unfold to_timepoint
  rw [habs, if_neg (by omega), wrapI64_id _ (by omega) (by omega)]

/-- C14 (as amended). Parser timestamp rule: for every accepted frame, if no
timestamp key is present the result's ts is the zero instant (epoch);
otherwise, when the first present timestamp key holds an integer, a float or
a string that std::stoll converts, with v its integer value, ts is the epoch
plus v milliseconds when 10^12 <= |v| <= 9223372036854 and the epoch plus v
seconds when |v| < 10^12 and |v| <= 9223372036 (the values whose nanosecond
count fits the clock's signed 64 bits). -/
theorem parser_timestamp_rule (L : Lib) (p : Parser) (text : String) (j0 : Json) (r : LTP)
    (hparse : L.parse text = some j0) (hr : p.parse_ltp L text = some r) :
    (firstPresent (unwrap j0) TS_KEYS = none → r.ts = ⟨0⟩) ∧
    (∀ fld v, firstPresent (unwrap j0) TS_KEYS = some fld → timeValue L fld = some v →
      (1000000000000 ≤ |v| → |v| ≤ 9223372036854 → r.ts.ns = v * 1000000) ∧
      (|v| < 1000000000000 → |v| ≤ 9223372036 → r.ts.ns = v * 1000000000)) := by
  obtain ⟨tok, price, _, _, _, _, hts⟩ := parse_ltp_some L p text j0 r hparse hr
  constructor
  · intro h
    rw [hts, get_time_any_absent L _ _ h]
  · intro fld v hf hv
    have hraw : ∀ (_ : |v| ≤ 9223372036854), get_time_any L (unwrap j0) TS_KEYS = some v :=
      fun hb => get_time_any_first L _ _ fld v hf (timeRaw_of_timeValue L fld v hv hb)
    constructor
    · intro hlo hhi
      rw [hts, hraw hhi]
      simp only []
      rw [to_timepoint_ms v hlo hhi]
    · intro _ hhi
      rw [hts, hraw (by omega)]
      simp only []
      rw [to_timepoint_sec v hhi]

theorem parser_timestamp_rule_witness :
    (oneFrameLib (secText 1728123456) (secDoc 1728123456)).parse (secText 1728123456) =
      some (secDoc 1728123456) ∧
    (Parser.mk "nse_cm|").parse_ltp (oneFrameLib (secText 1728123456) (secDoc 1728123456))
        (secText 1728123456) =
      some { token := "26001", ltp := px_101_5, ts := ⟨1728123456000000000⟩ } ∧
    firstPresent (unwrap (secDoc 1728123456)) TS_KEYS = some (Json.int 1728123456) ∧
    timeValue (oneFrameLib (secText 1728123456) (secDoc 1728123456)) (Json.int 1728123456) =
      some 1728123456 ∧
    |(1728123456 : Int)| < 1000000000000 ∧ |(1728123456 : Int)| ≤ 9223372036 ∧
    (1728123456000000000 : Int) = 1728123456 * 1000000000 :=
  ⟨by simp [oneFrameLib], by decide, by rfl, by rfl, by decide, by decide,
    ((parser_timestamp_rule (oneFrameLib (secText 1728123456) (secDoc 1728123456))
      (Parser.mk "nse_cm|") (secText 1728123456) (secDoc 1728123456)
      { token := "26001", ltp := px_101_5, ts := ⟨1728123456000000000⟩ }
      (by simp [oneFrameLib]) (by decide)).2 (Json.int 1728123456) 1728123456
        (by rfl) (by rfl)).2 (by decide) (by decide)⟩

/-- C14 (as stated) fails for a 64-bit v whose nanosecond count does not fit
the clock: `"timestamp":10000000000` (10^10 s, |v| < 10^12) gives a ts of
-8446744073709551616 ns, not the epoch plus 10^10 seconds. -/
theorem parser_timestamp_rule_counterexample :
    (Parser.mk "nse_cm|").parse_ltp (oneFrameLib (secText 10000000000) (secDoc 10000000000))
        (secText 10000000000) =
      some { token := "26001", ltp := px_101_5, ts := ⟨-8446744073709551616⟩ } ∧
    firstPresent (unwrap (secDoc 10000000000)) TS_KEYS = some (Json.int 10000000000) ∧
    |(10000000000 : Int)| < 1000000000000 ∧
    (-8446744073709551616 : Int) ≠ 10000000000 * 1000000000 := by
  refine ⟨by decide, by rfl, by decide, by decide⟩

/-! ### Parser: which key gives the token and the price -/

theorem get_string_any_skip (L : Lib) (j : Json) (pre rest : List String)
    (hpre : ∀ k' ∈ pre, ∀ v', j.at? k' = some v' → tokenTypable v' = false) :
    get_string_any L j (pre ++ rest) = get_string_any L j rest := by
  induction pre with
  | nil => rfl
  | cons k ks ih =>
    have ih' := ih (fun k' hk' => hpre k' (List.mem_cons_of_mem _ hk'))
    rw [List.cons_append, get_string_any, Json.contains_eq]
    cases hv : j.at? k with
    | none => simpa using ih'
    | some v =>
      have ht := hpre k (List.mem_cons_self _ _) v hv
      cases v <;> simp_all [tokenTypable]

/-- C15 (as amended). Parser token selection: for every JSON document, the
token is taken from the first key of ["token","symbol","tradingsymbol",
"instrument_token","tokenID"] that is bound to a string or a number; a key
that is absent, or present with a value of another type, is passed over and
the next keys are consulted. A string value is taken verbatim and an integer
is rendered as its decimal text (a float as the JSON library dumps it); keys
after the one taken are not consulted. -/
theorem token_selection (L : Lib) (j : Json) (pre post : List String) (k : String) (v : Json)
    (hsplit : TOKEN_KEYS = pre ++ k :: post)
    (hpre : ∀ k' ∈ pre, ∀ v', j.at? k' = some v' → tokenTypable v' = false)
    (hk : j.at? k = some v) (hv : tokenTypable v = true) :
    get_string_any L j TOKEN_KEYS = renderToken L v ∧
    (renderToken L v).isSome = true ∧
    (∀ s, v = Json.str s → get_string_any L j TOKEN_KEYS = some s) ∧
    (∀ n, v = Json.int n → get_string_any L j TOKEN_KEYS = some (toString n)) := by
  have h : get_string_any L j TOKEN_KEYS = renderToken L v := by
    rw [hsplit, get_string_any_skip L j pre _ hpre, get_string_any, Json.contains_eq, hk]
    cases v <;> simp_all [tokenTypable, renderToken]
  refine ⟨h, ?_, ?_, ?_⟩
  · cases v <;> simp_all [tokenTypable, renderToken]
  · intro s hs; rw [h, hs]; rfl
  · intro n hn; rw [h, hn]; rfl

theorem token_selection_witness :
    TOKEN_KEYS = [] ++ "token" :: ["symbol", "tradingsymbol", "instrument_token", "tokenID"] ∧
    numTokenDoc.at? "token" = some (Json.int 26000) ∧
    tokenTypable (Json.int 26000) = true ∧
    get_string_any (oneFrameLib "" numTokenDoc) numTokenDoc TOKEN_KEYS = some "26000" :=
  ⟨rfl, rfl, rfl,
    (token_selection (oneFrameLib "" numTokenDoc) numTokenDoc []
      ["symbol", "tradingsymbol", "instrument_token", "tokenID"] "token" (Json.int 26000)
      rfl (by simp) rfl rfl).2.2.2 26000 rfl⟩

/-- C15 (as stated) fails: in `{"symbol":"26001","token":true}` the key
`token` is present, and the token is taken all the same from the later key
`symbol`. -/
theorem token_selection_counterexample :
    boolTokenDoc.contains "token" = true ∧
    absentOrUntypable tokenTypable boolTokenDoc TOKEN_KEYS = true ∧
    get_string_any (oneFrameLib boolTokenText boolTokenDoc) boolTokenDoc TOKEN_KEYS =
      some "26001" := by
  refine ⟨by decide, by decide, by decide⟩

theorem priceTypable_eq (L : Lib) (v : Json) : priceTypable L v = (priceValue L v).isSome := by
  cases v <;> rfl

theorem get_number_any_skip (L : Lib) (j : Json) (pre rest : List String)
    (hpre : ∀ k' ∈ pre, ∀ v', j.at? k' = some v' → priceValue L v' = none) :
    get_number_any L j (pre ++ rest) = get_number_any L j rest := by
  induction pre with
  | nil => rfl
  | cons k ks ih =>
    have ih' := ih (fun k' hk' => hpre k' (List.mem_cons_of_mem _ hk'))
    rw [List.cons_append, get_number_any, Json.contains_eq]
    cases hv : j.at? k with
    | none => simpa using ih'
    | some v =>
      have ht := hpre k (List.mem_cons_self _ _) v hv
      cases v <;> simp_all [priceValue]

/-- C16 (as amended). Parser price typing: for every JSON document, the price
is taken from the first key of ["ltp","last_price","lastPrice","price",
"trade_price"] that is bound to a float, an integer or a string std::stod
converts; a key that is absent, or bound to another type or to a string that
std::stod does not convert, is passed over and the next keys are consulted.
A float is accepted as is, an integer is read as long long and converted to
double, and a numeric-looking string yields the number std::stod reads. -/
theorem price_typing (L : Lib) (j : Json) (pre post : List String) (k : String) (v : Json)
    (x : Double) (hsplit : PRICE_KEYS = pre ++ k :: post)
    (hpre : ∀ k' ∈ pre, ∀ v', j.at? k' = some v' → priceValue L v' = none)
    (hk : j.at? k = some v) (hv : priceValue L v = some x) :
    get_number_any L j PRICE_KEYS = some x ∧
    (∀ y, v = Json.float y → x = y) ∧
    (∀ n, v = Json.int n → -(2 ^ 63) ≤ n → n < 2 ^ 63 → x = L.to_double n) ∧
    (∀ s, v = Json.str s → L.stod s = some x) := by
  refine ⟨?_, ?_, ?_, ?_⟩
  · rw [hsplit, get_number_any_skip L j pre _ hpre, get_number_any, Json.contains_eq, hk]
    cases v <;> simp_all [priceValue]
  · intro y hy
    subst hy
    simpa [priceValue] using hv.symm
  · intro n hn h1 h2
    subst hn
    simp only [priceValue, Option.some.injEq] at hv
    rw [← hv, wrapI64_id n h1 h2]
  · intro s hs
    subst hs
    exact hv

theorem price_typing_witness :
    PRICE_KEYS = ["ltp"] ++ "last_price" :: ["lastPrice", "price", "trade_price"] ∧
    (∀ k' ∈ ["ltp"], ∀ v', strPriceDoc.at? k' = some v' →
      priceValue (stodLib strPriceText strPriceDoc "101.5" px_101_5) v' = none) ∧
    strPriceDoc.at? "last_price" = some (Json.str "101.5") ∧
    priceValue (stodLib strPriceText strPriceDoc "101.5" px_101_5) (Json.str "101.5") =
      some px_101_5 ∧
    get_number_any (stodLib strPriceText strPriceDoc "101.5" px_101_5) strPriceDoc PRICE_KEYS =
      some px_101_5 :=
  ⟨rfl, by simp [strPriceDoc, Json.at?, List.lookup], rfl, by decide,
    (price_typing (stodLib strPriceText strPriceDoc "101.5" px_101_5) strPriceDoc ["ltp"]
      ["lastPrice", "price", "trade_price"] "last_price" (Json.str "101.5") px_101_5 rfl
      (by simp [strPriceDoc, Json.at?, List.lookup]) rfl (by decide)).1⟩

/-- C16 (as stated) fails: in `{"last_price":101.5,"ltp":"n/a","token":"26001"}`
the first present price key is `ltp`, bound to a string that is not
numeric-looking, and the price 101.5 is taken all the same from the later key
`last_price`. -/
theorem price_typing_counterexample :
    badPriceDoc.contains "ltp" = true ∧
    absentOrUntypable (priceTypable (oneFrameLib badPriceText badPriceDoc)) badPriceDoc
      PRICE_KEYS = true ∧
    get_number_any (oneFrameLib badPriceText badPriceDoc) badPriceDoc PRICE_KEYS =
      some px_101_5 ∧
    (Parser.mk "").parse_ltp (oneFrameLib badPriceText badPriceDoc) badPriceText =
      some { token := "26001", ltp := px_101_5, ts := ⟨0⟩ } := by
  refine ⟨by decide, by decide, by decide, by decide⟩

/-! ### Parser: normalisation of the token -/

theorem starts_with_iff (tok pre : String) :
    starts_with tok pre = true ↔ ∃ rest, tok = pre ++ rest := by
  unfold starts_with
  rw [List.isPrefixOf_iff_prefix]
  constructor
  · rintro ⟨t, ht⟩
    refine ⟨String.mk t, ?_⟩
    apply String.ext
    rw [String.data_append, ht]
  · rintro ⟨rest, rfl⟩
    rw [String.data_append]
    exact List.prefix_append _ _

theorem strip_unchanged (pre tok : String)
    (h : pre = "" ∨ ¬ ∃ rest, tok = pre ++ rest) : strip pre tok = tok := by
  unfold strip
  rcases h with h | h
  · subst h
    simp
  · have : starts_with tok pre = false := by
      rw [← Bool.not_eq_true, starts_with_iff]
      exact h
    simp [this]

/-- C17. Parser prefix normalisation: for every accepted frame with extracted
token tok and configured strip_prefix s, the result's token is tok with its
leading s removed once (the rest of tok after s) when s is non-empty and s is
a prefix of tok, and is exactly tok otherwise (when s is empty or tok does
not start with s). -/
theorem strip_normalisation (L : Lib) (p : Parser) (text : String) (j0 : Json) (r : LTP)
    (hparse : L.parse text = some j0) (hr : p.parse_ltp L text = some r) :
    ∃ tok, get_string_any L (unwrap j0) TOKEN_KEYS = some tok ∧
      (p.strip_prefix_ ≠ "" → ∀ rest, tok = p.strip_prefix_ ++ rest → r.token = rest) ∧
      ((p.strip_prefix_ = "" ∨ ¬ ∃ rest, tok = p.strip_prefix_ ++ rest) → r.token = tok) := by
  obtain ⟨tok, price, h1, _, h3, _, _⟩ := parse_ltp_some L p text j0 r hparse hr
  refine ⟨tok, h1, ?_, ?_⟩
  · intro hne rest he
    rw [h3, he]
    exact strip_append _ _ hne
  · intro h
    rw [h3]
    exact strip_unchanged _ _ h

theorem strip_normalisation_witness :
    (oneFrameLib (secText 1728123456) (secDoc 1728123456)).parse (secText 1728123456) =
      some (secDoc 1728123456) ∧
    (Parser.mk "nse_cm|").parse_ltp (oneFrameLib (secText 1728123456) (secDoc 1728123456))
        (secText 1728123456) =
      some { token := "26001", ltp := px_101_5, ts := ⟨1728123456000000000⟩ } ∧
    ∃ tok, get_string_any (oneFrameLib (secText 1728123456) (secDoc 1728123456))
        (unwrap (secDoc 1728123456)) TOKEN_KEYS = some tok ∧
      ((Parser.mk "nse_cm|").strip_prefix_ ≠ "" →
        ∀ rest, tok = (Parser.mk "nse_cm|").strip_prefix_ ++ rest → "26001" = rest) ∧
      (((Parser.mk "nse_cm|").strip_prefix_ = "" ∨
          ¬ ∃ rest, tok = (Parser.mk "nse_cm|").strip_prefix_ ++ rest) → "26001" = tok) :=
  ⟨by simp [oneFrameLib], by decide,
    strip_normalisation (oneFrameLib (secText 1728123456) (secDoc 1728123456))
      (Parser.mk "nse_cm|") (secText 1728123456) (secDoc 1728123456)
      { token := "26001", ltp := px_101_5, ts := ⟨1728123456000000000⟩ }
      (by simp [oneFrameLib]) (by decide)⟩

/-! ### Parser: unwrapping -/

theorem unwrap_eq (j0 : Json) : unwrap j0 = dataStep (rootStep j0) := rfl

/-- Two frames whose documents unwrap to the same document parse alike. -/
theorem parse_ltp_congr (L : Lib) (p : Parser) (t1 t2 : String) (a b : Json)
    (h1 : L.parse t1 = some a) (h2 : L.parse t2 = some b) (h : unwrap a = unwrap b) :
    p.parse_ltp L t1 = p.parse_ltp L t2 := by
  unfold Parser.parse_ltp
  rw [h1, h2]
  simp only [h]

theorem rootStep_of_not_wrapper (e : Json) (h : e.isWrapperArray = false) : rootStep e = e := by
  unfold rootStep
  unfold Json.isWrapperArray at h
  rw [h]
  rfl

theorem rootStep_cons (e : Json) (es : List Json) : rootStep (Json.arr (e :: es)) = e := rfl

theorem dataStep_of_no_wrapper (e : Json) (h : e.hasDataWrapper = false) : dataStep e = e := by
  unfold dataStep
  unfold Json.hasDataWrapper at h
  split
  · cases hd : e.at? "data" with
    | none => rfl
    | some d =>
      rw [hd] at h
      simp only [Bool.or_eq_false_iff] at h
      simp only [h.1, h.2, Bool.false_eq_true, if_false]
  · rfl

theorem dataStep_object (e d : Json) (h : e.at? "data" = some d) (hd : d.is_object = true) :
    dataStep e = d := by
  unfold dataStep
  rw [Json.contains_eq, h]
  simp [hd]

theorem dataStep_array (e x : Json) (xs : List Json)
    (h : e.at? "data" = some (Json.arr (x :: xs))) : dataStep e = x := by
  unfold dataStep
  rw [Json.contains_eq, h]
  simp [Json.is_object, Json.is_array, Json.empty, Json.front?]

theorem object_not_wrapper (d : Json) (h : d.is_object = true) : d.isWrapperArray = false := by
  cases d <;> simp_all [Json.is_object, Json.isWrapperArray, Json.is_array]

/-- C18 (as amended). Parser unwrapping, one level at the root and one level
of data: for every frame whose root is a non-empty JSON array whose first
element is not itself a non-empty array, parse_ltp gives the same result as
on the first element; for every element (the root, or the first element of a
root array) with a data field that is an object without a data field of its
own to descend into, the result is that of parsing the data object alone;
when data is a non-empty array whose first element is neither a non-empty
array nor has such a data field, the result is that of that first element;
when data is absent, an empty array or any other type, the element itself is
the document the fields are read from. -/
theorem parser_unwrapping (L : Lib) (p : Parser) :
    (∀ t te e es, L.parse t = some (Json.arr (e :: es)) → L.parse te = some e →
      e.isWrapperArray = false → p.parse_ltp L t = p.parse_ltp L te) ∧
    (∀ t td j0 d, L.parse t = some j0 → (rootStep j0).at? "data" = some d →
      d.is_object = true → L.parse td = some d → d.hasDataWrapper = false →
      p.parse_ltp L t = p.parse_ltp L td) ∧
    (∀ t tx j0 x xs, L.parse t = some j0 →
      (rootStep j0).at? "data" = some (Json.arr (x :: xs)) → L.parse tx = some x →
      x.isWrapperArray = false → x.hasDataWrapper = false →
      p.parse_ltp L t = p.parse_ltp L tx) ∧
    (∀ j0, (rootStep j0).at? "data" = none → unwrap j0 = rootStep j0) ∧
    (∀ j0 d, (rootStep j0).at? "data" = some d → d.is_object = false →
      (d.is_array && !d.empty) = false → unwrap j0 = rootStep j0) := by
  refine ⟨?_, ?_, ?_, ?_, ?_⟩
  · intro t te e es h1 h2 he
    apply parse_ltp_congr L p t te _ _ h1 h2
    rw [unwrap_eq, unwrap_eq, rootStep_cons, rootStep_of_not_wrapper e he]
  · intro t td j0 d h1 hdata hobj h2 hd
    apply parse_ltp_congr L p t td _ _ h1 h2
    rw [unwrap_eq, unwrap_eq, dataStep_object _ d hdata hobj,
      rootStep_of_not_wrapper d (object_not_wrapper d hobj), dataStep_of_no_wrapper d hd]
  · intro t tx j0 x xs h1 hdata h2 hx1 hx2
    apply parse_ltp_congr L p t tx _ _ h1 h2
    rw [unwrap_eq, unwrap_eq, dataStep_array _ x xs hdata, rootStep_of_not_wrapper x hx1,
      dataStep_of_no_wrapper x hx2]
  · intro j0 h
    rw [unwrap_eq]
    apply dataStep_of_no_wrapper
    simp [Json.hasDataWrapper, h]
  · intro j0 d h h1 h2
    rw [unwrap_eq]
    apply dataStep_of_no_wrapper
    simp [Json.hasDataWrapper, h, h1, h2]

/-- The amended rule at work on `[{"ltp":1.5,"token":"A"}]` and on
`{"data":{"ltp":1.5,"token":"B"},...}`: both frames are accepted, with the
result of the inner record. -/
theorem parser_unwrapping_witness :
    (Parser.mk "").parse_ltp
        (twoFrameLib arrTextA (Json.arr [plainDoc "A"]) plainTextA (plainDoc "A")) arrTextA =
      (Parser.mk "").parse_ltp
        (twoFrameLib arrTextA (Json.arr [plainDoc "A"]) plainTextA (plainDoc "A")) plainTextA ∧
    (Parser.mk "").parse_ltp
        (twoFrameLib arrTextA (Json.arr [plainDoc "A"]) plainTextA (plainDoc "A")) plainTextA =
      some { token := "A", ltp := ⟨0x3FF8000000000000⟩, ts := ⟨0⟩ } :=
  ⟨(parser_unwrapping (twoFrameLib arrTextA (Json.arr [plainDoc "A"]) plainTextA (plainDoc "A"))
      (Parser.mk "")).1 arrTextA plainTextA (plainDoc "A") []
      (by simp [twoFrameLib])
      (by have h : plainTextA ≠ arrTextA := by decide
          simp [twoFrameLib, h]) rfl,
    by decide⟩

/-- C18 (as stated) fails when wrappers are nested. The frame
`[[{"ltp":1.5,"token":"A"}]]` is rejected although its first element
`[{"ltp":1.5,"token":"A"}]`, parsed alone, is accepted; and the frame
`{"data":D}` with `D = {"data":{"ltp":1.5,"token":"B"},"ltp":1.5,"token":"A"}`
yields the token A although D, parsed alone, yields the token B. -/
theorem parser_unwrapping_counterexample :
    ((Parser.mk "").parse_ltp
        (twoFrameLib arrArrTextA (Json.arr [Json.arr [plainDoc "A"]])
          arrTextA (Json.arr [plainDoc "A"])) arrArrTextA = none ∧
     (Parser.mk "").parse_ltp
        (twoFrameLib arrArrTextA (Json.arr [Json.arr [plainDoc "A"]])
          arrTextA (Json.arr [plainDoc "A"])) arrTextA =
      some { token := "A", ltp := ⟨0x3FF8000000000000⟩, ts := ⟨0⟩ }) ∧
    ((Parser.mk "").parse_ltp
        (twoFrameLib wrappedNestedText (Json.obj [("data", nestedDoc)]) nestedText nestedDoc)
        wrappedNestedText =
      some { token := "A", ltp := ⟨0x3FF8000000000000⟩, ts := ⟨0⟩ } ∧
     (Parser.mk "").parse_ltp
        (twoFrameLib wrappedNestedText (Json.obj [("data", nestedDoc)]) nestedText nestedDoc)
        nestedText =
      some { token := "B", ltp := ⟨0x3FF8000000000000⟩, ts := ⟨0⟩ }) := by
  refine ⟨⟨by decide, by decide⟩, ⟨by decide, by decide⟩⟩

/-! ### Wire shape of the payloads -/

theorem build_payload_eq (s : SubscriptionManager) (batch : List String) (subscribe : Bool) :
    s.build_payload batch subscribe =
      specPayload (if subscribe then "subscribe" else "unsubscribe") s.mode_
        s.token_formatter_ batch := by
  have hm : s.mode_string = specModeStr s.mode_ := by
    unfold SubscriptionManager.mode_string specModeStr
    cases s.mode_ <;> rfl
  have hf : ∀ t, s.fmt_token t = specFmt s.token_formatter_ t := by
    intro t
    unfold SubscriptionManager.fmt_token specFmt
    cases s.token_formatter_ <;> rfl
  simp only [SubscriptionManager.build_payload, specPayload, hm, hf]

/-- C19. Subscribe/unsubscribe wire shape: every payload returned by
build_subscribe_batches (resp. build_unsubscribe_batches) is the JSON object
with exactly the keys action, mode and tokens, where action is "subscribe"
(resp. "unsubscribe"), mode is "ltp", "quote" or "full" for Mode LTP, QUOTE,
FULL, and tokens is the array of fmt(t) for the batch's raw tokens in batch
order, fmt being the configured formatter or the identity when none is
configured; there is one payload per batch, in batch order. -/
theorem wire_shape (s : SubscriptionManager) :
    s.build_subscribe_batches =
      (s.make_batches s.diff_desired_minus_active).map
        (specPayload "subscribe" s.mode_ s.token_formatter_) ∧
    s.build_unsubscribe_batches =
      (s.make_batches s.diff_active_minus_desired).map
        (specPayload "unsubscribe" s.mode_ s.token_formatter_) ∧
    (∀ p ∈ s.build_subscribe_batches ++ s.build_unsubscribe_batches,
      p.keys = ["action", "mode", "tokens"]) ∧
    (specModeStr Mode.LTP = "ltp" ∧ specModeStr Mode.QUOTE = "quote" ∧
      specModeStr Mode.FULL = "full") ∧
    (∀ g t, specFmt (some g) t = g t) ∧ (∀ t, specFmt none t = t) := by
  have h1 : s.build_subscribe_batches =
      (s.make_batches s.diff_desired_minus_active).map
        (specPayload "subscribe" s.mode_ s.token_formatter_) := by
    unfold SubscriptionManager.build_subscribe_batches
    apply List.map_congr_left
    intro b _
    exact build_payload_eq s b true
  have h2 : s.build_unsubscribe_batches =
      (s.make_batches s.diff_active_minus_desired).map
        (specPayload "unsubscribe" s.mode_ s.token_formatter_) := by
    unfold SubscriptionManager.build_unsubscribe_batches
    apply List.map_congr_left
    intro b _
    exact build_payload_eq s b false
  refine ⟨h1, h2, ?_, ⟨rfl, rfl, rfl⟩, fun _ _ => rfl, fun _ => rfl⟩
  intro p hp
  rw [h1, h2, List.mem_append] at hp
  rcases hp with hp | hp
  · obtain ⟨b, _, rfl⟩ := List.mem_map.1 hp
    rfl
  · obtain ⟨b, _, rfl⟩ := List.mem_map.1 hp
    rfl

/-! ### Handshake headers -/

/-- C20, the code at the failing input: with Options.headers = {X-Api-Key: k},
no common headers, the credential "Bearer abc" and one token, start() builds
one worker whose transport is handed the header map {Authorization: Bearer
abc} only; the custom handshake header of Options.headers is not in it. -/
theorem handshake_headers_drop_options :
    ((((Sharder.new optsWithHeader).set_access_token "Bearer abc").set_tokens
        ["26000"]).start).2.workers.map (fun w => w.ws_headers) =
      [[("Authorization", "Bearer abc")]] ∧
    (((Sharder.new optsWithHeader).set_access_token "Bearer abc").set_tokens
        ["26000"]).opts.headers = [("X-Api-Key", "k")] ∧
    List.lookup "X-Api-Key" [("Authorization", "Bearer abc")] = none := by
  refine ⟨by decide, rfl, by decide⟩

/-- The header map handed to the transports does not depend on
Options.headers: replacing that map changes nothing. -/
theorem effective_headers_ignore_options (s : Sharder) (H : List (String × String)) :
    ({ s with opts := { s.opts with headers := H } } : Sharder).effective_headers_locked =
      s.effective_headers_locked := rfl

/-! ### Credential rotation -/

/-- C21, the code at the failing input: a Sharder is started with the
credential "Bearer old" and one token, then set_access_token("Bearer new") is
called while it runs. The Sharder's own credential becomes "Bearer new", but
the header map of the existing worker transport, which is what each of its
connect attempts applies, still holds Authorization = "Bearer old". -/
theorem credential_rotation_not_applied :
    runningSharder.running = true ∧
    (runningSharder.set_access_token "Bearer new").auth_header_value = "Bearer new" ∧
    (runningSharder.set_access_token "Bearer new").effective_headers_locked =
      [("Authorization", "Bearer new")] ∧
    (runningSharder.set_access_token "Bearer new").workers.map (fun w => w.ws_headers) =
      [[("Authorization", "Bearer old")]] := by
  refine ⟨by decide, by decide, by decide, by decide⟩

/-- For every Sharder and credential, set_access_token leaves the workers,
hence the header maps their transports hold, as they were. -/
theorem set_access_token_workers (s : Sharder) (v : String) :
    (s.set_access_token v).workers = s.workers := rfl

/-! ### Tokens of accepted frames -/

theorem strip_eq_empty_iff (pre tok : String) :
    strip pre tok = "" ↔ tok = "" ∨ tok = pre := by
  constructor
  · intro h
    by_cases hp : pre ≠ "" ∧ ∃ rest, tok = pre ++ rest
    · obtain ⟨hne, rest, hr⟩ := hp
      rw [hr, strip_append _ _ hne] at h
      right
      rw [hr, h]
      simp
    · left
      rw [strip_unchanged pre tok (by
        by_cases he : pre = ""
        · exact Or.inl he
        · exact Or.inr (fun hx => hp ⟨he, hx⟩))] at h
      exact h
  · rintro (h | h)
    · subst h
      obtain ⟨d⟩ := pre
      cases d with
      | nil => rfl
      | cons c cs => rfl
    · subst h
      by_cases he : tok = ""
      · subst he; rfl
      · have := strip_append tok "" he
        simpa using this

/-- C28 (as amended). Token of an accepted frame: for every frame and every
configured strip_prefix, whenever parse_ltp returns a record, that record's
token is a non-empty string exactly when the extracted token is neither the
empty string nor equal to strip_prefix; a frame whose token field is the
empty string, or is exactly strip_prefix, is accepted with the empty token. -/
theorem token_non_empty_iff (L : Lib) (p : Parser) (text : String) (j0 : Json) (r : LTP)
    (hparse : L.parse text = some j0) (hr : p.parse_ltp L text = some r) :
    ∃ tok, get_string_any L (unwrap j0) TOKEN_KEYS = some tok ∧
      (r.token ≠ "" ↔ (tok ≠ "" ∧ tok ≠ p.strip_prefix_)) := by
  obtain ⟨tok, price, h1, _, h3, _, _⟩ := parse_ltp_some L p text j0 r hparse hr
  refine ⟨tok, h1, ?_⟩
  rw [h3, Ne, strip_eq_empty_iff]
  tauto

theorem token_non_empty_iff_witness :
    (oneFrameLib (secText 1728123456) (secDoc 1728123456)).parse (secText 1728123456) =
      some (secDoc 1728123456) ∧
    (Parser.mk "nse_cm|").parse_ltp (oneFrameLib (secText 1728123456) (secDoc 1728123456))
        (secText 1728123456) =
      some { token := "26001", ltp := px_101_5, ts := ⟨1728123456000000000⟩ } ∧
    ∃ tok, get_string_any (oneFrameLib (secText 1728123456) (secDoc 1728123456))
        (unwrap (secDoc 1728123456)) TOKEN_KEYS = some tok ∧
      (("26001" : String) ≠ "" ↔ (tok ≠ "" ∧ tok ≠ (Parser.mk "nse_cm|").strip_prefix_)) :=
  ⟨by simp [oneFrameLib], by decide,
    token_non_empty_iff (oneFrameLib (secText 1728123456) (secDoc 1728123456))
      (Parser.mk "nse_cm|") (secText 1728123456) (secDoc 1728123456)
      { token := "26001", ltp := px_101_5, ts := ⟨1728123456000000000⟩ }
      (by simp [oneFrameLib]) (by decide)⟩

/-- C28 (as stated) fails: the frame `{"ltp":1.5,"token":"nse_cm|"}`, parsed
with strip_prefix "nse_cm|", and the frame `{"ltp":1.5,"token":""}` are both
accepted, each with the empty token. -/
theorem token_non_empty_counterexample :
    (Parser.mk "nse_cm|").parse_ltp (oneFrameLib onlyPrefixText (plainDoc "nse_cm|"))
        onlyPrefixText =
      some { token := "", ltp := ⟨0x3FF8000000000000⟩, ts := ⟨0⟩ } ∧
    (Parser.mk "nse_cm|").parse_ltp (oneFrameLib emptyTokenText (plainDoc "")) emptyTokenText =
      some { token := "", ltp := ⟨0x3FF8000000000000⟩, ts := ⟨0⟩ } := by
  refine ⟨by decide, by decide⟩

/-! ### Ring queue: counters that wrap -/

theorem IngestQueue.capacity_dvd (q : IngestQueue) (h : q.Inv) (hc : 0 < q.capacity) :
    q.capacity ∣ SIZE_MOD ∧ ∃ k, k ≤ 63 ∧ q.capacity = 2 ^ k ∧ q.mask_ = 2 ^ k - 1 := by
  obtain ⟨_, _, _, hcase⟩ := h
  rcases hcase with ⟨k, hk, hl, hm⟩ | ⟨hl, hm⟩
  · have hC : 2 ^ k ≤ 2 ^ 63 := Nat.pow_le_pow_right (by omega) hk
    have hpos : 0 < 2 ^ k := Nat.two_pow_pos _
    have hcap : q.capacity = 2 ^ k := by
      simp only [IngestQueue.capacity, hm, SIZE_MOD]; omega
    refine ⟨?_, k, hk, hcap, hm⟩
    rw [hcap, SIZE_MOD]
    exact Nat.pow_dvd_pow 2 (by omega)
  · exfalso
    have : q.capacity = 0 := by simp [IngestQueue.capacity, hm, SIZE_MOD]
    omega

/-- The slot after `c & mask_` is `(c & mask_) + 1` modulo the capacity, also
when the counter `c + 1` wraps to 0. -/
theorem IngestQueue.next_slot (q : IngestQueue) (h : q.Inv) (hc : 0 < q.capacity) (c : Nat)
    (hlt : c < SIZE_MOD) :
    ((c + 1) % SIZE_MOD) &&& q.mask_ = ((c &&& q.mask_) + 1) % q.capacity := by
  obtain ⟨hd, k, hk, hcap, hm⟩ := IngestQueue.capacity_dvd q h hc
  have e1 := slot_eq (c + 1) k q.mask_ (by omega) hm
  have e2 := slot_eq c k q.mask_ (by omega) hm
  rw [Nat.mod_eq_of_lt hlt] at e2
  rw [e1, e2, hcap, Nat.mod_add_mod]

/-- C29. RingQueue counter wrap-around: in every state of the ring (whatever
the values of the free-running 64-bit counters head and tail, wrapped or
not), a successful try_push advances head by one modulo 2^64 and a successful
try_pop advances tail by one modulo 2^64, never modulo the capacity; size()
= (head - tail) mod 2^64 is the number of stored messages; try_push fails
exactly when size() = capacity() and try_pop exactly when size() = 0; the
slot index of a counter continues the cyclic slot sequence across the wrap,
capacity() being a power of two that divides 2^64; and every further sequence
of pushes and pops hands the messages out in the order they were accepted. -/
theorem ring_wrap_around (q : IngestQueue) (hinv : q.Inv) (msg out : String)
    (calls : List QueueCall) (hcalls : ∀ c ∈ calls, c.isPushPop = true) :
    ((q.try_push msg).1 = true →
      (q.try_push msg).2.head_ = (q.head_ + 1) % SIZE_MOD ∧
        (q.try_push msg).2.tail_ = q.tail_ ∧
        (q.try_push msg).2.stored = q.stored ++ [msg]) ∧
    ((q.try_pop out).1 = true →
      (q.try_pop out).2.2.tail_ = (q.tail_ + 1) % SIZE_MOD ∧
        (q.try_pop out).2.2.head_ = q.head_ ∧
        q.stored = (q.try_pop out).2.1 :: (q.try_pop out).2.2.stored) ∧
    q.stored.length = q.size ∧
    ((q.try_push msg).1 = false ↔ q.size = q.capacity) ∧
    ((q.try_pop out).1 = false ↔ q.size = 0) ∧
    (0 < q.capacity →
      q.capacity ∣ SIZE_MOD ∧ (∃ k, q.capacity = 2 ^ k) ∧
        ((q.head_ + 1) % SIZE_MOD) &&& q.mask_ = ((q.head_ &&& q.mask_) + 1) % q.capacity ∧
        ((q.tail_ + 1) % SIZE_MOD) &&& q.mask_ = ((q.tail_ &&& q.mask_) + 1) % q.capacity) ∧
    (calls.foldl QueueRun.step { q := q, accepted := q.stored, popped := [] }).accepted =
      (calls.foldl QueueRun.step { q := q, accepted := q.stored, popped := [] }).popped ++
        (calls.foldl QueueRun.step { q := q, accepted := q.stored, popped := [] }).q.stored := by
  refine ⟨?_, ?_, IngestQueue.stored_length q, ?_, ?_, ?_, ?_⟩
  · intro ht
    by_cases hf : q.size = q.capacity
    · simp [IngestQueue.try_push_full q msg hf] at ht
    · obtain ⟨_, _, h3, _, _, h6, h7⟩ := IngestQueue.try_push_ok q hinv msg hf
      exact ⟨h7, h6, h3⟩
  · intro ht
    by_cases he : q.head_ = q.tail_
    · simp [IngestQueue.try_pop_empty q out he] at ht
    · obtain ⟨_, _, h3, _, _⟩ := IngestQueue.try_pop_ok q hinv out he
      refine ⟨?_, ?_, h3⟩
      · simp [IngestQueue.try_pop, he]
      · simp [IngestQueue.try_pop, he]
  · by_cases hf : q.size = q.capacity
    · simp [IngestQueue.try_push_full q msg hf, hf]
    · simp [(IngestQueue.try_push_ok q hinv msg hf).1, hf]
  · rw [← IngestQueue.head_eq_tail_iff q hinv]
    by_cases he : q.head_ = q.tail_
    · simp [IngestQueue.try_pop_empty q out he, he]
    · simp [(IngestQueue.try_pop_ok q hinv out he).1, he]
  · intro hc
    obtain ⟨hd, k, _, hcap, _⟩ := IngestQueue.capacity_dvd q hinv hc
    exact ⟨hd, ⟨k, hcap⟩, IngestQueue.next_slot q hinv hc q.head_ hinv.1,
      IngestQueue.next_slot q hinv hc q.tail_ hinv.2.1⟩
  · exact QueueRun.foldl_fifo calls { q := q, accepted := q.stored, popped := [] } hinv hcalls
      (by simp)

theorem wrappingQueue_inv : wrappingQueue.Inv :=
  ⟨by decide, by decide, by decide, Or.inl ⟨3, by decide, by decide, by decide⟩⟩

theorem ring_wrap_around_witness :
    wrappingQueue.Inv ∧
    (∀ c ∈ [QueueCall.try_push "c", QueueCall.try_pop, QueueCall.try_pop, QueueCall.try_pop],
      c.isPushPop = true) ∧
    (wrappingQueue.try_push "c").1 = true ∧
    (wrappingQueue.try_push "c").2.head_ = 0 ∧
    (wrappingQueue.try_push "c").2.size = 3 ∧
    (List.foldl QueueRun.step { q := wrappingQueue, accepted := wrappingQueue.stored, popped := [] }
        [QueueCall.try_push "c", QueueCall.try_pop, QueueCall.try_pop,
          QueueCall.try_pop]).popped = ["a", "b", "c"] ∧
    (List.foldl QueueRun.step { q := wrappingQueue, accepted := wrappingQueue.stored, popped := [] }
        [QueueCall.try_push "c", QueueCall.try_pop, QueueCall.try_pop,
          QueueCall.try_pop]).accepted =
      (List.foldl QueueRun.step
          { q := wrappingQueue, accepted := wrappingQueue.stored, popped := [] }
          [QueueCall.try_push "c", QueueCall.try_pop, QueueCall.try_pop,
            QueueCall.try_pop]).popped ++
        (List.foldl QueueRun.step
          { q := wrappingQueue, accepted := wrappingQueue.stored, popped := [] }
          [QueueCall.try_push "c", QueueCall.try_pop, QueueCall.try_pop,
            QueueCall.try_pop]).q.stored :=
  ⟨wrappingQueue_inv, by decide, by decide, by decide, by decide, by decide,
    (ring_wrap_around wrappingQueue wrappingQueue_inv "c" ""
      [QueueCall.try_push "c", QueueCall.try_pop, QueueCall.try_pop, QueueCall.try_pop]
      (by decide)).2.2.2.2.2.2⟩

/-! ### TOTP digits -/

/-- Up to nine digits the 32-bit modulus is the power of ten. -/
theorem pow10_u32_eq (d : Nat) (h : d ≤ 9) : pow10_u32 d = 10 ^ d := by
  interval_cases d <;> decide

/-- For ten digits the 32-bit modulus has wrapped: it is `10^10 mod 2^32`. -/
theorem pow10_u32_ten : pow10_u32 10 = 1410065408 := by decide

/-- The RFC 6238 vector: 8 digits at T = 59 s give "94287082". -/
theorem totp_rfc_vector :
    TOTP.new (.ok rfcKey) 8 30 TOTPAlgo.SHA1 =
      .ok { secret_ := rfcKey, digits_ := 8, period_ := 30, algo_ := TOTPAlgo.SHA1 } ∧
    TOTP.code_at { secret_ := rfcKey, digits_ := 8, period_ := 30, algo_ := TOTPAlgo.SHA1 }
      rfcHmac ⟨59000000000⟩ = .ok "94287082" := by
  refine ⟨by decide, by decide⟩

/-- C30, the code at the failing input: the constructor accepts 10 digits;
for the RFC key at T = 90 s the truncated HMAC value is v = 1726969429, so
v mod 10^10 written with 10 digits is "1726969429", but the modulus computed
in 32 bits is 1410065408 and code_at returns "0316904021". -/
theorem totp_ten_digits_wrap :
    TOTP.new (.ok rfcKey) 10 30 TOTPAlgo.SHA1 =
      .ok { secret_ := rfcKey, digits_ := 10, period_ := 30, algo_ := TOTPAlgo.SHA1 } ∧
    TOTP.code_at { secret_ := rfcKey, digits_ := 10, period_ := 30, algo_ := TOTPAlgo.SHA1 }
      rfcHmac ⟨90000000000⟩ = .ok "0316904021" ∧
    left_pad_int 1726969429 10 = "0316904021" ∧
    1726969429 < 2 ^ 31 ∧
    toString (1726969429 % 10 ^ 10) = "1726969429" := by
  refine ⟨by decide, by decide, by decide, by decide, by decide⟩

/-! ### Transport: sending -/

/-- A run of consecutive failed attempts: while the transport keeps running
and every connect attempt fails, each iteration of `reconnect_loop` notifies
`connecting` and sleeps the next delay of `backoff_seq`. -/
theorem io_thread_all_fail (cfg : WsConfig) (env : WsEnv)
    (hrun : ∀ n, env.running n = true)
    (hfail : ∀ n, connect_once cfg env n = (false, [WsEvent.state "connecting"])) :
    ∀ (fuel n j : Nat),
      io_thread cfg env fuel n (WsPhase.reconnect_loop (backoff_seq cfg.opts j)) false =
        (List.range fuel).flatMap
          (fun k => [WsEvent.state "connecting", WsEvent.sleep (backoff_seq cfg.opts (j + k))]) := by
  intro fuel
  induction fuel with
  | zero => intro n j; rfl
  | succ fuel ih =>
    intro n j
    have e : min (wrapI64 (backoff_seq cfg.opts j * 2)) cfg.opts.backoff_max =
        backoff_seq cfg.opts (j + 1) := rfl
    rw [io_thread, hrun n, hfail (n + 1)]
    simp only [Bool.not_false, Bool.and_self, if_true, Bool.false_eq_true, if_false]
    rw [e, ih (n + 2) (j + 1), List.range_succ_eq_map, List.flatMap_cons, List.flatMap_map]
    simp only [List.singleton_append, List.cons_append, List.nil_append, Nat.add_zero]
    congr 2
    apply List.flatMap_congr
    intro k _
    have hk : j + 1 + k = j + (k + 1) := by omega
    simp only [Function.comp, Nat.succ_eq_add_one, hk]

theorem connect_once_failingEnv (cfg : WsConfig) (n : Nat) :
    connect_once cfg failingEnv n = (false, [WsEvent.state "connecting"]) := by
  unfold connect_once
  cases parse_wss cfg.url <;> rfl

theorem backoff_seq_closed (opts : WsOptions) (h0 : 0 < opts.backoff_initial)
    (hle : opts.backoff_initial ≤ opts.backoff_max) (hmax : opts.backoff_max < 2 ^ 62) :
    ∀ k, backoff_seq opts k = min (opts.backoff_initial * 2 ^ k) opts.backoff_max := by
  intro k
  induction k with
  | zero => simp [backoff_seq, hle]
  | succ k ih =>
    have hpos : 0 < opts.backoff_initial * 2 ^ k := by positivity
    have hw : wrapI64 (backoff_seq opts k * 2) = backoff_seq opts k * 2 := by
      apply wrapI64_id
      · rw [ih]; omega
      · rw [ih]; omega
    rw [backoff_seq, hw, ih, pow_succ]
    have e : opts.backoff_initial * (2 ^ k * 2) = opts.backoff_initial * 2 ^ k * 2 := by ring
    rw [e]
    omega

/-- C23 (as amended). Capped exponential backoff: for every configured
(backoff_initial, backoff_max) with 0 < backoff_initial <= backoff_max (and
backoff_max below 2^62 ms, so that doubling stays in the 64-bit count) and
every run of consecutive failed reconnect attempts, the delays slept are
backoff_seq 0, 1, 2, ...; each is at most backoff_max, the next delay after a
failure is min(2 * previous delay, backoff_max), the sequence is
non-decreasing and it is constant at backoff_max from some attempt on. -/
theorem capped_backoff (cfg : WsConfig) (env : WsEnv) (h0 : 0 < cfg.opts.backoff_initial)
    (hle : cfg.opts.backoff_initial ≤ cfg.opts.backoff_max)
    (hmax : cfg.opts.backoff_max < 2 ^ 62) (hrun : ∀ n, env.running n = true)
    (hfail : ∀ n, connect_once cfg env n = (false, [WsEvent.state "connecting"])) :
    (∀ fuel n, io_thread cfg env fuel n (WsPhase.reconnect_loop cfg.opts.backoff_initial) false =
      (List.range fuel).flatMap
        (fun k => [WsEvent.state "connecting", WsEvent.sleep (backoff_seq cfg.opts k)])) ∧
    (∀ k, backoff_seq cfg.opts k ≤ cfg.opts.backoff_max) ∧
    (∀ k, backoff_seq cfg.opts (k + 1) =
      min (2 * backoff_seq cfg.opts k) cfg.opts.backoff_max) ∧
    (∀ k, backoff_seq cfg.opts k ≤ backoff_seq cfg.opts (k + 1)) ∧
    (∃ K, ∀ k, K ≤ k → backoff_seq cfg.opts k = cfg.opts.backoff_max) := by
  have hc := backoff_seq_closed cfg.opts h0 hle hmax
  have hpos : ∀ k, 0 < cfg.opts.backoff_initial * 2 ^ k := fun k => by positivity
  refine ⟨?_, ?_, ?_, ?_, ?_⟩
  · intro fuel n
    have := io_thread_all_fail cfg env hrun hfail fuel n 0
    simpa [backoff_seq] using this
  · intro k
    rw [hc k]
    exact min_le_right _ _
  · intro k
    have h1 := hc (k + 1)
    have h2 := hc k
    have hp := hpos k
    rw [pow_succ] at h1
    have e : cfg.opts.backoff_initial * (2 ^ k * 2) = cfg.opts.backoff_initial * 2 ^ k * 2 := by
      ring
    rw [e] at h1
    rw [h1, h2]
    omega
  · intro k
    have h1 := hc (k + 1)
    have h2 := hc k
    have hp := hpos k
    rw [pow_succ] at h1
    have e : cfg.opts.backoff_initial * (2 ^ k * 2) = cfg.opts.backoff_initial * 2 ^ k * 2 := by
      ring
    rw [e] at h1
    rw [h1, h2]
    omega
  · refine ⟨cfg.opts.backoff_max.toNat, ?_⟩
    intro k hk
    rw [hc k]
    apply min_eq_right
    have hk2 : (cfg.opts.backoff_max.toNat : Int) < 2 ^ k := by
      have h1 : cfg.opts.backoff_max.toNat < 2 ^ cfg.opts.backoff_max.toNat := Nat.lt_two_pow _
      have h2 : 2 ^ cfg.opts.backoff_max.toNat ≤ 2 ^ k := Nat.pow_le_pow_right (by omega) hk
      have h3 : cfg.opts.backoff_max.toNat < 2 ^ k := lt_of_lt_of_le h1 h2
      exact_mod_cast h3
    have hm : cfg.opts.backoff_max = (cfg.opts.backoff_max.toNat : Int) := by
      rw [Int.toNat_of_nonneg]; omega
    have h2k : (0 : Int) < 2 ^ k := by positivity
    have : (2 : Int) ^ k ≤ cfg.opts.backoff_initial * 2 ^ k := by
      nlinarith
    omega

theorem capped_backoff_witness :
    0 < (cfgDefault "wss://ws.ifelse.io").opts.backoff_initial ∧
    (cfgDefault "wss://ws.ifelse.io").opts.backoff_initial ≤
      (cfgDefault "wss://ws.ifelse.io").opts.backoff_max ∧
    (cfgDefault "wss://ws.ifelse.io").opts.backoff_max < 2 ^ 62 ∧
    (∀ n, failingEnv.running n = true) ∧
    (∀ n, connect_once (cfgDefault "wss://ws.ifelse.io") failingEnv n =
      (false, [WsEvent.state "connecting"])) ∧
    io_thread (cfgDefault "wss://ws.ifelse.io") failingEnv 6 1 (WsPhase.reconnect_loop 500) false =
      (List.range 6).flatMap (fun k => [WsEvent.state "connecting",
        WsEvent.sleep (backoff_seq (cfgDefault "wss://ws.ifelse.io").opts k)]) ∧
    (List.range 6).map (backoff_seq (cfgDefault "wss://ws.ifelse.io").opts) =
      [500, 1000, 2000, 4000, 5000, 5000] :=
  ⟨by decide, by decide, by decide, fun _ => rfl, connect_once_failingEnv _,
    (capped_backoff (cfgDefault "wss://ws.ifelse.io") failingEnv (by decide) (by decide)
      (by decide) (fun _ => rfl) (connect_once_failingEnv _)).1 6 1,
    by decide⟩

/-- C23 (as stated) fails for some configurations. With backoff_initial =
10000 ms and backoff_max = 5000 ms the first delay slept is 10000 ms, above
backoff_max, and the next one is smaller; with backoff_initial = 0 every
delay is 0 and the sequence never reaches backoff_max. -/
theorem capped_backoff_counterexample :
    (ws_run cfgInitialAboveMax failingEnv 2 =
        [WsEvent.state "connecting", WsEvent.state "reconnecting",
          WsEvent.state "connecting", WsEvent.sleep 10000,
          WsEvent.state "connecting", WsEvent.sleep 5000] ∧
      cfgInitialAboveMax.opts.backoff_max < 10000) ∧
    (ws_run cfgInitialZero failingEnv 2 =
        [WsEvent.state "connecting", WsEvent.state "reconnecting",
          WsEvent.state "connecting", WsEvent.sleep 0,
          WsEvent.state "connecting", WsEvent.sleep 0] ∧
      (∀ k, backoff_seq cfgInitialZero.opts k = 0) ∧ cfgInitialZero.opts.backoff_max ≠ 0) := by
  refine ⟨⟨by decide, by decide⟩, ⟨by decide, ?_, by decide⟩⟩
  intro k
  induction k with
  | zero => rfl
  | succ k ih =>
    rw [backoff_seq, ih]
    decide

/-! ### Transport: a URL with another scheme -/

theorem connect_once_bad_scheme (cfg : WsConfig) (hurl : starts_with cfg.url "wss://" = false)
    (env : WsEnv) (n : Nat) :
    connect_once cfg env n = (false, [WsEvent.state "connecting"]) := by
  unfold connect_once parse_wss
  unfold starts_with at hurl
  simp only [hurl]
  rfl

theorem io_thread_fail_events (cfg : WsConfig) (env : WsEnv)
    (hfail : ∀ n, connect_once cfg env n = (false, [WsEvent.state "connecting"])) :
    ∀ (fuel n : Nat) (b : Int),
      ∀ e ∈ io_thread cfg env fuel n (WsPhase.reconnect_loop b) false,
        e = WsEvent.state "connecting" ∨ ∃ ms, e = WsEvent.sleep ms := by
  intro fuel
  induction fuel with
  | zero => intro n b e he; simp [io_thread] at he
  | succ fuel ih =>
    intro n b e he
    rw [io_thread, hfail (n + 1)] at he
    by_cases hr : env.running n = true
    · simp only [hr, Bool.not_false, Bool.and_self, if_true, Bool.false_eq_true, if_false,
        List.singleton_append, List.cons_append, List.nil_append, List.mem_cons] at he
      rcases he with he | he | he
      · exact Or.inl he
      · exact Or.inr ⟨b, he⟩
      · exact ih _ _ e he
    · simp [hr] at he

/-- C26 (as amended). A URL with another scheme: for every URL that does not
begin with "wss://", neither the constructor nor start() reports an error
(start() returns true); the scheme error is raised inside each connect
attempt and caught there, so every attempt fails like a transient connect
failure: the transport notifies connecting, then reconnecting, and for as
long as it runs it retries after each backoff delay, never becoming
connected. -/
theorem bad_scheme_is_retried (cfg : WsConfig) (hurl : starts_with cfg.url "wss://" = false) :
    (WebSocketClient.new cfg.url cfg.opts).start.1 = true ∧
    (∃ e, parse_wss cfg.url = .error e) ∧
    (∀ env n, connect_once cfg env n = (false, [WsEvent.state "connecting"])) ∧
    (∀ env fuel, (∀ n, env.running n = true) →
      ws_run cfg env fuel =
        [WsEvent.state "connecting", WsEvent.state "reconnecting"] ++
          (List.range fuel).flatMap
            (fun k => [WsEvent.state "connecting", WsEvent.sleep (backoff_seq cfg.opts k)])) ∧
    (∀ env fuel, ∀ e ∈ ws_run cfg env fuel,
      e ≠ WsEvent.state "connected" ∧ (∀ m, e ≠ WsEvent.message m) ∧
        e ≠ WsEvent.resubscribe) := by
  have hfail := connect_once_bad_scheme cfg hurl
  refine ⟨rfl, ?_, hfail, ?_, ?_⟩
  · unfold parse_wss
    unfold starts_with at hurl
    simp only [hurl]
    exact ⟨_, rfl⟩
  · intro env fuel hrun
    have h := io_thread_all_fail cfg env hrun (hfail env) fuel 1 0
    simp only [ws_run, hfail env 0, Bool.not_false, if_true]
    rw [show cfg.opts.backoff_initial = backoff_seq cfg.opts 0 from rfl, h]
    simp
  · intro env fuel e he
    simp only [ws_run, hfail env 0, Bool.not_false, if_true, List.singleton_append,
      List.cons_append, List.nil_append, List.mem_cons] at he
    rcases he with he | he | he
    · subst he; refine ⟨by decide, fun m => by simp, by simp⟩
    · subst he; refine ⟨by decide, fun m => by simp, by simp⟩
    · rcases io_thread_fail_events cfg env (hfail env) fuel 1 _ e he with h | ⟨ms, h⟩
      · subst h; refine ⟨by decide, fun m => by simp, by simp⟩
      · subst h; refine ⟨by simp, fun m => by simp, by simp⟩

theorem bad_scheme_is_retried_witness :
    starts_with (cfgDefault "ws://example.com").url "wss://" = false ∧
    (WebSocketClient.new (cfgDefault "ws://example.com").url
      (cfgDefault "ws://example.com").opts).start.1 = true ∧
    ws_run (cfgDefault "ws://example.com") failingEnv 3 =
      [WsEvent.state "connecting", WsEvent.state "reconnecting"] ++
        (List.range 3).flatMap (fun k => [WsEvent.state "connecting",
          WsEvent.sleep (backoff_seq (cfgDefault "ws://example.com").opts k)]) :=
  ⟨by decide, (bad_scheme_is_retried (cfgDefault "ws://example.com") (by decide)).1,
    (bad_scheme_is_retried (cfgDefault "ws://example.com") (by decide)).2.2.2.1 failingEnv 3
      (fun _ => rfl)⟩

/-- C26 (as stated) fails: for the URL "ws://example.com" the constructor
stores the URL, start() returns true, and the IO thread treats the scheme
error as a failed connect attempt, which it retries after 500 ms, then after
1000 ms, and so on. -/
theorem bad_scheme_counterexample :
    parse_wss "ws://example.com" = .error "WebSocketClient: only wss:// supported" ∧
    (WebSocketClient.new "ws://example.com" (cfgDefault "").opts).start.1 = true ∧
    ws_run (cfgDefault "ws://example.com") failingEnv 2 =
      [WsEvent.state "connecting", WsEvent.state "reconnecting",
        WsEvent.state "connecting", WsEvent.sleep 500,
        WsEvent.state "connecting", WsEvent.sleep 1000] := by
  refine ⟨by decide, by decide, by decide⟩

/-! ### Transport: the resubscribe hook -/

theorem connect_once_events (cfg : WsConfig) (env : WsEnv) (n : Nat) :
    ((connect_once cfg env n).1 = true →
      (connect_once cfg env n).2 = [WsEvent.state "connecting", WsEvent.state "connected"]) ∧
    ((connect_once cfg env n).1 = false →
      (connect_once cfg env n).2 = [WsEvent.state "connecting"]) := by
  unfold connect_once
  cases parse_wss cfg.url with
  | error e => simp
  | ok v => cases env.network n <;> simp

theorem resubOK_state_other (s : String) (h : s ≠ "connected") (rest : List WsEvent) :
    resubOK (WsEvent.state s :: rest) = resubOK rest := by
  cases rest with
  | nil => simp [resubOK, h]
  | cons e r => cases e <;> simp [resubOK, h]

theorem resubOK_connected (rest : List WsEvent) :
    resubOK (WsEvent.state "connected" :: WsEvent.resubscribe :: rest) = resubOK rest := by
  simp [resubOK]

theorem resubOK_sleep (ms : Int) (rest : List WsEvent) :
    resubOK (WsEvent.sleep ms :: rest) = resubOK rest := by
  simp [resubOK]

theorem resubOK_message (m : String) (rest : List WsEvent) :
    resubOK (WsEvent.message m :: rest) = resubOK rest := by
  simp [resubOK]

theorem resubOK_io_thread (cfg : WsConfig) (env : WsEnv) (hhook : cfg.has_on_resub = true) :
    ∀ (fuel n : Nat) (ph : WsPhase) (c : Bool),
      resubOK (io_thread cfg env fuel n ph c) = true := by
  intro fuel
  induction fuel with
  | zero => intro n ph c; rfl
  | succ fuel ih =>
    intro n ph c
    cases ph with
    | read_loop =>
      rw [io_thread]
      by_cases hr : env.running n = true
      · rw [if_pos hr]
        cases hread : env.read (n + 1) with
        | some m =>
          simp only []
          cases cfg.has_on_msg
          · simpa using ih _ _ _
          · simpa [resubOK_message] using ih _ _ _
        | none =>
          simp only []
          by_cases hr2 : env.running (n + 2) = true
          · simp only [hr2, Bool.not_true, Bool.false_eq_true, if_false]
            rw [resubOK_state_other _ (by decide)]
            exact ih _ _ _
          · simp [hr2, resubOK]
      · rw [if_neg hr]; rfl
    | reconnect_loop b =>
      rw [io_thread]
      by_cases hr : (env.running n && !c) = true
      · rw [if_pos hr]
        by_cases hc : (connect_once cfg env (n + 1)).1 = true
        · rw [if_pos hc, (connect_once_events cfg env (n + 1)).1 hc, hhook]
          simp only [if_true, List.cons_append, List.nil_append, List.singleton_append]
          rw [resubOK_state_other _ (by decide), resubOK_connected]
          exact ih _ _ _
        · rw [if_neg hc, (connect_once_events cfg env (n + 1)).2 (by simpa using hc)]
          simp only [List.cons_append, List.nil_append, List.singleton_append]
          rw [resubOK_state_other _ (by decide), resubOK_sleep]
          exact ih _ _ _
      · rw [if_neg hr]; rfl

/-- C27. Resubscribe ordering: in every run of the transport state machine
with an on_resubscribe hook set, after the events of the first connect
attempt every connected notification (a successful connect made while
reconnecting) is followed at once by exactly one on_resubscribe call, before
the read loop is re-entered and hence before any on_message of the new
connection, and on_resubscribe is called nowhere else: not after the first
connect, not after a failed attempt. -/
theorem resubscribe_ordering (cfg : WsConfig) (env : WsEnv) (fuel : Nat)
    (hhook : cfg.has_on_resub = true) :
    ∃ tail, ws_run cfg env fuel = (connect_once cfg env 0).2 ++ tail ∧
      resubOK tail = true ∧
      (∀ e ∈ (connect_once cfg env 0).2, e ≠ WsEvent.resubscribe) := by
  have hev := connect_once_events cfg env 0
  by_cases hc : (connect_once cfg env 0).1 = true
  · refine ⟨io_thread cfg env fuel 1 WsPhase.read_loop true, ?_,
      resubOK_io_thread cfg env hhook _ _ _ _, ?_⟩
    · simp [ws_run, hc]
    · rw [hev.1 hc]; simp
  · refine ⟨WsEvent.state "reconnecting" ::
        io_thread cfg env fuel 1 (WsPhase.reconnect_loop cfg.opts.backoff_initial) false, ?_, ?_, ?_⟩
    · simp [ws_run, hc]
    · rw [resubOK_state_other _ (by decide)]
      exact resubOK_io_thread cfg env hhook _ _ _ _
    · rw [hev.2 (by simpa using hc)]; simp

theorem resubscribe_ordering_witness :
    (cfgDefault "wss://ws.ifelse.io").has_on_resub = true ∧
    ws_run (cfgDefault "wss://ws.ifelse.io") reconnectEnv 4 =
      [WsEvent.state "connecting", WsEvent.state "reconnecting", WsEvent.state "connecting",
        WsEvent.state "connected", WsEvent.resubscribe, WsEvent.message "m",
        WsEvent.state "reconnecting", WsEvent.state "connecting", WsEvent.sleep 500] ∧
    ∃ tail, ws_run (cfgDefault "wss://ws.ifelse.io") reconnectEnv 4 =
        (connect_once (cfgDefault "wss://ws.ifelse.io") reconnectEnv 0).2 ++ tail ∧
      resubOK tail = true ∧
      (∀ e ∈ (connect_once (cfgDefault "wss://ws.ifelse.io") reconnectEnv 0).2,
        e ≠ WsEvent.resubscribe) :=
  ⟨rfl, by decide, resubscribe_ordering (cfgDefault "wss://ws.ifelse.io") reconnectEnv 4 rfl⟩

/-! ### Consumer -/

theorem lookup_map_replace_ne (k t : String) (v : LTP) (l : List (String × LTP)) (h : k ≠ t) :
    (l.map (fun kv => if kv.1 == k then (kv.1, v) else kv)).lookup t = l.lookup t := by
  induction l with
  | nil => rfl
  | cons a l ih =>
    obtain ⟨a1, a2⟩ := a
    by_cases hk : a1 = k
    · subst hk
      have hne : (t == a1) = false := by
        rw [beq_eq_false_iff_ne]; exact fun e => h e.symm
      have e : (if ((a1, a2) : String × LTP).1 == a1 then (((a1, a2) : String × LTP).1, v)
          else (a1, a2)) = (a1, v) := by simp
      rw [List.map_cons, e]
      simp only [List.lookup, hne]
      exact ih
    · have hne' : (a1 == k) = false := by
        rw [beq_eq_false_iff_ne]; exact hk
      have e : (if ((a1, a2) : String × LTP).1 == k then (((a1, a2) : String × LTP).1, v)
          else (a1, a2)) = (a1, a2) := by simp [hne']
      rw [List.map_cons, e]
      cases ht : (t == a1)
      · simp only [List.lookup, ht]
        exact ih
      · simp only [List.lookup, ht]

theorem lookup_append_ne (k t : String) (v : LTP) (l : List (String × LTP)) (h : k ≠ t) :
    (l ++ [(k, v)]).lookup t = l.lookup t := by
  induction l with
  | nil =>
    have hne : (t == k) = false := by
      rw [beq_eq_false_iff_ne]; exact fun e => h e.symm
    simp [List.lookup, hne]
  | cons a l ih =>
    obtain ⟨a1, a2⟩ := a
    cases ht : (t == a1)
    · simp only [List.cons_append, List.lookup, ht]
      exact ih
    · simp only [List.cons_append, List.lookup, ht]

/-- An upsert leaves the records of the other tokens as they were. -/
theorem LTPStore.get_upsert_ne (s : LTPStore) (v : LTP) (t : String) (h : v.token ≠ t) :
    (s.upsert v).get t = s.get t := by
  unfold LTPStore.upsert LTPStore.get
  by_cases hany : s.map_.any (fun kv => kv.1 == v.token) = true
  · rw [if_pos hany]
    exact lookup_map_replace_ne v.token t v s.map_ h
  · rw [if_neg hany]
    exact lookup_append_ne v.token t v s.map_ h

/-- After a sequence of upserts the store holds, for each token, the last
record of the sequence with that token, and what it held before for the
tokens of no record. -/
theorem LTPStore.get_foldl_upsert (recs : List LTP) (t : String) :
    ∀ s : LTPStore, (recs.foldl LTPStore.upsert s).get t =
      match (recs.filter (fun r => r.token == t)).getLast? with
      | some r => some r
      | none => s.get t := by
  induction recs with
  | nil => intro s; rfl
  | cons r recs ih =>
    intro s
    rw [List.foldl_cons, ih]
    by_cases hr : r.token = t
    · have hb : (r.token == t) = true := by simpa using hr
      have hf : List.filter (fun r => r.token == t) (r :: recs) =
          r :: List.filter (fun r => r.token == t) recs := by
        simp [List.filter_cons, hb]
      rw [hf]
      cases hl : List.filter (fun r => r.token == t) recs with
      | nil =>
        simp only [List.getLast?_nil, List.getLast?_singleton]
        rw [← hr]
        exact LTPStore.get_upsert s r
      | cons b bs =>
        rw [List.getLast?_cons_cons]
        cases hlast : (b :: bs).getLast? with
        | none => simp at hlast
        | some z => rfl
    · have hb : ¬ (r.token == t) = true := by simpa using hr
      have hf : List.filter (fun r => r.token == t) (r :: recs) =
          List.filter (fun r => r.token == t) recs := by
        simp [List.filter_cons, hr]
      rw [hf]
      cases hl : (List.filter (fun r => r.token == t) recs).getLast? with
      | none => exact LTPStore.get_upsert_ne s r t hr
      | some z => rfl

theorem Consumer.body_idle (L : Lib) (c : Consumer) (msg : String) (hinv : c.q_.Inv)
    (hq : c.q_.stored = []) : Consumer.body L c msg = (c, msg) := by
  have he : c.q_.head_ = c.q_.tail_ :=
    (IngestQueue.head_eq_tail_iff _ hinv).2 ((IngestQueue.stored_eq_nil_iff _).1 hq)
  unfold Consumer.body
  rw [IngestQueue.try_pop_empty _ _ he]
  rfl

theorem Consumer.run_idle (L : Lib) :
    ∀ (fuel : Nat) (c : Consumer) (msg : String), c.q_.Inv → c.q_.stored = [] →
      Consumer.run L fuel c msg = c := by
  intro fuel
  induction fuel with
  | zero => intro c msg _ _; rfl
  | succ fuel ih =>
    intro c msg hinv hq
    rw [Consumer.run]
    split
    · rw [Consumer.body_idle L c msg hinv hq]
      exact ih c msg hinv hq
    · rfl

theorem Consumer.run_escaped (L : Lib) (fuel : Nat) (c : Consumer) (msg : String)
    (h : c.escaped ≠ none) : Consumer.run L fuel c msg = c := by
  cases fuel with
  | zero => rfl
  | succ fuel =>
    rw [Consumer.run, if_neg]
    exact fun hh => h hh.2

theorem Consumer.body_pop (L : Lib) (c : Consumer) (msg a : String) (rest : List String)
    (hinv : c.q_.Inv) (hq : c.q_.stored = a :: rest) :
    ∃ q, q.Inv ∧ q.stored = rest ∧
      Consumer.body L c msg =
        (match c.parser_.parse_ltp L a with
          | none => { c with q_ := q }
          | some ltp =>
            match c.sink_ with
            | none =>
              { c with q_ := q, store_ := c.store_.upsert ltp
                       calls := c.calls ++ [ConsumerCall.upsert ltp] }
            | some f =>
              match f ltp with
              | .ok _ =>
                { c with q_ := q, store_ := c.store_.upsert ltp
                         calls := c.calls ++ [ConsumerCall.upsert ltp] ++
                           [ConsumerCall.sink ltp] }
              | .error e =>
                { c with q_ := q, store_ := c.store_.upsert ltp
                         calls := c.calls ++ [ConsumerCall.upsert ltp] ++
                           [ConsumerCall.sink ltp]
                         escaped := some e }, a) := by
  have hne : c.q_.head_ ≠ c.q_.tail_ := by
    intro he
    have := (IngestQueue.stored_eq_nil_iff _).2 ((IngestQueue.head_eq_tail_iff _ hinv).1 he)
    rw [hq] at this
    exact List.cons_ne_nil _ _ this
  obtain ⟨h1, hinv1, hst, _, _⟩ := IngestQueue.try_pop_ok c.q_ hinv msg hne
  rw [hq, List.cons.injEq] at hst
  obtain ⟨ha, hrest⟩ := hst
  refine ⟨(c.q_.try_pop msg).2.2, hinv1, hrest.symm, ?_⟩
  unfold Consumer.body
  simp only [h1, Bool.true_eq_false, if_false, ← ha]
  cases c.parser_.parse_ltp L a with
  | none => rfl
  | some ltp =>
    cases hs : c.sink_ with
    | none => simp only [hs]
    | some f =>
      simp only [hs]
      cases f ltp with
      | ok u => rfl
      | error e => rfl

theorem Consumer.run_records (L : Lib) (pre : List String) :
    ∀ (c : Consumer) (msg : String) (rest : List String) (k : Nat),
      c.q_.Inv → c.running_ = true → c.escaped = none → c.q_.stored = pre ++ rest →
      (∀ f, c.sink_ = some f → ∀ r ∈ pre.filterMap (c.parser_.parse_ltp L), f r = .ok ()) →
      ∃ q msg1, q.Inv ∧ q.stored = rest ∧
        Consumer.run L (pre.length + k) c msg =
          Consumer.run L k
            { c with q_ := q
                     store_ := (pre.filterMap (c.parser_.parse_ltp L)).foldl
                       LTPStore.upsert c.store_
                     calls := c.calls ++
                       (pre.filterMap (c.parser_.parse_ltp L)).flatMap (recordCalls c.sink_) }
            msg1 := by
  induction pre with
  | nil =>
    intro c msg rest k hinv _ _ hq _
    refine ⟨c.q_, msg, hinv, by simpa using hq, ?_⟩
    simp
  | cons a pre ih =>
    intro c msg rest k hinv hrun hesc hq hsink
    obtain ⟨q, hqinv, hqst, hbody⟩ := Consumer.body_pop L c msg a (pre ++ rest) hinv
      (by simpa using hq)
    have hlen : (a :: pre).length + k = (pre.length + k) + 1 := by
      simp only [List.length_cons]; omega
    rw [hlen, Consumer.run, if_pos ⟨hrun, hesc⟩, hbody]
    obtain ⟨cq, cp, cs, csink, crun, ccalls, cesc⟩ := c
    simp only at hinv hrun hesc hq hsink ⊢
    cases hp : cp.parse_ltp L a with
    | none =>
      simp only [List.filterMap_cons, hp] at hsink ⊢
      obtain ⟨q2, m2, h2inv, h2st, h2⟩ := ih ⟨q, cp, cs, csink, crun, ccalls, cesc⟩ a rest k
        hqinv hrun hesc hqst hsink
      exact ⟨q2, m2, h2inv, h2st, h2⟩
    | some ltp =>
      simp only [List.filterMap_cons, hp, List.mem_cons, forall_eq_or_imp] at hsink ⊢
      cases csink with
      | none =>
        simp only at hsink ⊢
        obtain ⟨q2, m2, h2inv, h2st, h2⟩ := ih
          ⟨q, cp, cs.upsert ltp, none, crun, ccalls ++ [ConsumerCall.upsert ltp], cesc⟩
          a rest k hqinv hrun hesc hqst (by intro f hf; cases hf)
        refine ⟨q2, m2, h2inv, h2st, ?_⟩
        rw [h2]
        simp only [List.foldl_cons, List.flatMap_cons, recordCalls, List.append_assoc]
      | some f =>
        have hok : f ltp = .ok () := (hsink f rfl).1
        simp only [hok] at hsink ⊢
        obtain ⟨q2, m2, h2inv, h2st, h2⟩ := ih
          ⟨q, cp, cs.upsert ltp, some f, crun,
            ccalls ++ [ConsumerCall.upsert ltp] ++ [ConsumerCall.sink ltp], cesc⟩
          a rest k hqinv hrun hesc hqst (fun g hg => (hsink g hg).2)
        refine ⟨q2, m2, h2inv, h2st, ?_⟩
        rw [h2]
        simp only [List.foldl_cons, List.flatMap_cons, recordCalls, List.append_assoc,
          List.cons_append, List.nil_append]

theorem Consumer.run_all (L : Lib) (c : Consumer) (msg : String) (fuel : Nat)
    (hinv : c.q_.Inv) (hrun : c.running_ = true) (hesc : c.escaped = none)
    (hsink : ∀ f, c.sink_ = some f →
      ∀ r ∈ c.q_.stored.filterMap (c.parser_.parse_ltp L), f r = .ok ())
    (hfuel : c.q_.stored.length ≤ fuel) :
    (Consumer.run L fuel c msg).q_.stored = [] ∧
    (Consumer.run L fuel c msg).store_ =
      (c.q_.stored.filterMap (c.parser_.parse_ltp L)).foldl LTPStore.upsert c.store_ ∧
    (Consumer.run L fuel c msg).calls =
      c.calls ++ (c.q_.stored.filterMap (c.parser_.parse_ltp L)).flatMap
        (recordCalls c.sink_) ∧
    (Consumer.run L fuel c msg).escaped = none ∧
    (Consumer.run L fuel c msg).running_ = true := by
  obtain ⟨q, m1, hqinv, hqst, h⟩ := Consumer.run_records L c.q_.stored c msg []
    (fuel - c.q_.stored.length) hinv hrun hesc (by simp) hsink
  have hf : c.q_.stored.length + (fuel - c.q_.stored.length) = fuel := by omega
  rw [hf] at h
  rw [h, Consumer.run_idle L _ _ _ hqinv hqst]
  exact ⟨hqst, rfl, rfl, hesc, hrun⟩

/-- C25. Consumer pipeline result: for every queue content f1..fn and every
sink that returns normally on the records handed to it, once the consumer
has made at least n passes of its loop the queue is drained and the store is
the result of upserting, in frame order, the records parsed from the frames
(frames whose parse is None contribute nothing): for every token t it holds
the record of the last frame whose parse yields t, and what it held before
(nothing, for a new store) when no frame yields t; the calls made are, per
parsed frame and in frame order, the upsert followed, when a sink is
configured, by exactly one invocation of the sink with that record. Further
passes find the queue empty and change nothing. -/
theorem consumer_pipeline (L : Lib) (c : Consumer) (msg : String) (fuel : Nat)
    (hinv : c.q_.Inv) (hrun : c.running_ = true) (hesc : c.escaped = none)
    (hsink : ∀ f, c.sink_ = some f →
      ∀ r ∈ c.q_.stored.filterMap (c.parser_.parse_ltp L), f r = .ok ())
    (hfuel : c.q_.stored.length ≤ fuel) :
    (Consumer.run L fuel c msg).q_.stored = [] ∧
    (Consumer.run L fuel c msg).store_ =
      (c.q_.stored.filterMap (c.parser_.parse_ltp L)).foldl LTPStore.upsert c.store_ ∧
    (∀ t, (Consumer.run L fuel c msg).store_.get t =
      match ((c.q_.stored.filterMap (c.parser_.parse_ltp L)).filter
        (fun r => r.token == t)).getLast? with
      | some r => some r
      | none => c.store_.get t) ∧
    (Consumer.run L fuel c msg).calls =
      c.calls ++ (c.q_.stored.filterMap (c.parser_.parse_ltp L)).flatMap
        (recordCalls c.sink_) ∧
    (Consumer.run L fuel c msg).escaped = none ∧
    (Consumer.run L fuel c msg).running_ = true := by
  obtain ⟨h1, h2, h3, h4, h5⟩ := Consumer.run_all L c msg fuel hinv hrun hesc hsink hfuel
  refine ⟨h1, h2, ?_, h3, h4, h5⟩
  intro t
  rw [h2]
  exact LTPStore.get_foldl_upsert _ t c.store_

theorem testConsumer_inv (sink : Option SinkFn) : (testConsumer sink).q_.Inv :=
  (pushAll_ok testFrames (IngestQueue.new 64) (IngestQueue.inv_new 64 (by decide)).1
    (by decide)).2.1

theorem consumer_pipeline_witness :
    (testConsumer (some quietSink)).q_.stored = testFrames ∧
    (testConsumer (some quietSink)).q_.stored.filterMap
        ((testConsumer (some quietSink)).parser_.parse_ltp testLib) =
      [⟨"26000", px_101_5, ⟨1728123000000000000⟩⟩, ⟨"26001", px_202_25, ⟨1728123001000000000⟩⟩,
        ⟨"26000", px_103, ⟨1728123002000000000⟩⟩] ∧
    (Consumer.run testLib 3 (testConsumer (some quietSink)) "").store_.get "26000" =
      some ⟨"26000", px_103, ⟨1728123002000000000⟩⟩ ∧
    (Consumer.run testLib 3 (testConsumer (some quietSink)) "").store_.get "26001" =
      some ⟨"26001", px_202_25, ⟨1728123001000000000⟩⟩ ∧
    (Consumer.run testLib 3 (testConsumer (some quietSink)) "").store_.get "26002" = none ∧
    (Consumer.run testLib 3 (testConsumer (some quietSink)) "").calls =
      (testConsumer (some quietSink)).calls ++
        ((testConsumer (some quietSink)).q_.stored.filterMap
          ((testConsumer (some quietSink)).parser_.parse_ltp testLib)).flatMap
          (recordCalls (testConsumer (some quietSink)).sink_) :=
  ⟨by decide, by decide, by decide, by decide, by decide,
    (consumer_pipeline testLib (testConsumer (some quietSink)) "" 3
      (testConsumer_inv (some quietSink)) rfl rfl (fun g hg v _ => by rw [← Option.some.inj hg]; rfl) (by decide)).2.2.2.1⟩

/-- C24 (as amended). Consumer sink failure: no statement of Consumer::run
is inside a try block, so a failure of the sink is not caught. For every
queue content and every sink, if the sink returns normally on the records of
the frames before some frame x and raises on the record parsed from x, the
exception leaves run() and the consumer stops there: the record of x has
been upserted, the sink has been invoked with it, the frames after x are
still in the queue, never popped, parsed or upserted, and the store is the
result of upserting the records up to x only. With a sink that never raises
the store is the result of upserting the records of all the frames. -/
theorem sink_failure_ends_run (L : Lib) (c : Consumer) (msg : String) (fuel : Nat) (f : SinkFn)
    (pre post : List String) (x : String) (r : LTP) (e : String)
    (hinv : c.q_.Inv) (hrun : c.running_ = true) (hesc : c.escaped = none)
    (hs : c.sink_ = some f) (hq : c.q_.stored = pre ++ x :: post)
    (hpre : ∀ v ∈ pre.filterMap (c.parser_.parse_ltp L), f v = .ok ())
    (hx : c.parser_.parse_ltp L x = some r) (hraise : f r = .error e)
    (hfuel : pre.length + 1 ≤ fuel) :
    (Consumer.run L fuel c msg).escaped = some e ∧
    (Consumer.run L fuel c msg).q_.stored = post ∧
    (Consumer.run L fuel c msg).store_ =
      (pre.filterMap (c.parser_.parse_ltp L) ++ [r]).foldl LTPStore.upsert c.store_ ∧
    (Consumer.run L fuel c msg).calls =
      c.calls ++ (pre.filterMap (c.parser_.parse_ltp L)).flatMap (recordCalls (some f)) ++
        [ConsumerCall.upsert r, ConsumerCall.sink r] ∧
    (∀ (g : SinkFn) (n : Nat), (∀ v, g v = .ok ()) → (pre ++ x :: post).length ≤ n →
      (Consumer.run L n { c with sink_ := some g } msg).store_ =
        ((pre ++ x :: post).filterMap (c.parser_.parse_ltp L)).foldl LTPStore.upsert c.store_ ∧
      (Consumer.run L n { c with sink_ := some g } msg).escaped = none) := by
  obtain ⟨q, m1, hqinv, hqst, h⟩ := Consumer.run_records L pre c msg (x :: post)
    (fuel - pre.length) hinv hrun hesc hq (fun g hg => by
      rw [hs] at hg
      cases hg
      exact hpre)
  have hf : pre.length + (fuel - pre.length) = fuel := by omega
  obtain ⟨k, hk⟩ : ∃ k, fuel - pre.length = k + 1 := ⟨fuel - pre.length - 1, by omega⟩
  rw [hf, hk] at h
  simp only [hs] at h
  obtain ⟨q2, hq2inv, hq2st, hbody⟩ := Consumer.body_pop L
    { c with q_ := q
             store_ := (pre.filterMap (c.parser_.parse_ltp L)).foldl LTPStore.upsert c.store_
             calls := c.calls ++
               (pre.filterMap (c.parser_.parse_ltp L)).flatMap (recordCalls c.sink_) }
    m1 x post hqinv hqst
  simp only [hx, hs, hraise] at hbody
  rw [h, Consumer.run, if_pos ⟨hrun, hesc⟩, hbody, Consumer.run_escaped L k _ _ (by simp)]
  refine ⟨rfl, hq2st, ?_, ?_, ?_⟩
  · simp only [List.foldl_append, List.foldl_cons, List.foldl_nil]
  · simp only [hs, List.append_assoc, List.cons_append, List.nil_append]
  · intro g n hg hn
    have hp := Consumer.run_all L { c with sink_ := some g } msg n hinv hrun hesc
      (fun g2 hg2 v _ => by rw [← Option.some.inj hg2]; exact hg v) (by rw [hq]; exact hn)
    simp only [hq] at hp
    exact ⟨hp.2.1, hp.2.2.2.1⟩

theorem sink_failure_ends_run_witness :
    (testConsumer (some failingSink)).q_.stored =
      [mk_msg "nse_cm|26000" "101.500000" 1728123000000] ++
        mk_msg "nse_cm|26001" "202.250000" 1728123001000 ::
          [mk_msg "nse_cm|26000" "103.000000" 1728123002000] ∧
    failingSink ⟨"26001", px_202_25, ⟨1728123001000000000⟩⟩ = .error "sink failed" ∧
    (Consumer.run testLib 3 (testConsumer (some failingSink)) "").escaped =
      some "sink failed" ∧
    (Consumer.run testLib 3 (testConsumer (some failingSink)) "").q_.stored =
      [mk_msg "nse_cm|26000" "103.000000" 1728123002000] ∧
    (Consumer.run testLib 3 (testConsumer (some failingSink)) "").calls =
      [ConsumerCall.upsert ⟨"26000", px_101_5, ⟨1728123000000000000⟩⟩,
        ConsumerCall.sink ⟨"26000", px_101_5, ⟨1728123000000000000⟩⟩,
        ConsumerCall.upsert ⟨"26001", px_202_25, ⟨1728123001000000000⟩⟩,
        ConsumerCall.sink ⟨"26001", px_202_25, ⟨1728123001000000000⟩⟩] ∧
    (Consumer.run testLib 3 (testConsumer (some failingSink)) "").store_ =
      (List.filterMap ((testConsumer (some failingSink)).parser_.parse_ltp testLib)
          [mk_msg "nse_cm|26000" "101.500000" 1728123000000] ++
        [(⟨"26001", px_202_25, ⟨1728123001000000000⟩⟩ : LTP)]).foldl LTPStore.upsert
        (testConsumer (some failingSink)).store_ :=
  ⟨by decide, by decide, by decide, by decide, by decide,
    (sink_failure_ends_run testLib (testConsumer (some failingSink)) "" 3 failingSink
      [mk_msg "nse_cm|26000" "101.500000" 1728123000000]
      [mk_msg "nse_cm|26000" "103.000000" 1728123002000]
      (mk_msg "nse_cm|26001" "202.250000" 1728123001000)
      ⟨"26001", px_202_25, ⟨1728123001000000000⟩⟩ "sink failed"
      (testConsumer_inv (some failingSink)) rfl rfl rfl (by decide) (by decide) (by decide)
      (by decide) (by decide)).2.2.1⟩

/-- C24 (as stated) fails: with the three frames 26000 at 101.5, 26001 at
202.25, 26000 at 103.0 in the queue and a sink that raises on the records of
token 26001, the exception leaves run() at the second frame: the third frame
stays in the queue and the store keeps 101.5 for token 26000, whereas with a
sink that never raises the store ends with 103.0 for token 26000. -/
theorem sink_isolation_counterexample :
    (Consumer.run testLib 5 (testConsumer (some failingSink)) "").escaped =
      some "sink failed" ∧
    (Consumer.run testLib 5 (testConsumer (some failingSink)) "").q_.stored =
      [mk_msg "nse_cm|26000" "103.000000" 1728123002000] ∧
    (Consumer.run testLib 5 (testConsumer (some failingSink)) "").store_.get "26000" =
      some ⟨"26000", px_101_5, ⟨1728123000000000000⟩⟩ ∧
    (Consumer.run testLib 5 (testConsumer (some quietSink)) "").store_.get "26000" =
      some ⟨"26000", px_103, ⟨1728123002000000000⟩⟩ := by
  refine ⟨by decide, by decide, by decide, by decide⟩

end RTMD
